import Mathlib

/-!
Genesis configuration of the ontology node (`common/config/config.go`).

A shallow embedding of the configuration core: the binary encoding of the VBFT
sub-config, the derivation of the default network id, and the extraction of the
bookkeeper keys.

Conventions of the embedding
* A byte is a natural number; every producer of bytes reduces modulo 256.
* `uint32` / `uint64` values are natural numbers, reduced modulo `2^32` /
  `2^64` where the program converts or stores them.
* A Go `string` is its sequence of bytes.
* A Go slice is `Option (List α)`: `none` is the nil slice.
* A Go result `(value, error)` is a pair whose second component is `none`
  when the error is nil.  Pointers to structures are taken to be non-nil.
-/

set_option autoImplicit false

namespace Ontology

/-! ## Bytes, strings, slices, errors -/

/-- One byte of a byte slice. -/
abbrev Byte := Nat

/-- A Go string: an immutable sequence of bytes. -/
abbrev GoString := List Byte

/-- UTF-8 encoding of one code point, as the Go compiler stores a string literal. -/
def utf8EncodeChar (c : Char) : List Byte :=
  let v := c.toNat
  if v < 0x80 then [v]
  else if v < 0x800 then [0xC0 + v / 64, 0x80 + v % 64]
  else if v < 0x10000 then [0xE0 + v / 4096, 0x80 + v / 64 % 64, 0x80 + v % 64]
  else [0xF0 + v / 262144, 0x80 + v / 4096 % 64, 0x80 + v / 64 % 64, 0x80 + v % 64]

/-- Bytes of a list of code points. -/
def utf8EncodeChars : List Char → List Byte
  | [] => []
  | c :: cs => utf8EncodeChar c ++ utf8EncodeChars cs

/-- The Go string written as the literal `s`. -/
def goStr (s : String) : GoString := utf8EncodeChars s.toList

/-- A Go slice: `none` is the nil slice, `some l` a non-nil slice with elements `l`. -/
abbrev Slice (α : Type) := Option (List α)

/-- Elements of a slice in order; what `range` iterates over. -/
def Slice.toList {α : Type} : Slice α → List α
  | none => []
  | some l => l

/-- Built-in `len` of a slice. -/
def Slice.len {α : Type} (s : Slice α) : Nat := (Slice.toList s).length

/-- Built-in `append(s, x)`: the result is never nil. -/
def Slice.append {α : Type} (s : Slice α) (x : α) : Slice α := some (Slice.toList s ++ [x])

/-- Go error values: a plain error (`errors.New`, `fmt.Errorf`) or an error wrapped by
`errors.NewDetailErr(err, errors.ErrNoCode, msg)`. -/
inductive GoError where
  | errorf (msg : GoString) : GoError
  | detail (root : GoError) (msg : GoString) : GoError
  deriving DecidableEq, Repr

/-- The method `Error()`: the message of an error. -/
def GoError.Error : GoError → GoString
  | GoError.errorf msg => msg
  | GoError.detail _ msg => msg

/-- The call `errors.NewDetailErr(err, errors.ErrNoCode, msg)`. -/
def NewDetailErr (err : GoError) (msg : String) : GoError := GoError.detail err (goStr msg)

/-! ## The `serialization` package: writers -/

/-- An `io.Writer` backed by an in-memory buffer (`bytes.Buffer`): its state is the bytes
written so far, and a write never fails. -/
abbrev Writer := List Byte

/-- The method `Write` of the buffer: the bytes are appended, the error is nil. -/
def Writer.Write (w : Writer) (p : List Byte) : Writer × Option GoError := (w ++ p, none)

/-- The call `binary.LittleEndian.PutUint16`: two bytes, least significant first. -/
def PutUint16 (v : Nat) : List Byte := [v % 256, v / 2 ^ 8 % 256]

/-- The call `binary.LittleEndian.PutUint32`: four bytes, least significant first. -/
def PutUint32 (v : Nat) : List Byte :=
  [v % 256, v / 2 ^ 8 % 256, v / 2 ^ 16 % 256, v / 2 ^ 24 % 256]

/-- The call `binary.LittleEndian.PutUint64`: eight bytes, least significant first. -/
def PutUint64 (v : Nat) : List Byte :=
  [v % 256, v / 2 ^ 8 % 256, v / 2 ^ 16 % 256, v / 2 ^ 24 % 256,
   v / 2 ^ 32 % 256, v / 2 ^ 40 % 256, v / 2 ^ 48 % 256, v / 2 ^ 56 % 256]

/-- Modelled from the spec: `serialization.WriteUint32`, which is not among the sources;
a uint32 is written little-endian in a fixed width of 4 bytes. -/
def WriteUint32 (w : Writer) (val : Nat) : Writer × Option GoError :=
  Writer.Write w (PutUint32 val)

/-- Modelled from the spec: `serialization.WriteUint64`, which is not among the sources;
a uint64 is written little-endian in a fixed width of 8 bytes. -/
def WriteUint64 (w : Writer) (val : Nat) : Writer × Option GoError :=
  Writer.Write w (PutUint64 val)

/-- Bytes of the variable-length unsigned integer `value` (a uint64): one byte below
`0xFD`, otherwise a marker byte `0xFD`, `0xFE` or `0xFF` followed by the value in 2, 4 or
8 little-endian bytes. -/
def varUintBytes (value : Nat) : List Byte :=
  if value < 0xFD then [value]
  else if value ≤ 0xFFFF then 0xFD :: PutUint16 value
  else if value ≤ 0xFFFFFFFF then 0xFE :: PutUint32 value
  else 0xFF :: PutUint64 value

/-- Modelled from the spec: `serialization.WriteVarUint`, which is not among the sources;
it writes a variable-length unsigned integer, in the format of the node's wire
protocol. -/
def WriteVarUint (w : Writer) (value : Nat) : Writer × Option GoError :=
  Writer.Write w (varUintBytes value)

/-- Modelled from the spec: `serialization.WriteVarBytes`, which is not among the sources;
a variable-length unsigned byte count followed by the raw bytes. -/
def WriteVarBytes (w : Writer) (value : List Byte) : Writer × Option GoError :=
  match WriteVarUint w (value.length % 2 ^ 64) with
  | (w, some err) => (w, some err)
  | (w, none) => Writer.Write w value

/-- Modelled from the spec: `serialization.WriteString`, which is not among the sources;
a string is written as its byte count followed by its bytes. -/
def WriteString (w : Writer) (value : GoString) : Writer × Option GoError :=
  WriteVarBytes w value

/-! ## The `serialization` package: readers -/

/-- An `io.Reader` over an in-memory byte sequence: its state is the bytes not yet read. -/
abbrev Reader := List Byte

/-- The error of a read that reaches the end of the input too early. -/
def ErrEof : GoError := GoError.errorf (goStr "got EOF, can not get the next byte")

/-- The error of a variable-length integer above the allowed maximum. -/
def ErrRange : GoError := GoError.errorf (goStr "value out of range")

/-- The call `io.ReadFull` on a buffer of `n` bytes: exactly `n` bytes or an error. -/
def ReadFull (r : Reader) (n : Nat) : Except GoError (List Byte × Reader) :=
  if n ≤ r.length then Except.ok (r.take n, r.drop n) else Except.error ErrEof

/-- Modelled from the spec: `serialization.ReadUint16`, which is not among the sources;
two little-endian bytes. -/
def ReadUint16 (r : Reader) : Except GoError (Nat × Reader) :=
  match r with
  | b0 :: b1 :: rest => Except.ok (b0 + b1 * 2 ^ 8, rest)
  | _ => Except.error ErrEof

/-- Modelled from the spec: `serialization.ReadUint32`, which is not among the sources;
four little-endian bytes. -/
def ReadUint32 (r : Reader) : Except GoError (Nat × Reader) :=
  match r with
  | b0 :: b1 :: b2 :: b3 :: rest =>
      Except.ok (b0 + b1 * 2 ^ 8 + b2 * 2 ^ 16 + b3 * 2 ^ 24, rest)
  | _ => Except.error ErrEof

/-- Modelled from the spec: `serialization.ReadUint64`, which is not among the sources;
eight little-endian bytes. -/
def ReadUint64 (r : Reader) : Except GoError (Nat × Reader) :=
  match r with
  | b0 :: b1 :: b2 :: b3 :: b4 :: b5 :: b6 :: b7 :: rest =>
      Except.ok (b0 + b1 * 2 ^ 8 + b2 * 2 ^ 16 + b3 * 2 ^ 24
        + b4 * 2 ^ 32 + b5 * 2 ^ 40 + b6 * 2 ^ 48 + b7 * 2 ^ 56, rest)
  | _ => Except.error ErrEof

/-- Modelled from the spec: `serialization.ReadVarUint`, which is not among the sources;
the inverse of `WriteVarUint`.  A `maxint` of 0 stands for the largest uint64. -/
def ReadVarUint (r : Reader) (maxint : Nat) : Except GoError (Nat × Reader) :=
  let maxint := if maxint = 0 then 2 ^ 64 - 1 else maxint
  match r with
  | [] => Except.error ErrEof
  | fb :: r1 =>
    let res :=
      if fb = 0xFD then ReadUint16 r1
      else if fb = 0xFE then ReadUint32 r1
      else if fb = 0xFF then ReadUint64 r1
      else Except.ok (fb, r1)
    match res with
    | Except.error err => Except.error err
    | Except.ok (v, r2) => if v > maxint then Except.error ErrRange else Except.ok (v, r2)

/-- Modelled from the spec: `serialization.ReadVarBytes`, which is not among the sources;
a byte count, then that many bytes. -/
def ReadVarBytes (r : Reader) : Except GoError (List Byte × Reader) :=
  match ReadVarUint r 0 with
  | Except.error err => Except.error err
  | Except.ok (val, r) => ReadFull r val

/-- Modelled from the spec: `serialization.ReadString`, which is not among the sources;
the inverse of `WriteString`. -/
def ReadString (r : Reader) : Except GoError (GoString × Reader) :=
  ReadVarBytes r

/-! ## The `common` package: account addresses -/

/-- The part of `common.Address` used by the configuration, taken as a parameter because
the `common` package is not among the sources.  An address is a byte array of the fixed
size `ADDR_LEN`; `AddressFromBase58` decodes and validates the checksummed text form and
`ToBase58` produces it. -/
structure AddressLib where
  /-- Size in bytes of the binary form of an address. -/
  ADDR_LEN : Nat
  /-- The function `common.AddressFromBase58`. -/
  AddressFromBase58 : GoString → Except GoError (List Byte)
  /-- The method `Address.ToBase58`. -/
  ToBase58 : List Byte → GoString
  /-- The array type fixes the size of every decoded address. -/
  size_ok : ∀ s a, AddressFromBase58 s = Except.ok a → a.length = ADDR_LEN

/-- The method `Address.Serialize`: the bytes of the array are written as they are. -/
def AddressSerialize (address : List Byte) (w : Writer) : Writer × Option GoError :=
  Writer.Write w address

/-- The method `Address.Deserialize`: the array is filled with `ADDR_LEN` bytes. -/
def AddressDeserialize (lib : AddressLib) (r : Reader) : Except GoError (List Byte × Reader) :=
  ReadFull r lib.ADDR_LEN

/-! ## VBFT genesis configuration -/

/-- The Go struct `VBFTPeerStakeInfo`. -/
structure VBFTPeerStakeInfo where
  /-- A uint32. -/
  Index : Nat
  PeerPubkey : GoString
  Address : GoString
  /-- A uint64. -/
  InitPos : Nat
  deriving DecidableEq, Repr

/-- The Go struct `VBFTConfig`; the nine numeric fields are uint32. -/
structure VBFTConfig where
  N : Nat
  C : Nat
  K : Nat
  L : Nat
  BlockMsgDelay : Nat
  HashMsgDelay : Nat
  PeerHandshakeTimeout : Nat
  MaxBlockChangeView : Nat
  MinInitStake : Nat
  AdminOntID : GoString
  VrfValue : GoString
  VrfProof : GoString
  Peers : Slice VBFTPeerStakeInfo
  deriving DecidableEq, Repr

/-- The zero value `VBFTPeerStakeInfo{}`, as allocated by `new(VBFTPeerStakeInfo)`. -/
def VBFTPeerStakeInfo.zero : VBFTPeerStakeInfo :=
  { Index := 0, PeerPubkey := [], Address := [], InitPos := 0 }

/-- The zero value `VBFTConfig{}`. -/
def VBFTConfig.zero : VBFTConfig :=
  { N := 0, C := 0, K := 0, L := 0, BlockMsgDelay := 0, HashMsgDelay := 0,
    PeerHandshakeTimeout := 0, MaxBlockChangeView := 0, MinInitStake := 0,
    AdminOntID := [], VrfValue := [], VrfProof := [], Peers := none }

/-- The method `(*VBFTPeerStakeInfo).Serialize`: the writer after the call and the
returned error. -/
def VBFTPeerStakeInfo.Serialize (lib : AddressLib) (this : VBFTPeerStakeInfo) (w : Writer) :
    Writer × Option GoError :=
  match WriteUint32 w this.Index with
  | (w, some err) =>
      (w, some (NewDetailErr err "serialization.WriteUint32, serialize index error!"))
  | (w, none) =>
  match WriteString w this.PeerPubkey with
  | (w, some err) =>
      (w, some (NewDetailErr err "serialization.WriteUint32, serialize peerPubkey error!"))
  | (w, none) =>
  match lib.AddressFromBase58 this.Address with
  | Except.error err =>
      (w, some (NewDetailErr err "common.AddressFromBase58, address format error!"))
  | Except.ok address =>
  match AddressSerialize address w with
  | (w, some err) =>
      (w, some (NewDetailErr err "serialization.WriteUint32, serialize address error!"))
  | (w, none) =>
  match WriteUint64 w this.InitPos with
  | (w, some err) =>
      (w, some (NewDetailErr err "serialization.WriteUint32, serialize initPos error!"))
  | (w, none) => (w, none)

/-- The loop `for _, peer := range this.Peers` of `(*VBFTConfig).Serialize`. -/
def serializePeers (lib : AddressLib) : List VBFTPeerStakeInfo → Writer → Writer × Option GoError
  | [], w => (w, none)
  | peer :: rest, w =>
    match VBFTPeerStakeInfo.Serialize lib peer w with
    | (w, some err) => (w, some (NewDetailErr err "serialize peer error!"))
    | (w, none) => serializePeers lib rest w

/-- The method `(*VBFTConfig).Serialize`: the writer after the call and the returned
error. -/
def VBFTConfig.Serialize (lib : AddressLib) (this : VBFTConfig) (w : Writer) :
    Writer × Option GoError :=
  match WriteUint32 w this.N with
  | (w, some err) =>
      (w, some (NewDetailErr err "serialization.WriteUint32, serialize n error!"))
  | (w, none) =>
  match WriteUint32 w this.C with
  | (w, some err) =>
      (w, some (NewDetailErr err "serialization.WriteUint32, serialize c error!"))
  | (w, none) =>
  match WriteUint32 w this.K with
  | (w, some err) =>
      (w, some (NewDetailErr err "serialization.WriteUint32, serialize k error!"))
  | (w, none) =>
  match WriteUint32 w this.L with
  | (w, some err) =>
      (w, some (NewDetailErr err "serialization.WriteUint32, serialize l error!"))
  | (w, none) =>
  match WriteUint32 w this.BlockMsgDelay with
  | (w, some err) =>
      (w, some (NewDetailErr err "serialization.WriteUint32, serialize block_msg_delay error!"))
  | (w, none) =>
  match WriteUint32 w this.HashMsgDelay with
  | (w, some err) =>
      (w, some (NewDetailErr err "serialization.WriteUint32, serialize hash_msg_delay error!"))
  | (w, none) =>
  match WriteUint32 w this.PeerHandshakeTimeout with
  | (w, some err) =>
      (w, some (NewDetailErr err
        "serialization.WriteUint32, serialize peer_handshake_timeout error!"))
  | (w, none) =>
  match WriteUint32 w this.MaxBlockChangeView with
  | (w, some err) =>
      (w, some (NewDetailErr err
        "serialization.WriteUint32, serialize max_block_change_view error!"))
  | (w, none) =>
  match WriteUint32 w this.MinInitStake with
  | (w, some err) =>
      (w, some (NewDetailErr err "serialization.WriteUint32, serialize min_init_stake error!"))
  | (w, none) =>
  match WriteString w this.AdminOntID with
  | (w, some err) =>
      (w, some (NewDetailErr err "serialization.WriteString, serialize admin_ont_id error!"))
  | (w, none) =>
  match WriteString w this.VrfValue with
  | (w, some err) =>
      (w, some (NewDetailErr err "serialization.WriteString, serialize vrf_value error!"))
  | (w, none) =>
  match WriteString w this.VrfProof with
  | (w, some err) =>
      (w, some (NewDetailErr err "serialization.WriteString, serialize vrf_proof error!"))
  | (w, none) =>
  match WriteVarUint w (Slice.len this.Peers % 2 ^ 64) with
  | (w, some err) =>
      (w, some (NewDetailErr err "serialization.WriteVarUint, serialize peer length error!"))
  | (w, none) => serializePeers lib (Slice.toList this.Peers) w

/-- The method `(*VBFTPeerStakeInfo).Deserialize`: the receiver after the call, and the
error or the reader after the call. -/
def VBFTPeerStakeInfo.Deserialize (lib : AddressLib) (this : VBFTPeerStakeInfo) (r : Reader) :
    VBFTPeerStakeInfo × Except GoError Reader :=
  match ReadUint32 r with
  | Except.error err =>
      (this, Except.error (NewDetailErr err "serialization.ReadUint32, deserialize index error!"))
  | Except.ok (index, r) =>
  match ReadString r with
  | Except.error err =>
      (this, Except.error
        (NewDetailErr err "serialization.ReadUint32, deserialize peerPubkey error!"))
  | Except.ok (peerPubkey, r) =>
  match AddressDeserialize lib r with
  | Except.error err =>
      (this, Except.error
        (NewDetailErr err "address.Deserialize, deserialize address error!"))
  | Except.ok (address, r) =>
  match ReadUint64 r with
  | Except.error err =>
      (this, Except.error
        (NewDetailErr err "serialization.ReadUint32, deserialize initPos error!"))
  | Except.ok (initPos, r) =>
      ({ this with
          Index := index, PeerPubkey := peerPubkey,
          Address := lib.ToBase58 address, InitPos := initPos },
        Except.ok r)

/-- The loop `for i := 0; uint64(i) < length; i++` of `(*VBFTConfig).Deserialize`, with
`count` iterations left and `peers` the slice built so far. -/
def deserializePeers (lib : AddressLib) :
    Nat → List VBFTPeerStakeInfo → Reader → Except GoError (List VBFTPeerStakeInfo × Reader)
  | 0, peers, r => Except.ok (peers, r)
  | count + 1, peers, r =>
    match VBFTPeerStakeInfo.Deserialize lib VBFTPeerStakeInfo.zero r with
    | (_, Except.error err) => Except.error (NewDetailErr err "deserialize peer error!")
    | (peer, Except.ok r) => deserializePeers lib count (peers ++ [peer]) r

/-- The method `(*VBFTConfig).Deserialize`: the receiver after the call, and the error or
the reader after the call. -/
def VBFTConfig.Deserialize (lib : AddressLib) (this : VBFTConfig) (r : Reader) :
    VBFTConfig × Except GoError Reader :=
  match ReadUint32 r with
  | Except.error err =>
      (this, Except.error (NewDetailErr err "serialization.ReadUint32, deserialize n error!"))
  | Except.ok (n, r) =>
  match ReadUint32 r with
  | Except.error err =>
      (this, Except.error (NewDetailErr err "serialization.ReadUint32, deserialize c error!"))
  | Except.ok (c, r) =>
  match ReadUint32 r with
  | Except.error err =>
      (this, Except.error (NewDetailErr err "serialization.ReadUint32, deserialize k error!"))
  | Except.ok (k, r) =>
  match ReadUint32 r with
  | Except.error err =>
      (this, Except.error (NewDetailErr err "serialization.ReadUint32, deserialize l error!"))
  | Except.ok (l, r) =>
  match ReadUint32 r with
  | Except.error err =>
      (this, Except.error
        (NewDetailErr err "serialization.ReadUint32, deserialize blockMsgDelay error!"))
  | Except.ok (blockMsgDelay, r) =>
  match ReadUint32 r with
  | Except.error err =>
      (this, Except.error
        (NewDetailErr err "serialization.ReadUint32, deserialize hashMsgDelay error!"))
  | Except.ok (hashMsgDelay, r) =>
  match ReadUint32 r with
  | Except.error err =>
      (this, Except.error
        (NewDetailErr err "serialization.ReadUint32, deserialize peerHandshakeTimeout error!"))
  | Except.ok (peerHandshakeTimeout, r) =>
  match ReadUint32 r with
  | Except.error err =>
      (this, Except.error
        (NewDetailErr err "serialization.ReadUint32, deserialize maxBlockChangeView error!"))
  | Except.ok (maxBlockChangeView, r) =>
  match ReadUint32 r with
  | Except.error err =>
      (this, Except.error
        (NewDetailErr err "serialization.ReadUint32, deserialize minInitStake error!"))
  | Except.ok (minInitStake, r) =>
  match ReadString r with
  | Except.error err =>
      (this, Except.error
        (NewDetailErr err "serialization.ReadString, deserialize adminOntID error!"))
  | Except.ok (adminOntID, r) =>
  match ReadString r with
  | Except.error err =>
      (this, Except.error
        (NewDetailErr err "serialization.ReadString, deserialize vrfValue error!"))
  | Except.ok (vrfValue, r) =>
  match ReadString r with
  | Except.error err =>
      (this, Except.error
        (NewDetailErr err "serialization.ReadString, deserialize vrfProof error!"))
  | Except.ok (vrfProof, r) =>
  match ReadVarUint r 0 with
  | Except.error err =>
      (this, Except.error
        (NewDetailErr err "serialization.ReadVarUint, deserialize peer length error!"))
  | Except.ok (length, r) =>
  match deserializePeers lib length [] r with
  | Except.error err => (this, Except.error err)
  | Except.ok (peers, r) =>
      ({ this with
          N := n, C := c, K := k, L := l, BlockMsgDelay := blockMsgDelay,
          HashMsgDelay := hashMsgDelay, PeerHandshakeTimeout := peerHandshakeTimeout,
          MaxBlockChangeView := maxBlockChangeView, MinInitStake := minInitStake,
          AdminOntID := adminOntID, VrfValue := vrfValue, VrfProof := vrfProof,
          Peers := some peers },
        Except.ok r)

/-! ## Genesis and node configuration -/

/-- The Go struct `DBFTConfig`. -/
structure DBFTConfig where
  GenBlockTime : Nat
  Bookkeepers : Slice GoString
  deriving DecidableEq, Repr

/-- The Go struct `SOLOConfig`. -/
structure SOLOConfig where
  GenBlockTime : Nat
  Bookkeepers : Slice GoString
  deriving DecidableEq, Repr

/-- The Go struct `GenesisConfig`; the three sub-configs are non-nil pointers. -/
structure GenesisConfig where
  SeedList : Slice GoString
  ConsensusType : GoString
  VBFT : VBFTConfig
  DBFT : DBFTConfig
  SOLO : SOLOConfig
  deriving DecidableEq, Repr

/-- The Go struct `OntologyConfig`.  Only `Genesis` is read by the methods embedded here;
the sections `Common`, `Consensus`, `P2PNode`, `Rpc`, `Restful` and `Ws` are left out. -/
structure OntologyConfig where
  Genesis : GenesisConfig
  deriving DecidableEq, Repr

def CONSENSUS_TYPE_DBFT : GoString := goStr "dbft"
def CONSENSUS_TYPE_SOLO : GoString := goStr "solo"
def CONSENSUS_TYPE_VBFT : GoString := goStr "vbft"

def NETWORK_ID_MAIN_NET : Nat := 1
def NETWORK_ID_POLARIS_NET : Nat := 2
def NETWORK_ID_SOLO_NET : Nat := 3
def NETWORK_NAME_MAIN_NET : GoString := goStr "ontology"
def NETWORK_NAME_POLARIS_NET : GoString := goStr "polaris"
def NETWORK_NAME_SOLO_NET : GoString := goStr "testmode"

/-- The map `NETWORK_NAME`, as the list of its entries. -/
def NETWORK_NAME : List (Nat × GoString) :=
  [(NETWORK_ID_MAIN_NET, NETWORK_NAME_MAIN_NET),
   (NETWORK_ID_POLARIS_NET, NETWORK_NAME_POLARIS_NET),
   (NETWORK_ID_SOLO_NET, NETWORK_NAME_SOLO_NET)]

/-- The function `GetNetworkName`; `fmt.Sprintf("%d", id)` is the decimal text of `id`. -/
def GetNetworkName (id : Nat) : GoString :=
  match NETWORK_NAME.lookup id with
  | some name => name
  | none => goStr (Nat.repr id)

/-- The empty sub-config `&DBFTConfig{}`. -/
def DBFTConfig.zero : DBFTConfig := { GenBlockTime := 0, Bookkeepers := none }

/-- The empty sub-config `&SOLOConfig{}`. -/
def SOLOConfig.zero : SOLOConfig := { GenBlockTime := 0, Bookkeepers := none }

/-- The function `NewGenesisConfig`. -/
def NewGenesisConfig : GenesisConfig :=
  { SeedList := some [],
    ConsensusType := CONSENSUS_TYPE_DBFT,
    VBFT := VBFTConfig.zero,
    DBFT := DBFTConfig.zero,
    SOLO := SOLOConfig.zero }

/-- A peer literal of the built-in configurations. -/
def mkPeer (index : Nat) (pubkey address : String) (initPos : Nat) : VBFTPeerStakeInfo :=
  { Index := index, PeerPubkey := goStr pubkey, Address := goStr address, InitPos := initPos }

/-- The built-in configuration `PolarisConfig`. -/
def PolarisConfig : GenesisConfig :=
  { SeedList := some [goStr "127.0.0.1:20418", goStr "127.0.0.1:20428",
      goStr "127.0.0.1:20438", goStr "127.0.0.1:20448"],
    ConsensusType := CONSENSUS_TYPE_VBFT,
    VBFT :=
      { N := 7, C := 2, K := 7, L := 112,
        BlockMsgDelay := 10000, HashMsgDelay := 10000,
        PeerHandshakeTimeout := 10, MaxBlockChangeView := 3000,
        AdminOntID := goStr "did:ont:AMAx993nE6NEqZjwBssUfopxnnvTdob9ij",
        MinInitStake := 10000,
        VrfValue := goStr "1c9810aa9822e511d5804a9c4db9dd08497c31087b0daafa34d768a3253441fa20515e2f30f81741102af0ca3cefc4818fef16adb825fbaa8cad78647f3afb590e",
        VrfProof := goStr "c57741f934042cb8d8b087b44b161db56fc3ffd4ffb675d36cd09f83935be853d8729f3f5298d12d6fd28d45dde515a4b9d7f67682d182ba5118abf451ff1988",
        Peers := some [
          mkPeer 1 "037c9e6c6a446b6b296f89b722cbf686b81e0a122444ef05f0f87096777663284b"
            "AXmQDzzvpEtPkNwBEFsREzApTTDZFW6frD" 10000,
          mkPeer 2 "03dff4c63267ae5e23da44ace1bc47d0da1eb8d36fd71181dcccf0e872cb7b31fa"
            "AY5W6p4jHeZG2jjW6nS1p4KDUhcqLkU6jz" 20000,
          mkPeer 3 "0205bc592aa9121428c4144fcd669ece1fa73fee440616c75624967f83fb881050"
            "ALZVrZrFqoSvqyi38n7mpPoeDp7DMtZ9b6" 30000,
          mkPeer 4 "030a34dcb075d144df1f65757b85acaf053395bb47b019970607d2d1cdd222525c"
            "AMogjmLf2QohTcGST7niV75ekZfj44SKme" 40000,
          mkPeer 5 "021844159f97d81da71da52f84e8451ee573c83b296ff2446387b292e44fba5c98"
            "AZzQTkZvjy7ih9gjvwU8KYiZZyNoy6jE9p" 30000,
          mkPeer 6 "020cc76feb375d6ea8ec9ff653bab18b6bbc815610cecc76e702b43d356f885835"
            "AKEqQKmxCsjWJz8LPGryXzb6nN5fkK1WDY" 20000,
          mkPeer 7 "03aa4d52b200fd91ca12deff46505c4608a0f66d28d9ae68a342c8a8c1266de0f9"
            "AQNpGWz4oHHFBejtBbakeR43DHfen7cm8L" 10000] },
    DBFT := DBFTConfig.zero,
    SOLO := SOLOConfig.zero }

/-- The built-in configuration `MainNetConfig`; its peers leave `InitPos` at zero. -/
def MainNetConfig : GenesisConfig :=
  { SeedList := some [goStr "127.0.0.1:20418", goStr "127.0.0.1:20428",
      goStr "127.0.0.1:20438", goStr "127.0.0.1:20448", goStr "127.0.0.1:20458",
      goStr "127.0.0.1:20468", goStr "127.0.0.1:20478"],
    ConsensusType := CONSENSUS_TYPE_VBFT,
    VBFT :=
      { N := 7, C := 2, K := 7, L := 112,
        BlockMsgDelay := 10000, HashMsgDelay := 10000,
        PeerHandshakeTimeout := 10, MaxBlockChangeView := 120000,
        AdminOntID := goStr "did:ont:AdjfcJgwru2FD8kotCPvLDXYzRjqFjc9Tb",
        MinInitStake := 100000,
        VrfValue := goStr "1c9810aa9822e511d5804a9c4db9dd08497c31087b0daafa34d768a3253441fa20515e2f30f81741102af0ca3cefc4818fef16adb825fbaa8cad78647f3afb590e",
        VrfProof := goStr "c57741f934042cb8d8b087b44b161db56fc3ffd4ffb675d36cd09f83935be853d8729f3f5298d12d6fd28d45dde515a4b9d7f67682d182ba5118abf451ff1988",
        Peers := some [
          mkPeer 1 "ffff89c6d35521e0255d47f0097e202431b1923047622eae4a0a723bd755e37b8fce79a90f3263dfbfc29babf5427a34f0ba42085275ed78073b074a99a1bacc4e2a177b62a42b3afb627b4ad22d9843ab0cf57cb5461ebc780aa3d623dbe061b32a285fa1bbe99121ec8ec8cb1f135d7ff50d760cf8e14d791f0cd93a125c4b3112"
            "Ad3r9vpt7aVC6zcrBXvNwuReTkenrigKCr" 0,
          mkPeer 2 "ffff401d0ebd1c0ae6dd013ac04215c4c0c0a7a21d7f0401b6809137f5475b1ec2f00d02a0b293edf29795c2ffaeee8cbe6c7de121a70c3ba44a12f5e5250413b1ed57af102cbb876a715f38830116954d39d63b760aed6657b4d2f3d6c83198cecc1a7ed0c48b83faf6c697e01675755921620561a026186de9ffb98b469f028599"
            "AKkW4FjMMDt8waDZ7Y3KLYoSSvai1i6gUC" 0,
          mkPeer 3 "ffff2e2da6d8f0da61badbdb66567b0b4fb5b09e8ed924216d58a886f189aa1bc8d458b97f030c8d872dc1210b93083d0220a83e8383a0be7308a389832518d0c76885a398e3e40a00f5ea41283e5f909350345733847b6ec06847e46e2eadb2e5ef4fd4aca6408f1153ffbc73fa5a14236cb9764463bfd1c4ce56b676257bc1c9e0"
            "AVygXFE4Szt2fWAgfjFPn1kNhphCTKQ9rW" 0,
          mkPeer 4 "ffff4e76b2f0846422f27a0c905615129e6609646587cc03d641561142d29e9272f03f22bc90deb1a3e7bd0636c806fc4fc576e4528d721782fc76dc2854891c8c04453a5e497fa29b22ac65564ca6626fb5835795ff4419f3d09eb3e7ede7395f1d6d6980fe6e46c2b598e834ea37057777a58989c60b0b170a4bd54a18aeab699c"
            "AeR1zfA1v1TYb7apqzjzWZ6Xv4xXR3tdDU" 0,
          mkPeer 5 "ffff2f8fddf1571da8b6151b92f58a2b6a7d27cdb7cd81bba10611e1c34aff089190359ca5285613b11c64aeb66213a3a503a7ee18c846dcba8ecefcc71218122f516f8e59b36c0185c39aa9beceb3f432057b6baf428cd24283d250c1e44057597b8cec001a23536012001eb7f7b686b416b507da2e9515acb5d34c52d82aee9fcd"
            "Ae2dp3H2kY6vcMcQBfhc5DUQVCS7Yfuw3B" 0,
          mkPeer 6 "ffff7c2196db99fa816767ee84e129544d9d4c2e9353ee4b3298934fd907270c6c421cb3b88d203b7d101b8e706d605a7f96adfec33c104ca6499d51d95ec00ace7a220ab2ca679e3fe3f9a64e024293e38c08c9ac1841dd0e5809794a9205e4ad7f2beb07df3198031d913b17c83e76b63ef1246f0a3577f7d69fee87445c184dc5"
            "ALqNJ9HVRxxgbKMqfaMThcrYi3GLWn6qFw" 0,
          mkPeer 7 "ffff0b4fd948d1038ce678d9ca07e410029a52a29ff8c8b378e6229c694439a56f2d2ab18043ec96732816b7fbd00bac84cd9823353b8df55291937e96738b80ae838abee92f49439dc7bcb437954145587186e90c9f991c67eb770f0709236b0f666b71d3fb4d1c687c380f5575c5dd34b5849e68645bdef82c3402ff30283caf26"
            "AbtsQ3NGXm1SHtLNo9YL2gTveje6tMcUwE" 0] },
    DBFT := DBFTConfig.zero,
    SOLO := SOLOConfig.zero }

/-- The function `NewOntologyConfig`: the genesis section is `MainNetConfig`. -/
def NewOntologyConfig : OntologyConfig := { Genesis := MainNetConfig }

/-- The package variable `DefConfig`. -/
def DefConfig : OntologyConfig := NewOntologyConfig

/-! ## Bookkeepers -/

/-- The table `reverseHexTable` of `encoding/hex`: the value of a hexadecimal digit. -/
def fromHexChar (c : Byte) : Option Nat :=
  if 48 ≤ c ∧ c ≤ 57 then some (c - 48)
  else if 97 ≤ c ∧ c ≤ 102 then some (c - 97 + 10)
  else if 65 ≤ c ∧ c ≤ 70 then some (c - 65 + 10)
  else none

/-- The error `hex.InvalidByteError` for the byte `b`. -/
def InvalidByteError (b : Byte) : GoError :=
  GoError.errorf (goStr "encoding/hex: invalid byte: " ++ [b])

/-- The error `hex.ErrLength`. -/
def ErrLength : GoError := GoError.errorf (goStr "encoding/hex: odd length hex string")

/-- The function `hex.DecodeString` of the Go library: the decoded bytes and the error.
On malformed input it returns the bytes decoded before the error. -/
def hexDecodeString : GoString → List Byte × Option GoError
  | [] => ([], none)
  | [p] =>
    match fromHexChar p with
    | none => ([], some (InvalidByteError p))
    | some _ => ([], some ErrLength)
  | p :: q :: rest =>
    match fromHexChar p, fromHexChar q with
    | none, _ => ([], some (InvalidByteError p))
    | some _, none => ([], some (InvalidByteError q))
    | some a, some b =>
      match hexDecodeString rest with
      | (bytes, err) => ((a * 16 + b) :: bytes, err)

/-- The part of the `keypair` package of ontology-crypto used by the configuration, taken
as a parameter because that library is not among the sources. -/
structure KeypairLib (PublicKey : Type) where
  /-- The function `keypair.DeserializePublicKey`. -/
  DeserializePublicKey : List Byte → Except GoError PublicKey
  /-- The comparison behind `keypair.SortPublicKeys`: key type first, then the encoded
  coordinates. -/
  Less : PublicKey → PublicKey → Bool
  /-- The function `keypair.SortPublicKeys`, as the content of the slice after the call. -/
  SortPublicKeys : List PublicKey → List PublicKey

/-- The loop `for _, peer := range this.Genesis.VBFT.Peers` of `GetBookkeepers`. -/
def appendPeerPubkeys : Slice GoString → List VBFTPeerStakeInfo → Slice GoString
  | bookKeepers, [] => bookKeepers
  | bookKeepers, peer :: rest =>
      appendPeerPubkeys (Slice.append bookKeepers peer.PeerPubkey) rest

/-- The loop `for _, key := range bookKeepers` of `GetBookkeepers`, with `pubKeys` the
slice built so far: the error of the early return, or the slice after the loop.  The
error of `hex.DecodeString` is overwritten by the next assignment without being read. -/
def deserializeKeys {PublicKey : Type} (kp : KeypairLib PublicKey) :
    List GoString → List PublicKey → Except GoError (List PublicKey)
  | [], pubKeys => Except.ok pubKeys
  | key :: rest, pubKeys =>
    match hexDecodeString key with
    | (pubKey, _) =>
      match kp.DeserializePublicKey pubKey with
      | Except.error _ =>
          Except.error (GoError.errorf (goStr "Incorrectly book keepers key:" ++ key))
      | Except.ok k => deserializeKeys kp rest (pubKeys ++ [k])

/-- The source key list selected by the switch of `GetBookkeepers`, or `none` for an
unsupported consensus type. -/
def selectBookkeepers (this : OntologyConfig) : Option (Slice GoString) :=
  if this.Genesis.ConsensusType = CONSENSUS_TYPE_VBFT then
    some (appendPeerPubkeys none (Slice.toList this.Genesis.VBFT.Peers))
  else if this.Genesis.ConsensusType = CONSENSUS_TYPE_DBFT then
    some this.Genesis.DBFT.Bookkeepers
  else if this.Genesis.ConsensusType = CONSENSUS_TYPE_SOLO then
    some this.Genesis.SOLO.Bookkeepers
  else none

/-- The method `(*OntologyConfig).GetBookkeepers`: the returned key slice (nil on error)
and the returned error. -/
def GetBookkeepers {PublicKey : Type} (kp : KeypairLib PublicKey) (this : OntologyConfig) :
    Slice PublicKey × Option GoError :=
  match selectBookkeepers this with
  | none =>
      (none, some (GoError.errorf
        (goStr "Does not support " ++ this.Genesis.ConsensusType ++ goStr " consensus")))
  | some bookKeepers =>
    match deserializeKeys kp (Slice.toList bookKeepers) [] with
    | Except.error err => (none, some err)
    | Except.ok pubKeys => (some (kp.SortPublicKeys pubKeys), none)

/-! ## Default network id -/

/-- The calls `json.Marshal` and `sha256.Sum256` of the Go library, taken as parameters. -/
structure HashLib where
  /-- The call `json.Marshal(genCfg.VBFT)`: the bytes and the error. -/
  MarshalVBFT : VBFTConfig → List Byte × Option GoError
  /-- The call `json.Marshal(genCfg.DBFT)`: the bytes and the error. -/
  MarshalDBFT : DBFTConfig → List Byte × Option GoError
  /-- The function `sha256.Sum256`; the digest is an array of 32 bytes. -/
  Sum256 : List Byte → List Byte
  /-- The array type fixes the size of the digest. -/
  size_ok : ∀ data, (Sum256 data).length = 32

/-- The call `binary.LittleEndian.Uint32` on a slice of at least four bytes. -/
def LittleEndianUint32 (b : List Byte) : Nat :=
  (b.getD 0 0 % 256) + (b.getD 1 0 % 256) * 2 ^ 8 + (b.getD 2 0 % 256) * 2 ^ 16
    + (b.getD 3 0 % 256) * 2 ^ 24

/-- The tail of `getDefNetworkIDFromGenesisConfig` after the switch: the error check, the
hash, and the first four bytes of the digest read as a little-endian uint32. -/
def hashConfigData (lib : HashLib) (marshalled : List Byte × Option GoError) :
    Nat × Option GoError :=
  match marshalled with
  | (_, some err) => (0, some (GoError.errorf (goStr "json.Marshal error:" ++ err.Error)))
  | (configData, none) => (LittleEndianUint32 ((lib.Sum256 configData).take 4), none)

/-- The method `(*OntologyConfig).getDefNetworkIDFromGenesisConfig`; the switch is on the
consensus type of the receiver, not of `genCfg`. -/
def getDefNetworkIDFromGenesisConfig (lib : HashLib) (this : OntologyConfig)
    (genCfg : GenesisConfig) : Nat × Option GoError :=
  if this.Genesis.ConsensusType = CONSENSUS_TYPE_VBFT then
    hashConfigData lib (lib.MarshalVBFT genCfg.VBFT)
  else if this.Genesis.ConsensusType = CONSENSUS_TYPE_DBFT then
    hashConfigData lib (lib.MarshalDBFT genCfg.DBFT)
  else if this.Genesis.ConsensusType = CONSENSUS_TYPE_SOLO then
    (NETWORK_ID_SOLO_NET, none)
  else
    (0, some (GoError.errorf (goStr "unknown consensus type:" ++ this.Genesis.ConsensusType)))

/-- The method `(*OntologyConfig).GetDefaultNetworkId`. -/
def GetDefaultNetworkId (lib : HashLib) (this : OntologyConfig) : Nat × Option GoError :=
  match getDefNetworkIDFromGenesisConfig lib this this.Genesis with
  | (_, some err) => (0, some err)
  | (defaultNetworkId, none) =>
  match getDefNetworkIDFromGenesisConfig lib this MainNetConfig with
  | (_, some err) => (0, some err)
  | (mainNetId, none) =>
  match getDefNetworkIDFromGenesisConfig lib this PolarisConfig with
  | (_, some err) => (0, some err)
  | (polaridId, none) =>
    if defaultNetworkId = mainNetId then (NETWORK_ID_MAIN_NET, none)
    else if defaultNetworkId = polaridId then (NETWORK_ID_POLARIS_NET, none)
    else (defaultNetworkId, none)

/-! ## Auxiliary definitions used by the statements -/

/-- Bytes written by `WriteString` for the string `s`. -/
def strBytes (s : GoString) : List Byte := varUintBytes (s.length % 2 ^ 64) ++ s

/-- Bytes written by `(*VBFTPeerStakeInfo).Serialize` for a peer whose address decodes to
`address`. -/
def recordBytes (p : VBFTPeerStakeInfo) (address : List Byte) : List Byte :=
  PutUint32 p.Index ++ strBytes p.PeerPubkey ++ address ++ PutUint64 p.InitPos

/-- Bytes written by `(*VBFTConfig).Serialize` before the loop over the peers. -/
def headerBytes (c : VBFTConfig) : List Byte :=
  PutUint32 c.N ++ PutUint32 c.C ++ PutUint32 c.K ++ PutUint32 c.L
    ++ PutUint32 c.BlockMsgDelay ++ PutUint32 c.HashMsgDelay
    ++ PutUint32 c.PeerHandshakeTimeout ++ PutUint32 c.MaxBlockChangeView
    ++ PutUint32 c.MinInitStake
    ++ strBytes c.AdminOntID ++ strBytes c.VrfValue ++ strBytes c.VrfProof
    ++ varUintBytes (Slice.len c.Peers % 2 ^ 64)

/-- Whether `AddressFromBase58` accepts the text `s`. -/
def AddressLib.accepts (lib : AddressLib) (s : GoString) : Bool :=
  match lib.AddressFromBase58 s with
  | Except.ok _ => true
  | Except.error _ => false

/-- The binary address that `AddressFromBase58` decodes from the peer's `Address` (empty
when the text is rejected). -/
def binaryAddress (lib : AddressLib) (p : VBFTPeerStakeInfo) : List Byte :=
  match lib.AddressFromBase58 p.Address with
  | Except.ok a => a
  | Except.error _ => []

/-- The records of a list of peers, one after the other. -/
def peersBytes (lib : AddressLib) : List VBFTPeerStakeInfo → List Byte
  | [] => []
  | p :: ps => recordBytes p (binaryAddress lib p) ++ peersBytes lib ps

/-- The complete encoding of a configuration whose addresses are all accepted. -/
def encodingBytes (lib : AddressLib) (c : VBFTConfig) : List Byte :=
  headerBytes c ++ peersBytes lib (Slice.toList c.Peers)

/-- The peer read back from the record of `p`. -/
def decodedPeer (lib : AddressLib) (p : VBFTPeerStakeInfo) : VBFTPeerStakeInfo :=
  { Index := p.Index % 2 ^ 32, PeerPubkey := p.PeerPubkey,
    Address := lib.ToBase58 (binaryAddress lib p), InitPos := p.InitPos % 2 ^ 64 }

/-- The configuration read back from the encoding of `c`. -/
def decodedConfig (lib : AddressLib) (c : VBFTConfig) : VBFTConfig :=
  { N := c.N % 2 ^ 32, C := c.C % 2 ^ 32, K := c.K % 2 ^ 32, L := c.L % 2 ^ 32,
    BlockMsgDelay := c.BlockMsgDelay % 2 ^ 32, HashMsgDelay := c.HashMsgDelay % 2 ^ 32,
    PeerHandshakeTimeout := c.PeerHandshakeTimeout % 2 ^ 32,
    MaxBlockChangeView := c.MaxBlockChangeView % 2 ^ 32,
    MinInitStake := c.MinInitStake % 2 ^ 32,
    AdminOntID := c.AdminOntID, VrfValue := c.VrfValue, VrfProof := c.VrfProof,
    Peers := some ((Slice.toList c.Peers).map (decodedPeer lib)) }

/-- The lengths of the strings and of the peer slice fit in a uint64, as every Go length
does. -/
def VBFTConfig.Sized (c : VBFTConfig) : Prop :=
  c.AdminOntID.length < 2 ^ 64 ∧ c.VrfValue.length < 2 ^ 64 ∧ c.VrfProof.length < 2 ^ 64
    ∧ Slice.len c.Peers < 2 ^ 64
    ∧ ∀ p ∈ Slice.toList c.Peers, p.PeerPubkey.length < 2 ^ 64

/-- The numeric fields hold values of their Go types: uint32, and uint64 for `InitPos`. -/
def VBFTConfig.InRange (c : VBFTConfig) : Prop :=
  c.N < 2 ^ 32 ∧ c.C < 2 ^ 32 ∧ c.K < 2 ^ 32 ∧ c.L < 2 ^ 32 ∧ c.BlockMsgDelay < 2 ^ 32
    ∧ c.HashMsgDelay < 2 ^ 32 ∧ c.PeerHandshakeTimeout < 2 ^ 32
    ∧ c.MaxBlockChangeView < 2 ^ 32 ∧ c.MinInitStake < 2 ^ 32
    ∧ ∀ p ∈ Slice.toList c.Peers, p.Index < 2 ^ 32 ∧ p.InitPos < 2 ^ 64

/-- Every peer has an `Address` accepted by `AddressFromBase58`. -/
def ValidAddresses (lib : AddressLib) (c : VBFTConfig) : Prop :=
  ∀ p ∈ Slice.toList c.Peers, lib.accepts p.Address = true

instance instDecidableSized (c : VBFTConfig) : Decidable c.Sized := by
  unfold VBFTConfig.Sized; infer_instance

instance instDecidableInRange (c : VBFTConfig) : Decidable c.InRange := by
  unfold VBFTConfig.InRange; infer_instance

instance instDecidableValidAddresses (lib : AddressLib) (c : VBFTConfig) :
    Decidable (ValidAddresses lib c) := by
  unfold ValidAddresses; infer_instance

/-- The text form of an address is canonical: the text produced from a decoded address
decodes to the same address. -/
def AddressLib.Normalizes (lib : AddressLib) : Prop :=
  ∀ s a, lib.AddressFromBase58 s = Except.ok a →
    lib.AddressFromBase58 (lib.ToBase58 a) = Except.ok a

/-! ### The encoding grammar, in the words of the specification -/

/-- A fixed-width little-endian integer: byte `i` holds the digit of weight `256 ^ i`. -/
def littleEndian (width v : Nat) : List Byte :=
  (List.range width).map (fun i => v / 256 ^ i % 256)

/-- A var-uint byte count followed by the raw bytes. -/
def lengthPrefixed (s : List Byte) : List Byte := varUintBytes s.length ++ s

/-- The nine uint32 fields, 4 bytes each, in the order of the grammar. -/
def fixedFields (c : VBFTConfig) : List Byte :=
  littleEndian 4 c.N ++ littleEndian 4 c.C ++ littleEndian 4 c.K ++ littleEndian 4 c.L
    ++ littleEndian 4 c.BlockMsgDelay ++ littleEndian 4 c.HashMsgDelay
    ++ littleEndian 4 c.PeerHandshakeTimeout ++ littleEndian 4 c.MaxBlockChangeView
    ++ littleEndian 4 c.MinInitStake

/-- One peer record: index, public key text, binary address, initial stake. -/
def peerRecord (lib : AddressLib) (p : VBFTPeerStakeInfo) : List Byte :=
  littleEndian 4 p.Index ++ lengthPrefixed p.PeerPubkey ++ binaryAddress lib p
    ++ littleEndian 8 p.InitPos

/-- The grammar of the canonical encoding: fixed fields, three strings, the peer count, and
one record per peer in the order of `Peers`. -/
def encodingGrammar (lib : AddressLib) (c : VBFTConfig) : List Byte :=
  fixedFields c
    ++ lengthPrefixed c.AdminOntID ++ lengthPrefixed c.VrfValue ++ lengthPrefixed c.VrfProof
    ++ varUintBytes (Slice.toList c.Peers).length
    ++ ((Slice.toList c.Peers).map (peerRecord lib)).flatten

/-- A peer with its address text replaced by `ToBase58(AddressFromBase58(Address))`. -/
def normalizedPeer (lib : AddressLib) (p : VBFTPeerStakeInfo) : VBFTPeerStakeInfo :=
  { p with Address := lib.ToBase58 (binaryAddress lib p) }

/-! ### Bookkeeper extraction -/

/-- The source key list in the words of the specification: the `PeerPubkey` of each peer
for vbft, the `Bookkeepers` of the sub-config for dbft and solo. -/
def sourceKeyList (this : OntologyConfig) : List GoString :=
  if this.Genesis.ConsensusType = CONSENSUS_TYPE_VBFT then
    (Slice.toList this.Genesis.VBFT.Peers).map (fun peer => peer.PeerPubkey)
  else if this.Genesis.ConsensusType = CONSENSUS_TYPE_DBFT then
    Slice.toList this.Genesis.DBFT.Bookkeepers
  else if this.Genesis.ConsensusType = CONSENSUS_TYPE_SOLO then
    Slice.toList this.Genesis.SOLO.Bookkeepers
  else []

/-- The consensus type is one of the three supported ones. -/
def SupportedConsensus (this : OntologyConfig) : Prop :=
  this.Genesis.ConsensusType = CONSENSUS_TYPE_VBFT
    ∨ this.Genesis.ConsensusType = CONSENSUS_TYPE_DBFT
    ∨ this.Genesis.ConsensusType = CONSENSUS_TYPE_SOLO

instance instDecidableSupported (this : OntologyConfig) :
    Decidable (SupportedConsensus this) := by
  unfold SupportedConsensus; infer_instance

/-- The key that one iteration of the loop of `GetBookkeepers` obtains from the text `key`:
the bytes returned by `hex.DecodeString`, whatever its error, are deserialized.  This is
the loop body, not the key of the text in the words of the specification, for which see
`specKeyOfText`. -/
def keyOfText {PublicKey : Type} (kp : KeypairLib PublicKey) (key : GoString) :
    Option PublicKey :=
  match kp.DeserializePublicKey (hexDecodeString key).1 with
  | Except.ok k => some k
  | Except.error _ => none

/-- The key of a source text in the words of the specification: the text is hex-decoded and
the decoded bytes are deserialized; a text that fails to decode, or whose bytes fail to
deserialize, has no key. -/
def specKeyOfText {PublicKey : Type} (kp : KeypairLib PublicKey) (key : GoString) :
    Option PublicKey :=
  match hexDecodeString key with
  | (_, some _) => none
  | (bytes, none) =>
    match kp.DeserializePublicKey bytes with
    | Except.ok k => some k
    | Except.error _ => none

/-- The order `a ≤ b` of public keys: `b` is not less than `a`. -/
def KeypairLib.le {PublicKey : Type} (kp : KeypairLib PublicKey) (a b : PublicKey) : Prop :=
  kp.Less b a = false

/-- The comparison `Less` is a strict total order on public keys. -/
structure KeypairLib.TotalOrder {PublicKey : Type} (kp : KeypairLib PublicKey) : Prop where
  /-- Transitivity. -/
  trans : ∀ a b c, kp.Less a b = true → kp.Less b c = true → kp.Less a c = true
  /-- Two keys of which neither is less than the other are the same key. -/
  connected : ∀ a b, kp.Less a b = false → kp.Less b a = false → a = b

/-- The contract of `sort.Sort` for `SortPublicKeys`: the slice is rearranged, and no
element is less than its predecessor. -/
structure KeypairLib.Sorts {PublicKey : Type} (kp : KeypairLib PublicKey) : Prop where
  /-- The result is a rearrangement of the input. -/
  perm : ∀ l, (kp.SortPublicKeys l).Perm l
  /-- Neighbours are in order. -/
  ordered : ∀ l, List.Chain' kp.le (kp.SortPublicKeys l)

/-! ### Small libraries and configurations on which the definitions can be run -/

/-- An address library with two-byte addresses whose text form is the letter `A` followed
by the two bytes. -/
def demoAddressFromBase58 : GoString → Except GoError (List Byte)
  | [65, x, y] => Except.ok [x, y]
  | _ => Except.error (GoError.errorf (goStr "invalid address"))

/-- The library of the two-byte addresses. -/
def demoAddressLib : AddressLib :=
  { ADDR_LEN := 2,
    AddressFromBase58 := demoAddressFromBase58,
    ToBase58 := fun a => 65 :: a,
    size_ok := by
      intro s a h
      unfold demoAddressFromBase58 at h
      split at h
      · cases h; rfl
      · cases h }

/-- A key library whose keys are single bytes, ordered by value. -/
def demoKeypairLib : KeypairLib Nat :=
  { DeserializePublicKey := fun data =>
      match data with
      | [b] => Except.ok b
      | _ => Except.error (GoError.errorf (goStr "invalid key")),
    Less := fun a b => decide (a < b),
    SortPublicKeys := fun l => List.insertionSort (fun a b => a ≤ b) l }

/-- Text of a peer in the marshalled form of `demoHashLib`. -/
def demoMarshalPeer (p : VBFTPeerStakeInfo) : List Byte :=
  PutUint32 p.Index ++ strBytes p.PeerPubkey ++ strBytes p.Address ++ PutUint64 p.InitPos

/-- Marshalled form of a list of peers in `demoHashLib`. -/
def demoMarshalPeers : List VBFTPeerStakeInfo → List Byte
  | [] => []
  | p :: ps => demoMarshalPeer p ++ demoMarshalPeers ps

/-- A 32-bit rolling checksum, the digest of `demoHashLib`. -/
def demoChecksum (data : List Byte) : Nat :=
  data.foldl (fun h b => (h * 31 + b) % 2 ^ 32) 7

/-- A hash library: the marshalled form lists the fields in order, the digest is a rolling
checksum followed by zeros. -/
def demoHashLib : HashLib :=
  { MarshalVBFT := fun c => (headerBytes c ++ demoMarshalPeers (Slice.toList c.Peers), none),
    MarshalDBFT := fun c =>
      (PutUint32 c.GenBlockTime ++ (Slice.toList c.Bookkeepers).flatten, none),
    Sum256 := fun data => PutUint32 (demoChecksum data) ++ List.replicate 28 0,
    size_ok := by
      intro data
      simp [PutUint32] }

/-- A configuration with two peers whose addresses `demoAddressLib` accepts. -/
def demoConfig : VBFTConfig :=
  { N := 7, C := 2, K := 7, L := 112, BlockMsgDelay := 10000, HashMsgDelay := 10000,
    PeerHandshakeTimeout := 10, MaxBlockChangeView := 3000, MinInitStake := 10000,
    AdminOntID := goStr "did", VrfValue := goStr "1c", VrfProof := goStr "c5",
    Peers := some [mkPeer 1 "02ab" "Axy" 10000, mkPeer 2 "03cd" "Auv" 20000] }

/-- The same configuration with the address of the second peer made invalid. -/
def demoBadConfig : VBFTConfig :=
  { demoConfig with Peers := some [mkPeer 1 "02ab" "Axy" 10000, mkPeer 2 "03cd" "bad!" 20000] }

/-- A genesis configuration of the given consensus type with the given bookkeepers in the
DBFT and SOLO sub-configs. -/
def demoGenesis (consensusType : GoString) (bookkeepers : List GoString) : GenesisConfig :=
  { NewGenesisConfig with
    ConsensusType := consensusType,
    DBFT := { GenBlockTime := 6, Bookkeepers := some bookkeepers },
    SOLO := { GenBlockTime := 6, Bookkeepers := some bookkeepers } }

/-! ## Network magic -/

/-- The constants of the package `common/constants` used by the configuration, taken as
parameters because that package is not among the sources. -/
structure MagicConstants where
  /-- The constant `constants.NETWORK_MAGIC_MAINNET`, a uint32. -/
  NETWORK_MAGIC_MAINNET : Nat
  /-- The constant `constants.NETWORK_MAGIC_POLARIS`, a uint32. -/
  NETWORK_MAGIC_POLARIS : Nat

/-- The map `NETWORK_MAGIC`, as the list of its entries. -/
def NETWORK_MAGIC (k : MagicConstants) : List (Nat × Nat) :=
  [(NETWORK_ID_MAIN_NET, k.NETWORK_MAGIC_MAINNET),
   (NETWORK_ID_POLARIS_NET, k.NETWORK_MAGIC_POLARIS),
   (NETWORK_ID_SOLO_NET, 0)]

/-- The function `GetNetworkMagic`. -/
def GetNetworkMagic (k : MagicConstants) (id : Nat) : Nat :=
  match (NETWORK_MAGIC k).lookup id with
  | some nid => nid
  | none => id

/-! ## Further definitions used by the statements -/

/-- The call `json.Marshal` returns no error on a VBFT or DBFT sub-config, as is the case
for structs of integers, strings and slices. -/
def HashLib.MarshalTotal (lib : HashLib) : Prop :=
  (∀ c, (lib.MarshalVBFT c).2 = none) ∧ (∀ c, (lib.MarshalDBFT c).2 = none)

/-- The candidate id of `genCfg` for the caller `this`: the value returned by
`getDefNetworkIDFromGenesisConfig`. -/
def candidateId (lib : HashLib) (this : OntologyConfig) (genCfg : GenesisConfig) : Nat :=
  (getDefNetworkIDFromGenesisConfig lib this genCfg).1

/-- The decimal string of a number in the words of the specification: its base-10 digits,
most significant first, as ASCII characters; the single digit `0` for zero. -/
def decimalString (n : Nat) : GoString :=
  if n = 0 then [48] else (Nat.digits 10 n).reverse.map (fun d => 48 + d)

/-- The value of a little-endian sequence of bytes: byte `i` has weight `256 ^ i`. -/
def littleEndianValue : List Byte → Nat
  | [] => 0
  | b :: bs => b + 256 * littleEndianValue bs

/-- Two configurations agree on the consensus type and on the sub-config that the type
selects; the seed list and the other two sub-configs are free. -/
def SameSelected (c1 c2 : OntologyConfig) : Prop :=
  c1.Genesis.ConsensusType = c2.Genesis.ConsensusType
    ∧ (c1.Genesis.ConsensusType = CONSENSUS_TYPE_VBFT → c1.Genesis.VBFT = c2.Genesis.VBFT)
    ∧ (c1.Genesis.ConsensusType = CONSENSUS_TYPE_DBFT → c1.Genesis.DBFT = c2.Genesis.DBFT)
    ∧ (c1.Genesis.ConsensusType = CONSENSUS_TYPE_SOLO → c1.Genesis.SOLO = c2.Genesis.SOLO)

/-! ## The Go library: `crypto/sha256` -/

/-- Rotation to the right of a 32-bit word. -/
def rotr32 (x n : Nat) : Nat := ((x >>> n) ||| (x <<< (32 - n))) % 2 ^ 32

/-- The 64 round constants of SHA-256: the first 32 bits of the fractional parts of the
cube roots of the first 64 primes, written in decimal. -/
def sha256K : List Nat :=
  [1116352408, 1899447441, 3049323471, 3921009573, 961987163, 1508970993,
   2453635748, 2870763221, 3624381080, 310598401, 607225278, 1426881987,
   1925078388, 2162078206, 2614888103, 3248222580, 3835390401, 4022224774,
   264347078, 604807628, 770255983, 1249150122, 1555081692, 1996064986,
   2554220882, 2821834349, 2952996808, 3210313671, 3336571891, 3584528711,
   113926993, 338241895, 666307205, 773529912, 1294757372, 1396182291,
   1695183700, 1986661051, 2177026350, 2456956037, 2730485921, 2820302411,
   3259730800, 3345764771, 3516065817, 3600352804, 4094571909, 275423344,
   430227734, 506948616, 659060556, 883997877, 958139571, 1322822218,
   1537002063, 1747873779, 1955562222, 2024104815, 2227730452, 2361852424,
   2428436474, 2756734187, 3204031479, 3329325298]

/-- Eight 32-bit words: the hash value, or the working variables `a` to `h`. -/
structure Sha256State where
  a : Nat
  b : Nat
  c : Nat
  d : Nat
  e : Nat
  f : Nat
  g : Nat
  h : Nat
  deriving DecidableEq, Repr

/-- The initial hash value of SHA-256: the first 32 bits of the fractional parts of the
square roots of the first 8 primes, written in decimal. -/
def sha256Init : Sha256State :=
  { a := 1779033703, b := 3144134277, c := 1013904242, d := 2773480762,
    e := 1359893119, f := 2600822924, g := 528734635, h := 1541459225 }

/-- The rounds on one block: `ks` are the round constants left, `s` the working variables,
and the third argument the sixteen most recent words of the message schedule, the first
of which is the word of the current round. -/
def sha256Rounds : List Nat → Sha256State → List Nat → Sha256State
  | k :: ks, s, [w0, w1, w2, w3, w4, w5, w6, w7, w8, w9, w10, w11, w12, w13, w14, w15] =>
    let bigS1 := rotr32 s.e 6 ^^^ rotr32 s.e 11 ^^^ rotr32 s.e 25
    let ch := (s.e &&& s.f) ^^^ ((0xFFFFFFFF ^^^ s.e) &&& s.g)
    let t1 := (s.h + bigS1 + ch + k + w0) % 2 ^ 32
    let bigS0 := rotr32 s.a 2 ^^^ rotr32 s.a 13 ^^^ rotr32 s.a 22
    let maj := (s.a &&& s.b) ^^^ (s.a &&& s.c) ^^^ (s.b &&& s.c)
    let t2 := (bigS0 + maj) % 2 ^ 32
    let s0 := rotr32 w1 7 ^^^ rotr32 w1 18 ^^^ (w1 >>> 3)
    let s1 := rotr32 w14 17 ^^^ rotr32 w14 19 ^^^ (w14 >>> 10)
    let wn := (w0 + s0 + w9 + s1) % 2 ^ 32
    sha256Rounds ks
      { a := (t1 + t2) % 2 ^ 32, b := s.a, c := s.b, d := s.c,
        e := (s.d + t1) % 2 ^ 32, f := s.e, g := s.f, h := s.g }
      [w1, w2, w3, w4, w5, w6, w7, w8, w9, w10, w11, w12, w13, w14, w15, wn]
  | _, s, _ => s

/-- Big-endian 32-bit words of a sequence of bytes. -/
def beWords : List Byte → List Nat
  | b0 :: b1 :: b2 :: b3 :: rest =>
      (b0 % 256 * 2 ^ 24 + b1 % 256 * 2 ^ 16 + b2 % 256 * 2 ^ 8 + b3 % 256) :: beWords rest
  | _ => []

/-- The hash value after one more block of 64 bytes. -/
def sha256Block (hash : Sha256State) (block : List Byte) : Sha256State :=
  let s := sha256Rounds sha256K hash (beWords block)
  { a := (hash.a + s.a) % 2 ^ 32, b := (hash.b + s.b) % 2 ^ 32,
    c := (hash.c + s.c) % 2 ^ 32, d := (hash.d + s.d) % 2 ^ 32,
    e := (hash.e + s.e) % 2 ^ 32, f := (hash.f + s.f) % 2 ^ 32,
    g := (hash.g + s.g) % 2 ^ 32, h := (hash.h + s.h) % 2 ^ 32 }

/-- The hash value after the first `n` blocks of `data`. -/
def sha256Blocks : Nat → List Byte → Sha256State → Sha256State
  | 0, _, hash => hash
  | n + 1, data, hash => sha256Blocks n (data.drop 64) (sha256Block hash (data.take 64))

/-- The padding of SHA-256: the byte `0x80`, zero bytes up to 56 modulo 64, and the length
of the message in bits on 8 big-endian bytes. -/
def sha256Pad (data : List Byte) : List Byte :=
  let bits := data.length * 8 % 2 ^ 64
  data ++ 0x80 :: List.replicate ((119 - data.length % 64) % 64) 0 ++
    [bits / 2 ^ 56 % 256, bits / 2 ^ 48 % 256, bits / 2 ^ 40 % 256, bits / 2 ^ 32 % 256,
     bits / 2 ^ 24 % 256, bits / 2 ^ 16 % 256, bits / 2 ^ 8 % 256, bits % 256]

/-- The four big-endian bytes of a 32-bit word. -/
def beBytes (w : Nat) : List Byte :=
  [w / 2 ^ 24 % 256, w / 2 ^ 16 % 256, w / 2 ^ 8 % 256, w % 256]

/-- The function `sha256.Sum256` of the Go library: the SHA-256 digest of `data`. -/
def sha256Sum256 (data : List Byte) : List Byte :=
  let s := sha256Blocks ((sha256Pad data).length / 64) (sha256Pad data) sha256Init
  beBytes s.a ++ beBytes s.b ++ beBytes s.c ++ beBytes s.d
    ++ beBytes s.e ++ beBytes s.f ++ beBytes s.g ++ beBytes s.h

/-! ## The Go library: `encoding/json` -/

/-- A lower-case hexadecimal digit. -/
def hexDigitLower (n : Nat) : Byte := if n < 10 then 48 + n else 87 + n

/-- The escape of a byte below `0x80` in a JSON string.  The quote and the backslash get a
backslash; backspace, form feed, line feed, carriage return and tab get their short
escapes; the other control characters and `<`, `>`, `&` get a `u00` escape with two
lower-case hexadecimal digits; every other byte stands for itself. -/
def jsonAscii (b : Byte) : List Byte :=
  if b = 34 ∨ b = 92 then [92, b]
  else if b = 8 then [92, 98]
  else if b = 12 then [92, 102]
  else if b = 10 then [92, 110]
  else if b = 13 then [92, 114]
  else if b = 9 then [92, 116]
  else if b < 32 ∨ b = 60 ∨ b = 62 ∨ b = 38 then
    [92, 117, 48, 48, hexDigitLower (b / 16), hexDigitLower (b % 16)]
  else [b]

/-- Whether `b` is a UTF-8 continuation byte. -/
def isContinuation (b : Byte) : Bool := decide (0x80 ≤ b ∧ b ≤ 0xBF)

/-- The size that `utf8.DecodeRuneInString` reports for the bytes `b :: rest` with
`b ≥ 0x80`: 2, 3 or 4 for a valid encoding, 1 for an invalid one. -/
def utf8RuneSize (b : Byte) (rest : List Byte) : Nat :=
  if 0xC2 ≤ b ∧ b ≤ 0xDF then
    match rest with
    | s1 :: _ => if isContinuation s1 then 2 else 1
    | _ => 1
  else if 0xE0 ≤ b ∧ b ≤ 0xEF then
    match rest with
    | s1 :: s2 :: _ =>
      if (if b = 0xE0 then 0xA0 else 0x80) ≤ s1 ∧ s1 ≤ (if b = 0xED then 0x9F else 0xBF)
          ∧ isContinuation s2 = true then 3 else 1
    | _ => 1
  else if 0xF0 ≤ b ∧ b ≤ 0xF4 then
    match rest with
    | s1 :: s2 :: s3 :: _ =>
      if (if b = 0xF0 then 0x90 else 0x80) ≤ s1 ∧ s1 ≤ (if b = 0xF4 then 0x8F else 0xBF)
          ∧ isContinuation s2 = true ∧ isContinuation s3 = true then 4 else 1
    | _ => 1
  else 1

/-- The text `�` written for an invalid byte. -/
def jsonReplacement : List Byte := [92, 117, 102, 102, 102, 100]

/-- The bytes between the quotes of a JSON string.  The first argument counts the bytes
of the current multi-byte character that are still to come; the second tells whether they
are copied or, for the escaped characters U+2028 and U+2029, left out. -/
def jsonStringBody : Nat → Bool → List Byte → List Byte
  | _, _, [] => []
  | pending + 1, copy, b :: rest =>
      (if copy then [b] else []) ++ jsonStringBody pending copy rest
  | 0, _, b :: rest =>
      if b < 0x80 then jsonAscii b ++ jsonStringBody 0 true rest
      else if utf8RuneSize b rest = 1 then jsonReplacement ++ jsonStringBody 0 true rest
      else if b = 0xE2 ∧ (rest.take 2 = [0x80, 0xA8] ∨ rest.take 2 = [0x80, 0xA9]) then
        [92, 117, 50, 48, 50, hexDigitLower (rest.getD 1 0 % 16)] ++ jsonStringBody 2 false rest
      else b :: jsonStringBody (utf8RuneSize b rest - 1) true rest

/-- A Go string as a JSON string, as `json.Marshal` writes it. -/
def jsonString (s : GoString) : List Byte := 34 :: jsonStringBody 0 true s ++ [34]

/-- An unsigned integer as a JSON number. -/
def jsonUint (n : Nat) : List Byte := goStr (Nat.repr n)

/-- The items separated by commas. -/
def jsonJoin : List (List Byte) → List Byte
  | [] => []
  | [x] => x
  | x :: y :: rest => x ++ 44 :: jsonJoin (y :: rest)

/-- A struct as a JSON object: the fields with their names, in the order of the
declaration. -/
def jsonObject (fields : List (String × List Byte)) : List Byte :=
  123 :: jsonJoin (fields.map (fun kv => 34 :: goStr kv.1 ++ [34, 58] ++ kv.2)) ++ [125]

/-- A slice as JSON: `null` for the nil slice, otherwise an array. -/
def jsonSlice {α : Type} (enc : α → List Byte) : Slice α → List Byte
  | none => goStr "null"
  | some l => 91 :: jsonJoin (l.map enc) ++ [93]

/-- The call `json.Marshal` on a `*VBFTPeerStakeInfo`, with the names of the struct tags. -/
def jsonVBFTPeerStakeInfo (p : VBFTPeerStakeInfo) : List Byte :=
  jsonObject
    [("index", jsonUint (p.Index % 2 ^ 32)),
     ("peerPubkey", jsonString p.PeerPubkey),
     ("address", jsonString p.Address),
     ("initPos", jsonUint (p.InitPos % 2 ^ 64))]

/-- The call `json.Marshal` on a `*VBFTConfig`, with the names of the struct tags. -/
def jsonVBFTConfig (c : VBFTConfig) : List Byte :=
  jsonObject
    [("n", jsonUint (c.N % 2 ^ 32)),
     ("c", jsonUint (c.C % 2 ^ 32)),
     ("k", jsonUint (c.K % 2 ^ 32)),
     ("l", jsonUint (c.L % 2 ^ 32)),
     ("block_msg_delay", jsonUint (c.BlockMsgDelay % 2 ^ 32)),
     ("hash_msg_delay", jsonUint (c.HashMsgDelay % 2 ^ 32)),
     ("peer_handshake_timeout", jsonUint (c.PeerHandshakeTimeout % 2 ^ 32)),
     ("max_block_change_view", jsonUint (c.MaxBlockChangeView % 2 ^ 32)),
     ("min_init_stake", jsonUint (c.MinInitStake % 2 ^ 32)),
     ("admin_ont_id", jsonString c.AdminOntID),
     ("vrf_value", jsonString c.VrfValue),
     ("vrf_proof", jsonString c.VrfProof),
     ("peers", jsonSlice jsonVBFTPeerStakeInfo c.Peers)]

/-- The call `json.Marshal` on a `*DBFTConfig`; the struct has no tags, so the names are
those of the fields, and `GenBlockTime` is a `uint` of 64 bits. -/
def jsonDBFTConfig (c : DBFTConfig) : List Byte :=
  jsonObject
    [("GenBlockTime", jsonUint (c.GenBlockTime % 2 ^ 64)),
     ("Bookkeepers", jsonSlice jsonString c.Bookkeepers)]

/-- The Go library itself: `json.Marshal`, which returns no error on these types, and
`sha256.Sum256`. -/
def goHashLib : HashLib :=
  { MarshalVBFT := fun c => (jsonVBFTConfig c, none),
    MarshalDBFT := fun c => (jsonDBFTConfig c, none),
    Sum256 := sha256Sum256,
    size_ok := by
      intro data
      simp [sha256Sum256, beBytes] }

/-! ### Configurations used to run the network id on `json.Marshal` and SHA-256 -/

/-- A dbft genesis configuration whose candidate id under SHA-256 is the reserved id 2. -/
def collidingGenesis : GenesisConfig :=
  { NewGenesisConfig with DBFT := { GenBlockTime := 1256606143, Bookkeepers := none } }

/-- The genesis configuration of `NewGenesisConfig` with the consensus type set to vbft. -/
def emptyVbftGenesis : GenesisConfig :=
  { NewGenesisConfig with ConsensusType := CONSENSUS_TYPE_VBFT }

/-! ## The two `Deserialize` methods over any readers -/

/-- The readers called by the two `Deserialize` methods, taken as parameters: the functions
`ReadUint32`, `ReadUint64`, `ReadString` and `ReadVarUint` of the `serialization` package
and the method `Address.Deserialize` of the `common` package.  Neither package is among
the sources, and the specification says of decoding only that it inverts encoding. -/
structure ReaderLib where
  /-- The function `serialization.ReadUint32`. -/
  ReadUint32 : Reader → Except GoError (Nat × Reader)
  /-- The function `serialization.ReadUint64`. -/
  ReadUint64 : Reader → Except GoError (Nat × Reader)
  /-- The function `serialization.ReadString`. -/
  ReadString : Reader → Except GoError (GoString × Reader)
  /-- The function `serialization.ReadVarUint`, with its argument `maxint`. -/
  ReadVarUint : Reader → Nat → Except GoError (Nat × Reader)
  /-- The method `Address.Deserialize`. -/
  AddressDeserialize : Reader → Except GoError (List Byte × Reader)

/-- The method `(*VBFTPeerStakeInfo).Deserialize` with the readers `rd`: the receiver after
the call, and the error or the reader after the call. -/
def VBFTPeerStakeInfo.DeserializeWith (rd : ReaderLib) (lib : AddressLib)
    (this : VBFTPeerStakeInfo) (r : Reader) : VBFTPeerStakeInfo × Except GoError Reader :=
  match rd.ReadUint32 r with
  | Except.error err =>
      (this, Except.error (NewDetailErr err "serialization.ReadUint32, deserialize index error!"))
  | Except.ok (index, r) =>
  match rd.ReadString r with
  | Except.error err =>
      (this, Except.error
        (NewDetailErr err "serialization.ReadUint32, deserialize peerPubkey error!"))
  | Except.ok (peerPubkey, r) =>
  match rd.AddressDeserialize r with
  | Except.error err =>
      (this, Except.error
        (NewDetailErr err "address.Deserialize, deserialize address error!"))
  | Except.ok (address, r) =>
  match rd.ReadUint64 r with
  | Except.error err =>
      (this, Except.error
        (NewDetailErr err "serialization.ReadUint32, deserialize initPos error!"))
  | Except.ok (initPos, r) =>
      ({ this with
          Index := index, PeerPubkey := peerPubkey,
          Address := lib.ToBase58 address, InitPos := initPos },
        Except.ok r)

/-- The loop `for i := 0; uint64(i) < length; i++` of `(*VBFTConfig).Deserialize` with the
readers `rd`, with `count` iterations left and `peers` the slice built so far. -/
def deserializePeersWith (rd : ReaderLib) (lib : AddressLib) :
    Nat → List VBFTPeerStakeInfo → Reader → Except GoError (List VBFTPeerStakeInfo × Reader)
  | 0, peers, r => Except.ok (peers, r)
  | count + 1, peers, r =>
    match VBFTPeerStakeInfo.DeserializeWith rd lib VBFTPeerStakeInfo.zero r with
    | (_, Except.error err) => Except.error (NewDetailErr err "deserialize peer error!")
    | (peer, Except.ok r) => deserializePeersWith rd lib count (peers ++ [peer]) r

/-- The method `(*VBFTConfig).Deserialize` with the readers `rd`: the receiver after the
call, and the error or the reader after the call. -/
def VBFTConfig.DeserializeWith (rd : ReaderLib) (lib : AddressLib) (this : VBFTConfig)
    (r : Reader) : VBFTConfig × Except GoError Reader :=
  match rd.ReadUint32 r with
  | Except.error err =>
      (this, Except.error (NewDetailErr err "serialization.ReadUint32, deserialize n error!"))
  | Except.ok (n, r) =>
  match rd.ReadUint32 r with
  | Except.error err =>
      (this, Except.error (NewDetailErr err "serialization.ReadUint32, deserialize c error!"))
  | Except.ok (c, r) =>
  match rd.ReadUint32 r with
  | Except.error err =>
      (this, Except.error (NewDetailErr err "serialization.ReadUint32, deserialize k error!"))
  | Except.ok (k, r) =>
  match rd.ReadUint32 r with
  | Except.error err =>
      (this, Except.error (NewDetailErr err "serialization.ReadUint32, deserialize l error!"))
  | Except.ok (l, r) =>
  match rd.ReadUint32 r with
  | Except.error err =>
      (this, Except.error
        (NewDetailErr err "serialization.ReadUint32, deserialize blockMsgDelay error!"))
  | Except.ok (blockMsgDelay, r) =>
  match rd.ReadUint32 r with
  | Except.error err =>
      (this, Except.error
        (NewDetailErr err "serialization.ReadUint32, deserialize hashMsgDelay error!"))
  | Except.ok (hashMsgDelay, r) =>
  match rd.ReadUint32 r with
  | Except.error err =>
      (this, Except.error
        (NewDetailErr err "serialization.ReadUint32, deserialize peerHandshakeTimeout error!"))
  | Except.ok (peerHandshakeTimeout, r) =>
  match rd.ReadUint32 r with
  | Except.error err =>
      (this, Except.error
        (NewDetailErr err "serialization.ReadUint32, deserialize maxBlockChangeView error!"))
  | Except.ok (maxBlockChangeView, r) =>
  match rd.ReadUint32 r with
  | Except.error err =>
      (this, Except.error
        (NewDetailErr err "serialization.ReadUint32, deserialize minInitStake error!"))
  | Except.ok (minInitStake, r) =>
  match rd.ReadString r with
  | Except.error err =>
      (this, Except.error
        (NewDetailErr err "serialization.ReadString, deserialize adminOntID error!"))
  | Except.ok (adminOntID, r) =>
  match rd.ReadString r with
  | Except.error err =>
      (this, Except.error
        (NewDetailErr err "serialization.ReadString, deserialize vrfValue error!"))
  | Except.ok (vrfValue, r) =>
  match rd.ReadString r with
  | Except.error err =>
      (this, Except.error
        (NewDetailErr err "serialization.ReadString, deserialize vrfProof error!"))
  | Except.ok (vrfProof, r) =>
  match rd.ReadVarUint r 0 with
  | Except.error err =>
      (this, Except.error
        (NewDetailErr err "serialization.ReadVarUint, deserialize peer length error!"))
  | Except.ok (length, r) =>
  match deserializePeersWith rd lib length [] r with
  | Except.error err => (this, Except.error err)
  | Except.ok (peers, r) =>
      ({ this with
          N := n, C := c, K := k, L := l, BlockMsgDelay := blockMsgDelay,
          HashMsgDelay := hashMsgDelay, PeerHandshakeTimeout := peerHandshakeTimeout,
          MaxBlockChangeView := maxBlockChangeView, MinInitStake := minInitStake,
          AdminOntID := adminOntID, VrfValue := vrfValue, VrfProof := vrfProof,
          Peers := some peers },
        Except.ok r)

/-- The readers modelled above, which fail on an input that ends too early. -/
def modelledReaders (lib : AddressLib) : ReaderLib :=
  { ReadUint32 := ReadUint32, ReadUint64 := ReadUint64, ReadString := ReadString,
    ReadVarUint := ReadVarUint, AddressDeserialize := AddressDeserialize lib }

/-- The readers invert the writers: each reads back what its writer wrote and leaves the
bytes that follow.  This is what the specification asks of decoding. -/
structure ReaderLib.Inverts (rd : ReaderLib) (lib : AddressLib) : Prop where
  /-- A uint32 written by `WriteUint32` is read back. -/
  uint32 : ∀ v rest, rd.ReadUint32 (PutUint32 v ++ rest) = Except.ok (v % 2 ^ 32, rest)
  /-- A uint64 written by `WriteUint64` is read back. -/
  uint64 : ∀ v rest, rd.ReadUint64 (PutUint64 v ++ rest) = Except.ok (v % 2 ^ 64, rest)
  /-- A string written by `WriteString` is read back. -/
  string : ∀ (s : GoString) rest, s.length < 2 ^ 64 →
    rd.ReadString (strBytes s ++ rest) = Except.ok (s, rest)
  /-- A count written by `WriteVarUint` is read back. -/
  varUint : ∀ v rest, v < 2 ^ 64 →
    rd.ReadVarUint (varUintBytes v ++ rest) 0 = Except.ok (v, rest)
  /-- An address written by `Address.Serialize` is read back. -/
  address : ∀ (a : List Byte) rest, a.length = lib.ADDR_LEN →
    rd.AddressDeserialize (a ++ rest) = Except.ok (a, rest)

/-- The readers report an input that ends too early: the end of the input never stands for
missing bytes, so that a read that succeeds returns the same value, and leaves the added
bytes unread, when more bytes follow. -/
structure ReaderLib.ReportsShortInput (rd : ReaderLib) : Prop where
  /-- The property for `ReadUint32`. -/
  uint32 : ∀ r s v r', rd.ReadUint32 r = Except.ok (v, r') →
    rd.ReadUint32 (r ++ s) = Except.ok (v, r' ++ s)
  /-- The property for `ReadUint64`. -/
  uint64 : ∀ r s v r', rd.ReadUint64 r = Except.ok (v, r') →
    rd.ReadUint64 (r ++ s) = Except.ok (v, r' ++ s)
  /-- The property for `ReadString`. -/
  string : ∀ r s v r', rd.ReadString r = Except.ok (v, r') →
    rd.ReadString (r ++ s) = Except.ok (v, r' ++ s)
  /-- The property for `ReadVarUint`. -/
  varUint : ∀ r s m v r', rd.ReadVarUint r m = Except.ok (v, r') →
    rd.ReadVarUint (r ++ s) m = Except.ok (v, r' ++ s)
  /-- The property for `Address.Deserialize`. -/
  address : ∀ r s v r', rd.AddressDeserialize r = Except.ok (v, r') →
    rd.AddressDeserialize (r ++ s) = Except.ok (v, r' ++ s)

/-- A reader of a uint64 that accepts a short final read: it fills an array of eight bytes
with the bytes that are left, at most eight, and fails only on an empty input, so that the
bytes missing at the end of the input count as zero. -/
def shortReadUint64 (r : Reader) : Except GoError (Nat × Reader) :=
  match r with
  | [] => Except.error ErrEof
  | _ :: _ => ReadUint64 ((r.take 8 ++ List.replicate (8 - r.length) 0) ++ r.drop 8)

/-- The modelled readers with `shortReadUint64` in the place of `ReadUint64`. -/
def shortReadLib (lib : AddressLib) : ReaderLib :=
  { modelledReaders lib with ReadUint64 := shortReadUint64 }

/-! # Theorems -/

/-! ## Lemmas on the writers and readers -/

theorem writeString_eq (w : Writer) (s : GoString) :
    WriteString w s = (w ++ strBytes s, none) := by
  simp [WriteString, WriteVarBytes, WriteVarUint, Writer.Write, strBytes]

theorem peer_serialize_ok (lib : AddressLib) (p : VBFTPeerStakeInfo) (w : Writer)
    (a : List Byte) (h : lib.AddressFromBase58 p.Address = Except.ok a) :
    VBFTPeerStakeInfo.Serialize lib p w = (w ++ recordBytes p a, none) := by
  simp [VBFTPeerStakeInfo.Serialize, WriteUint32, WriteUint64, writeString_eq, Writer.Write,
    AddressSerialize, h, recordBytes]

theorem peer_serialize_error (lib : AddressLib) (p : VBFTPeerStakeInfo) (w : Writer)
    (e : GoError) (h : lib.AddressFromBase58 p.Address = Except.error e) :
    VBFTPeerStakeInfo.Serialize lib p w =
      (w ++ (PutUint32 p.Index ++ strBytes p.PeerPubkey),
        some (NewDetailErr e "common.AddressFromBase58, address format error!")) := by
  simp [VBFTPeerStakeInfo.Serialize, WriteUint32, writeString_eq, Writer.Write, h]

theorem serialize_eq (lib : AddressLib) (c : VBFTConfig) (w : Writer) :
    VBFTConfig.Serialize lib c w = serializePeers lib (Slice.toList c.Peers) (w ++ headerBytes c) := by
  simp [VBFTConfig.Serialize, WriteUint32, writeString_eq, Writer.Write, WriteVarUint, headerBytes]

theorem readUint16_put (v : Nat) (rest : List Byte) :
    ReadUint16 (PutUint16 v ++ rest) = Except.ok (v % 2 ^ 16, rest) := by
  simp [PutUint16, ReadUint16]
  omega

theorem readUint32_put (v : Nat) (rest : List Byte) :
    ReadUint32 (PutUint32 v ++ rest) = Except.ok (v % 2 ^ 32, rest) := by
  simp [PutUint32, ReadUint32]
  omega

theorem readUint64_put (v : Nat) (rest : List Byte) :
    ReadUint64 (PutUint64 v ++ rest) = Except.ok (v % 2 ^ 64, rest) := by
  simp [PutUint64, ReadUint64]
  omega

theorem readVarUint_bytes (v : Nat) (hv : v < 2 ^ 64) (rest : List Byte) :
    ReadVarUint (varUintBytes v ++ rest) 0 = Except.ok (v, rest) := by
  have h4 : ¬ (18446744073709551615 < v) := by omega
  unfold varUintBytes
  split
  · have h1 : v ≠ 0xFD := by omega
    have h2 : v ≠ 0xFE := by omega
    have h3 : v ≠ 0xFF := by omega
    simp [ReadVarUint, h1, h2, h3]
    omega
  · split
    · have h5 : v % 65536 = v := by omega
      simp [ReadVarUint, readUint16_put]
      rw [h5]
      simp [h4]
    · split
      · have h5 : v % 4294967296 = v := by omega
        simp [ReadVarUint, readUint32_put]
        rw [h5]
        simp [h4]
      · have h5 : v % 18446744073709551616 = v := by omega
        simp [ReadVarUint, readUint64_put]
        rw [h5]
        simp [h4]

theorem readFull_append (a rest : List Byte) :
    ReadFull (a ++ rest) a.length = Except.ok (a, rest) := by
  simp [ReadFull]

theorem accepts_iff (lib : AddressLib) (s : GoString) :
    lib.accepts s = true ↔ ∃ a, lib.AddressFromBase58 s = Except.ok a := by
  unfold AddressLib.accepts
  cases h : lib.AddressFromBase58 s <;> simp

theorem accepts_false_iff (lib : AddressLib) (s : GoString) :
    lib.accepts s = false ↔ ∃ e, lib.AddressFromBase58 s = Except.error e := by
  unfold AddressLib.accepts
  cases h : lib.AddressFromBase58 s <;> simp

theorem accepts_binaryAddress (lib : AddressLib) (p : VBFTPeerStakeInfo)
    (h : lib.accepts p.Address = true) :
    lib.AddressFromBase58 p.Address = Except.ok (binaryAddress lib p) := by
  obtain ⟨a, ha⟩ := (accepts_iff lib p.Address).1 h
  simp [binaryAddress, ha]

theorem serializePeers_valid (lib : AddressLib) (l : List VBFTPeerStakeInfo)
    (h : ∀ p ∈ l, lib.accepts p.Address = true) (w : Writer) :
    serializePeers lib l w = (w ++ peersBytes lib l, none) := by
  induction l generalizing w with
  | nil => simp [serializePeers, peersBytes]
  | cons p ps ih =>
    have hp := accepts_binaryAddress lib p (h p (List.mem_cons_self _ _))
    have hps : ∀ q ∈ ps, lib.accepts q.Address = true :=
      fun q hq => h q (List.mem_cons_of_mem _ hq)
    simp [serializePeers, peersBytes, peer_serialize_ok lib p w _ hp, ih hps]

theorem serializePeers_invalid (lib : AddressLib) (pre post : List VBFTPeerStakeInfo)
    (bad : VBFTPeerStakeInfo) (e : GoError)
    (hpre : ∀ p ∈ pre, lib.accepts p.Address = true)
    (hbad : lib.AddressFromBase58 bad.Address = Except.error e) (w : Writer) :
    serializePeers lib (pre ++ bad :: post) w =
      (w ++ (peersBytes lib pre ++ (PutUint32 bad.Index ++ strBytes bad.PeerPubkey)),
        some (NewDetailErr (NewDetailErr e "common.AddressFromBase58, address format error!")
          "serialize peer error!")) := by
  induction pre generalizing w with
  | nil => simp [serializePeers, peersBytes, peer_serialize_error lib bad w e hbad]
  | cons p ps ih =>
    have hp := accepts_binaryAddress lib p (hpre p (List.mem_cons_self _ _))
    have hps : ∀ q ∈ ps, lib.accepts q.Address = true :=
      fun q hq => hpre q (List.mem_cons_of_mem _ hq)
    simp [serializePeers, peersBytes, peer_serialize_ok lib p w _ hp, ih hps]

theorem serializePeers_error_iff (lib : AddressLib) (l : List VBFTPeerStakeInfo) (w : Writer) :
    (serializePeers lib l w).2.isSome = true ↔ ∃ p ∈ l, lib.accepts p.Address = false := by
  induction l generalizing w with
  | nil => simp [serializePeers]
  | cons p ps ih =>
    cases hp : lib.AddressFromBase58 p.Address with
    | error e =>
      have hacc : lib.accepts p.Address = false := (accepts_false_iff lib _).2 ⟨e, hp⟩
      simp [serializePeers, peer_serialize_error lib p w e hp, hacc]
    | ok a =>
      have hacc : lib.accepts p.Address = true := (accepts_iff lib _).2 ⟨a, hp⟩
      simp [serializePeers, peer_serialize_ok lib p w a hp, hacc, ih]

theorem readString_bytes (s : GoString) (hs : s.length < 2 ^ 64) (rest : List Byte) :
    ReadString (strBytes s ++ rest) = Except.ok (s, rest) := by
  have hmod : s.length % 2 ^ 64 = s.length := Nat.mod_eq_of_lt hs
  simp only [ReadString, ReadVarBytes, strBytes, hmod, List.append_assoc,
    readVarUint_bytes s.length hs, readFull_append]

theorem addressDeserialize_append (lib : AddressLib) (a rest : List Byte)
    (ha : a.length = lib.ADDR_LEN) :
    AddressDeserialize lib (a ++ rest) = Except.ok (a, rest) := by
  unfold AddressDeserialize
  rw [← ha]
  exact readFull_append a rest

theorem peer_deserialize_record (lib : AddressLib) (this p : VBFTPeerStakeInfo)
    (hacc : lib.accepts p.Address = true) (hlen : p.PeerPubkey.length < 2 ^ 64)
    (rest : List Byte) :
    VBFTPeerStakeInfo.Deserialize lib this (recordBytes p (binaryAddress lib p) ++ rest) =
      (decodedPeer lib p, Except.ok rest) := by
  have ha := lib.size_ok _ _ (accepts_binaryAddress lib p hacc)
  simp only [VBFTPeerStakeInfo.Deserialize, recordBytes, List.append_assoc, readUint32_put,
    readString_bytes _ hlen, addressDeserialize_append lib _ _ ha, readUint64_put, decodedPeer]

theorem deserializePeers_records (lib : AddressLib) (l : List VBFTPeerStakeInfo)
    (hacc : ∀ p ∈ l, lib.accepts p.Address = true)
    (hlen : ∀ p ∈ l, p.PeerPubkey.length < 2 ^ 64)
    (acc : List VBFTPeerStakeInfo) (rest : List Byte) :
    deserializePeers lib l.length acc (peersBytes lib l ++ rest) =
      Except.ok (acc ++ l.map (decodedPeer lib), rest) := by
  induction l generalizing acc with
  | nil => simp [deserializePeers, peersBytes]
  | cons p ps ih =>
    have h1 := peer_deserialize_record lib VBFTPeerStakeInfo.zero p
      (hacc p (List.mem_cons_self _ _)) (hlen p (List.mem_cons_self _ _))
      (peersBytes lib ps ++ rest)
    have hps : ∀ q ∈ ps, lib.accepts q.Address = true :=
      fun q hq => hacc q (List.mem_cons_of_mem _ hq)
    have hls : ∀ q ∈ ps, q.PeerPubkey.length < 2 ^ 64 :=
      fun q hq => hlen q (List.mem_cons_of_mem _ hq)
    simp only [List.length_cons, deserializePeers, peersBytes, List.append_assoc, h1,
      ih hps hls, List.map_cons]
    simp

theorem serialize_valid (lib : AddressLib) (c : VBFTConfig) (hv : ValidAddresses lib c)
    (w : Writer) : VBFTConfig.Serialize lib c w = (w ++ encodingBytes lib c, none) := by
  rw [serialize_eq, serializePeers_valid lib _ hv]
  simp [encodingBytes]

theorem deserialize_encoding (lib : AddressLib) (this c : VBFTConfig) (hs : c.Sized)
    (hv : ValidAddresses lib c) (rest : List Byte) :
    VBFTConfig.Deserialize lib this (encodingBytes lib c ++ rest) =
      (decodedConfig lib c, Except.ok rest) := by
  obtain ⟨h1, h2, h3, h4, h5⟩ := hs
  have hmod : Slice.len c.Peers % 2 ^ 64 = Slice.len c.Peers := Nat.mod_eq_of_lt h4
  have hp := deserializePeers_records lib (Slice.toList c.Peers) hv h5 [] rest
  simp only [List.nil_append] at hp
  simp only [VBFTConfig.Deserialize, encodingBytes, headerBytes, List.append_assoc,
    readUint32_put, readString_bytes _ h1, readString_bytes _ h2, readString_bytes _ h3,
    hmod, readVarUint_bytes _ h4]
  have hlen : Slice.len c.Peers = (Slice.toList c.Peers).length := rfl
  rw [hlen, hp]
  rfl

theorem toList_some {α : Type} (l : List α) : Slice.toList (some l) = l := rfl

theorem len_some {α : Type} (l : List α) : Slice.len (some l) = l.length := rfl

theorem len_eq {α : Type} (s : Slice α) : Slice.len s = (Slice.toList s).length := rfl

theorem putUint32_mod (v : Nat) : PutUint32 (v % 2 ^ 32) = PutUint32 v := by
  have h0 : v % 2 ^ 32 % 256 = v % 256 := by omega
  have h1 : v % 2 ^ 32 / 2 ^ 8 % 256 = v / 2 ^ 8 % 256 := by omega
  have h2 : v % 2 ^ 32 / 2 ^ 16 % 256 = v / 2 ^ 16 % 256 := by omega
  have h3 : v % 2 ^ 32 / 2 ^ 24 % 256 = v / 2 ^ 24 % 256 := by omega
  unfold PutUint32
  rw [h0, h1, h2, h3]

theorem putUint64_mod (v : Nat) : PutUint64 (v % 2 ^ 64) = PutUint64 v := by
  have h0 : v % 2 ^ 64 % 256 = v % 256 := by omega
  have h1 : v % 2 ^ 64 / 2 ^ 8 % 256 = v / 2 ^ 8 % 256 := by omega
  have h2 : v % 2 ^ 64 / 2 ^ 16 % 256 = v / 2 ^ 16 % 256 := by omega
  have h3 : v % 2 ^ 64 / 2 ^ 24 % 256 = v / 2 ^ 24 % 256 := by omega
  have h4 : v % 2 ^ 64 / 2 ^ 32 % 256 = v / 2 ^ 32 % 256 := by omega
  have h5 : v % 2 ^ 64 / 2 ^ 40 % 256 = v / 2 ^ 40 % 256 := by omega
  have h6 : v % 2 ^ 64 / 2 ^ 48 % 256 = v / 2 ^ 48 % 256 := by omega
  have h7 : v % 2 ^ 64 / 2 ^ 56 % 256 = v / 2 ^ 56 % 256 := by omega
  unfold PutUint64
  rw [h0, h1, h2, h3, h4, h5, h6, h7]

theorem decodedPeer_address (lib : AddressLib) (hn : lib.Normalizes) (p : VBFTPeerStakeInfo)
    (hacc : lib.accepts p.Address = true) :
    lib.AddressFromBase58 (decodedPeer lib p).Address = Except.ok (binaryAddress lib p) :=
  hn _ _ (accepts_binaryAddress lib p hacc)

theorem decodedPeer_accepts (lib : AddressLib) (hn : lib.Normalizes) (p : VBFTPeerStakeInfo)
    (hacc : lib.accepts p.Address = true) :
    lib.accepts (decodedPeer lib p).Address = true :=
  (accepts_iff lib _).2 ⟨_, decodedPeer_address lib hn p hacc⟩

theorem decodedPeer_record (lib : AddressLib) (hn : lib.Normalizes) (p : VBFTPeerStakeInfo)
    (hacc : lib.accepts p.Address = true) :
    recordBytes (decodedPeer lib p) (binaryAddress lib (decodedPeer lib p)) =
      recordBytes p (binaryAddress lib p) := by
  have h : binaryAddress lib (decodedPeer lib p) = binaryAddress lib p := by
    have h1 := decodedPeer_address lib hn p hacc
    simp only [binaryAddress, h1]
  rw [h]
  simp only [recordBytes, decodedPeer, putUint32_mod, putUint64_mod]

theorem peersBytes_decoded (lib : AddressLib) (hn : lib.Normalizes)
    (l : List VBFTPeerStakeInfo) (hacc : ∀ p ∈ l, lib.accepts p.Address = true) :
    peersBytes lib (l.map (decodedPeer lib)) = peersBytes lib l := by
  induction l with
  | nil => rfl
  | cons p ps ih =>
    have hps : ∀ q ∈ ps, lib.accepts q.Address = true :=
      fun q hq => hacc q (List.mem_cons_of_mem _ hq)
    simp only [List.map_cons, peersBytes, ih hps,
      decodedPeer_record lib hn p (hacc p (List.mem_cons_self _ _))]

theorem decodedConfig_valid (lib : AddressLib) (hn : lib.Normalizes) (c : VBFTConfig)
    (hv : ValidAddresses lib c) : ValidAddresses lib (decodedConfig lib c) := by
  intro q hq
  simp only [decodedConfig, toList_some, List.mem_map] at hq
  obtain ⟨p, hp, rfl⟩ := hq
  exact decodedPeer_accepts lib hn p (hv p hp)

theorem encodingBytes_decoded (lib : AddressLib) (hn : lib.Normalizes) (c : VBFTConfig)
    (hv : ValidAddresses lib c) :
    encodingBytes lib (decodedConfig lib c) = encodingBytes lib c := by
  have hp := peersBytes_decoded lib hn (Slice.toList c.Peers) hv
  simp only [encodingBytes, headerBytes, decodedConfig, putUint32_mod, len_some, toList_some,
    List.length_map, hp, len_eq]

theorem littleEndian_four (v : Nat) : littleEndian 4 v = PutUint32 v := by
  simp [littleEndian, PutUint32, List.range, List.range.loop]

theorem littleEndian_eight (v : Nat) : littleEndian 8 v = PutUint64 v := by
  simp [littleEndian, PutUint64, List.range, List.range.loop]

theorem lengthPrefixed_eq (s : List Byte) (hs : s.length < 2 ^ 64) :
    lengthPrefixed s = strBytes s := by
  simp only [lengthPrefixed, strBytes, Nat.mod_eq_of_lt hs]

theorem flatten_peerRecord (lib : AddressLib) (l : List VBFTPeerStakeInfo)
    (hl : ∀ p ∈ l, p.PeerPubkey.length < 2 ^ 64) :
    (l.map (peerRecord lib)).flatten = peersBytes lib l := by
  induction l with
  | nil => rfl
  | cons p ps ih =>
    have hps : ∀ q ∈ ps, q.PeerPubkey.length < 2 ^ 64 :=
      fun q hq => hl q (List.mem_cons_of_mem _ hq)
    simp only [List.map_cons, List.flatten_cons, peersBytes, ih hps, peerRecord, recordBytes,
      littleEndian_four, littleEndian_eight,
      lengthPrefixed_eq _ (hl p (List.mem_cons_self _ _))]

theorem encodingGrammar_eq (lib : AddressLib) (c : VBFTConfig) (hs : c.Sized) :
    encodingGrammar lib c = encodingBytes lib c := by
  obtain ⟨h1, h2, h3, h4, h5⟩ := hs
  rw [len_eq] at h4
  simp only [encodingGrammar, encodingBytes, headerBytes, fixedFields, littleEndian_four,
    lengthPrefixed_eq _ h1, lengthPrefixed_eq _ h2, lengthPrefixed_eq _ h3,
    flatten_peerRecord lib _ h5, len_eq, Nat.mod_eq_of_lt h4]

theorem putUint32_length (v : Nat) : (PutUint32 v).length = 4 := rfl

theorem exists_first_rejected (lib : AddressLib) (l : List VBFTPeerStakeInfo)
    (h : ∃ p ∈ l, lib.accepts p.Address = false) :
    ∃ pre bad post, l = pre ++ bad :: post ∧ (∀ p ∈ pre, lib.accepts p.Address = true)
      ∧ lib.accepts bad.Address = false := by
  induction l with
  | nil => simp at h
  | cons q qs ih =>
    cases hq : lib.accepts q.Address with
    | false => exact ⟨[], q, qs, rfl, by simp, hq⟩
    | true =>
      have h' : ∃ p ∈ qs, lib.accepts p.Address = false := by
        obtain ⟨p, hp, hpa⟩ := h
        rcases List.mem_cons.1 hp with rfl | hp'
        · rw [hq] at hpa; cases hpa
        · exact ⟨p, hp', hpa⟩
      obtain ⟨pre, bad, post, hl, hpre, hbad⟩ := ih h'
      refine ⟨q :: pre, bad, post, by simp [hl], ?_, hbad⟩
      intro p hp
      rcases List.mem_cons.1 hp with rfl | hp'
      · exact hq
      · exact hpre p hp'

theorem demo_normalizes : demoAddressLib.Normalizes := by
  intro s a h
  simp only [demoAddressLib] at h ⊢
  unfold demoAddressFromBase58 at h
  split at h
  · cases h; rfl
  · cases h

/-! ## Lemmas on the bookkeeper extraction -/

theorem appendPeerPubkeys_toList (bk : Slice GoString) (l : List VBFTPeerStakeInfo) :
    Slice.toList (appendPeerPubkeys bk l) =
      Slice.toList bk ++ l.map (fun peer => peer.PeerPubkey) := by
  induction l generalizing bk with
  | nil => simp [appendPeerPubkeys]
  | cons p ps ih => simp [appendPeerPubkeys, ih, Slice.append, toList_some]

theorem selectBookkeepers_supported (cfg : OntologyConfig) (h : SupportedConsensus cfg) :
    ∃ bk, selectBookkeepers cfg = some bk ∧ Slice.toList bk = sourceKeyList cfg := by
  unfold selectBookkeepers sourceKeyList
  by_cases h1 : cfg.Genesis.ConsensusType = CONSENSUS_TYPE_VBFT
  · refine ⟨_, if_pos h1, ?_⟩
    rw [if_pos h1, appendPeerPubkeys_toList]
    rfl
  · by_cases h2 : cfg.Genesis.ConsensusType = CONSENSUS_TYPE_DBFT
    · exact ⟨_, by rw [if_neg h1, if_pos h2], by rw [if_neg h1, if_pos h2]⟩
    · by_cases h3 : cfg.Genesis.ConsensusType = CONSENSUS_TYPE_SOLO
      · exact ⟨_, by rw [if_neg h1, if_neg h2, if_pos h3], by rw [if_neg h1, if_neg h2, if_pos h3]⟩
      · rcases h with h | h | h <;> contradiction

theorem selectBookkeepers_unsupported (cfg : OntologyConfig) (h : ¬ SupportedConsensus cfg) :
    selectBookkeepers cfg = none := by
  unfold SupportedConsensus at h
  unfold selectBookkeepers
  rw [if_neg (fun h1 => h (Or.inl h1)), if_neg (fun h2 => h (Or.inr (Or.inl h2))),
    if_neg (fun h3 => h (Or.inr (Or.inr h3)))]

theorem deserializeKeys_ok {PublicKey : Type} (kp : KeypairLib PublicKey) (l : List GoString)
    (keys : List PublicKey) (h : l.map (keyOfText kp) = keys.map some)
    (acc : List PublicKey) :
    deserializeKeys kp l acc = Except.ok (acc ++ keys) := by
  induction l generalizing keys acc with
  | nil =>
    cases keys with
    | nil => simp [deserializeKeys]
    | cons k ks => simp at h
  | cons key rest ih =>
    cases keys with
    | nil => simp at h
    | cons k ks =>
      simp only [List.map_cons, List.cons.injEq] at h
      obtain ⟨hk, hrest⟩ := h
      unfold keyOfText at hk
      unfold deserializeKeys
      split at hk
      · rename_i k' hk'
        cases hk
        simp only [hk', ih ks hrest, List.append_assoc, List.singleton_append]
      · cases hk

theorem deserializeKeys_error {PublicKey : Type} (kp : KeypairLib PublicKey)
    (l : List GoString) (h : ∃ key ∈ l, keyOfText kp key = none) (acc : List PublicKey) :
    ∃ e, deserializeKeys kp l acc = Except.error e := by
  induction l generalizing acc with
  | nil => simp at h
  | cons key rest ih =>
    unfold deserializeKeys
    rcases hx : hexDecodeString key with ⟨bytes, err⟩
    dsimp only
    cases hk : kp.DeserializePublicKey bytes with
    | error e => exact ⟨_, rfl⟩
    | ok k =>
      have hrest : ∃ key ∈ rest, keyOfText kp key = none := by
        obtain ⟨key', hmem, hnone⟩ := h
        rcases List.mem_cons.1 hmem with rfl | hmem'
        · simp [keyOfText, hx, hk] at hnone
        · exact ⟨key', hmem', hnone⟩
      exact ih hrest _

theorem keys_or_rejected {PublicKey : Type} (kp : KeypairLib PublicKey) (l : List GoString) :
    (∃ keys : List PublicKey, l.map (keyOfText kp) = keys.map some) ∨ (∃ key ∈ l, keyOfText kp key = none) := by
  induction l with
  | nil => exact Or.inl ⟨[], rfl⟩
  | cons key rest ih =>
    cases hk : keyOfText kp key with
    | none => exact Or.inr ⟨key, List.mem_cons_self _ _, hk⟩
    | some k =>
      rcases ih with ⟨keys, hkeys⟩ | ⟨key', hmem, hnone⟩
      · exact Or.inl ⟨k :: keys, by simp [hk, hkeys]⟩
      · exact Or.inr ⟨key', List.mem_cons_of_mem _ hmem, hnone⟩

theorem getBookkeepers_of_keys {PublicKey : Type} (kp : KeypairLib PublicKey)
    (cfg : OntologyConfig) (hsup : SupportedConsensus cfg) (keys : List PublicKey)
    (h : (sourceKeyList cfg).map (keyOfText kp) = keys.map some) :
    GetBookkeepers kp cfg = (some (kp.SortPublicKeys keys), none) := by
  obtain ⟨bk, hbk, hl⟩ := selectBookkeepers_supported cfg hsup
  unfold GetBookkeepers
  simp only [hbk, hl, deserializeKeys_ok kp _ keys h [], List.nil_append]

theorem getBookkeepers_of_rejected {PublicKey : Type} (kp : KeypairLib PublicKey)
    (cfg : OntologyConfig) (h : ∃ key ∈ sourceKeyList cfg, keyOfText kp key = none) :
    ∃ e, GetBookkeepers kp cfg = (none, some e) := by
  by_cases hsup : SupportedConsensus cfg
  · obtain ⟨bk, hbk, hl⟩ := selectBookkeepers_supported cfg hsup
    obtain ⟨e, he⟩ := deserializeKeys_error kp (sourceKeyList cfg) h []
    unfold GetBookkeepers
    simp only [hbk, hl, he]
    exact ⟨_, rfl⟩
  · unfold GetBookkeepers
    simp only [selectBookkeepers_unsupported cfg hsup]
    exact ⟨_, rfl⟩

theorem getBookkeepers_unsupported {PublicKey : Type} (kp : KeypairLib PublicKey)
    (cfg : OntologyConfig) (hsup : ¬ SupportedConsensus cfg) :
    ∃ e, GetBookkeepers kp cfg = (none, some e) := by
  unfold GetBookkeepers
  simp only [selectBookkeepers_unsupported cfg hsup]
  exact ⟨_, rfl⟩

theorem le_trans_of_totalOrder {PublicKey : Type} (kp : KeypairLib PublicKey)
    (ho : kp.TotalOrder) (a b c : PublicKey) (hab : kp.le a b) (hbc : kp.le b c) :
    kp.le a c := by
  unfold KeypairLib.le at *
  cases hca : kp.Less c a with
  | false => rfl
  | true =>
    cases hab' : kp.Less a b with
    | true =>
      have := ho.trans c a b hca hab'
      rw [hbc] at this
      cases this
    | false =>
      have hEq := ho.connected a b hab' hab
      subst hEq
      rw [hbc] at hca
      cases hca

theorem sorted_of_sorts {PublicKey : Type} (kp : KeypairLib PublicKey) (hs : kp.Sorts)
    (ho : kp.TotalOrder) (l : List PublicKey) : List.Pairwise kp.le (kp.SortPublicKeys l) := by
  haveI : IsTrans PublicKey kp.le := ⟨le_trans_of_totalOrder kp ho⟩
  exact List.chain'_iff_pairwise.1 (hs.ordered l)

theorem sort_perm_eq {PublicKey : Type} (kp : KeypairLib PublicKey) (hs : kp.Sorts)
    (ho : kp.TotalOrder) (l1 l2 : List PublicKey) (h : l1.Perm l2) :
    kp.SortPublicKeys l1 = kp.SortPublicKeys l2 := by
  haveI : IsAntisymm PublicKey kp.le :=
    ⟨fun a b hab hba => ho.connected a b hba hab⟩
  have hp : (kp.SortPublicKeys l1).Perm (kp.SortPublicKeys l2) :=
    ((hs.perm l1).trans h).trans (hs.perm l2).symm
  exact List.eq_of_perm_of_sorted hp (sorted_of_sorts kp hs ho l1) (sorted_of_sorts kp hs ho l2)

theorem filterMap_of_map_some {α β : Type} (f : α → Option β) (l : List α) (keys : List β)
    (h : l.map f = keys.map some) : l.filterMap f = keys := by
  induction l generalizing keys with
  | nil =>
    cases keys with
    | nil => rfl
    | cons k ks => simp at h
  | cons a rest ih =>
    cases keys with
    | nil => simp at h
    | cons k ks =>
      simp only [List.map_cons, List.cons.injEq] at h
      simp [List.filterMap_cons, h.1, ih ks h.2]

theorem hexDecodeString_append_zz (key : GoString) :
    ∀ bytes, hexDecodeString key = (bytes, none) →
      hexDecodeString (key ++ goStr "zz") = (bytes, some (InvalidByteError 122)) := by
  induction key using hexDecodeString.induct with
  | case1 =>
    intro bytes h
    simp only [hexDecodeString, Prod.mk.injEq] at h
    obtain ⟨rfl, -⟩ := h
    rfl
  | case2 p hp =>
    intro bytes h
    simp [hexDecodeString, hp] at h
  | case3 p v hp =>
    intro bytes h
    simp [hexDecodeString, hp] at h
  | case4 p q rest hp =>
    intro bytes h
    simp [hexDecodeString, hp] at h
  | case5 p q rest a hp hq =>
    intro bytes h
    simp [hexDecodeString, hp, hq] at h
  | case6 p q rest a b hp hq bytes' err' hrest ih =>
    intro bytes h
    simp only [hexDecodeString, hp, hq, hrest, Prod.mk.injEq] at h
    obtain ⟨rfl, rfl⟩ := h
    have h2 := ih bytes' hrest
    have h3 : rest.append (goStr "zz") = rest ++ goStr "zz" := rfl
    simp only [List.cons_append, hexDecodeString, hp, hq]
    rw [h3, h2]

theorem keyOfText_of_mem {PublicKey : Type} (kp : KeypairLib PublicKey) (l : List GoString)
    (keys : List PublicKey) (h : l.map (keyOfText kp) = keys.map some) (key : GoString)
    (hmem : key ∈ l) : keyOfText kp key ≠ none := by
  intro hnone
  have h1 : keyOfText kp key ∈ l.map (keyOfText kp) := List.mem_map_of_mem _ hmem
  rw [h, hnone] at h1
  simp at h1

theorem demo_sorts : demoKeypairLib.Sorts := by
  constructor
  · intro l
    exact List.perm_insertionSort _ l
  · intro l
    have h : List.Sorted (fun a b : Nat => a ≤ b) (List.insertionSort (fun a b => a ≤ b) l) :=
      List.sorted_insertionSort _ l
    have h2 : List.Pairwise demoKeypairLib.le (List.insertionSort (fun a b => a ≤ b) l) := by
      refine List.Pairwise.imp ?_ h
      intro a b hab
      simp only [KeypairLib.le, demoKeypairLib, decide_eq_false_iff_not, not_lt]
      exact hab
    exact List.Pairwise.chain' h2

theorem demo_totalOrder : demoKeypairLib.TotalOrder := by
  constructor
  · intro a b c hab hbc
    simp only [demoKeypairLib, decide_eq_true_eq] at *
    omega
  · intro a b hab hba
    simp only [demoKeypairLib, decide_eq_false_iff_not, not_lt] at *
    omega

/-! ## Lemmas on the default network id -/

theorem solo_ne_vbft : CONSENSUS_TYPE_SOLO ≠ CONSENSUS_TYPE_VBFT := by decide

theorem solo_ne_dbft : CONSENSUS_TYPE_SOLO ≠ CONSENSUS_TYPE_DBFT := by decide

theorem getDefNetworkID_solo (lib : HashLib) (cfg : OntologyConfig) (genCfg : GenesisConfig)
    (h : cfg.Genesis.ConsensusType = CONSENSUS_TYPE_SOLO) :
    getDefNetworkIDFromGenesisConfig lib cfg genCfg = (NETWORK_ID_SOLO_NET, none) := by
  unfold getDefNetworkIDFromGenesisConfig
  rw [h, if_neg solo_ne_vbft, if_neg solo_ne_dbft, if_pos rfl]

theorem hashConfigData_ok (lib : HashLib) (m : List Byte × Option GoError) (h : m.2 = none) :
    hashConfigData lib m = (LittleEndianUint32 ((lib.Sum256 m.1).take 4), none) := by
  obtain ⟨data, err⟩ := m
  simp only at h
  subst h
  rfl

theorem getDefNetworkID_vbft (lib : HashLib) (cfg : OntologyConfig) (genCfg : GenesisConfig)
    (h : cfg.Genesis.ConsensusType = CONSENSUS_TYPE_VBFT)
    (hm : (lib.MarshalVBFT genCfg.VBFT).2 = none) :
    getDefNetworkIDFromGenesisConfig lib cfg genCfg =
      (LittleEndianUint32 ((lib.Sum256 (lib.MarshalVBFT genCfg.VBFT).1).take 4), none) := by
  unfold getDefNetworkIDFromGenesisConfig
  rw [if_pos h, hashConfigData_ok lib _ hm]

/-! ## Known answers of the models of SHA-256 and `json.Marshal` -/

theorem sha256_empty :
    sha256Sum256 (goStr "") =
      [227, 176, 196, 66, 152, 252, 28, 20, 154, 251, 244, 200, 153, 111, 185, 36,
       39, 174, 65, 228, 100, 155, 147, 76, 164, 149, 153, 27, 120, 82, 184, 85] := by
  decide!

theorem sha256_abc :
    sha256Sum256 (goStr "abc") =
      [186, 120, 22, 191, 143, 1, 207, 234, 65, 65, 64, 222, 93, 174, 34, 35,
       176, 3, 97, 163, 150, 23, 122, 156, 180, 16, 255, 97, 242, 0, 21, 173] := by
  decide!

theorem sha256_two_blocks :
    sha256Sum256 (goStr "abcdbcdecdefdefgefghfghighijhijkijkljklmklmnlmnomnopnopq") =
      [36, 141, 106, 97, 210, 6, 56, 184, 229, 192, 38, 147, 12, 62, 96, 57,
       163, 60, 228, 89, 100, 255, 33, 103, 246, 236, 237, 212, 25, 219, 6, 193] := by
  decide!

theorem jsonDBFTConfig_zero :
    jsonDBFTConfig DBFTConfig.zero =
      goStr "\x7b\x22GenBlockTime\x22:0,\x22Bookkeepers\x22:null\x7d" := by
  decide

theorem jsonVBFTPeerStakeInfo_example :
    jsonVBFTPeerStakeInfo (mkPeer 1 "02ab" "Axy" 10000) =
      goStr ("\x7b\x22index\x22:1,\x22peerPubkey\x22:\x2202ab\x22,"
        ++ "\x22address\x22:\x22Axy\x22,\x22initPos\x22:10000\x7d") := by
  decide

/-! ## Lemmas on the classification, the names and the receiver of `Deserialize` -/

theorem dbft_ne_vbft : CONSENSUS_TYPE_DBFT ≠ CONSENSUS_TYPE_VBFT := by decide

theorem getDefNetworkID_dbft (lib : HashLib) (cfg : OntologyConfig) (genCfg : GenesisConfig)
    (h : cfg.Genesis.ConsensusType = CONSENSUS_TYPE_DBFT)
    (hm : (lib.MarshalDBFT genCfg.DBFT).2 = none) :
    getDefNetworkIDFromGenesisConfig lib cfg genCfg =
      (LittleEndianUint32 ((lib.Sum256 (lib.MarshalDBFT genCfg.DBFT).1).take 4), none) := by
  unfold getDefNetworkIDFromGenesisConfig
  rw [h, if_neg dbft_ne_vbft, if_pos rfl, hashConfigData_ok lib _ hm]

theorem getDefNetworkID_unsupported (lib : HashLib) (cfg : OntologyConfig)
    (genCfg : GenesisConfig) (h : ¬ SupportedConsensus cfg) :
    getDefNetworkIDFromGenesisConfig lib cfg genCfg =
      (0, some (GoError.errorf
        (goStr "unknown consensus type:" ++ cfg.Genesis.ConsensusType))) := by
  unfold SupportedConsensus at h
  unfold getDefNetworkIDFromGenesisConfig
  rw [if_neg (fun h1 => h (Or.inl h1)), if_neg (fun h2 => h (Or.inr (Or.inl h2))),
    if_neg (fun h3 => h (Or.inr (Or.inr h3)))]

theorem getDefNetworkID_ok (lib : HashLib) (ht : lib.MarshalTotal) (cfg : OntologyConfig)
    (genCfg : GenesisConfig) (h : SupportedConsensus cfg) :
    getDefNetworkIDFromGenesisConfig lib cfg genCfg = (candidateId lib cfg genCfg, none) := by
  unfold candidateId
  rcases h with h | h | h
  · rw [getDefNetworkID_vbft lib cfg genCfg h (ht.1 _)]
  · rw [getDefNetworkID_dbft lib cfg genCfg h (ht.2 _)]
  · rw [getDefNetworkID_solo lib cfg genCfg h]

theorem getDefaultNetworkId_of_ok (lib : HashLib) (cfg : OntologyConfig) (c m p : Nat)
    (hc : getDefNetworkIDFromGenesisConfig lib cfg cfg.Genesis = (c, none))
    (hm : getDefNetworkIDFromGenesisConfig lib cfg MainNetConfig = (m, none))
    (hp : getDefNetworkIDFromGenesisConfig lib cfg PolarisConfig = (p, none)) :
    GetDefaultNetworkId lib cfg =
      (if c = m then NETWORK_ID_MAIN_NET else if c = p then NETWORK_ID_POLARIS_NET else c,
        none) := by
  unfold GetDefaultNetworkId
  rw [hc, hm, hp]
  dsimp only
  by_cases h1 : c = m
  · rw [if_pos h1, if_pos h1]
  · rw [if_neg h1, if_neg h1]
    by_cases h2 : c = p
    · rw [if_pos h2, if_pos h2]
    · rw [if_neg h2, if_neg h2]

theorem getDefaultNetworkId_unsupported (lib : HashLib) (cfg : OntologyConfig)
    (h : ¬ SupportedConsensus cfg) :
    GetDefaultNetworkId lib cfg =
      (0, some (GoError.errorf
        (goStr "unknown consensus type:" ++ cfg.Genesis.ConsensusType))) := by
  unfold GetDefaultNetworkId
  rw [getDefNetworkID_unsupported lib cfg _ h]

theorem goHashLib_total : goHashLib.MarshalTotal := ⟨fun _ => rfl, fun _ => rfl⟩

theorem getNetworkName_registered (id : Nat) (h : id = 1 ∨ id = 2 ∨ id = 3) :
    GetNetworkName id =
      if id = 1 then NETWORK_NAME_MAIN_NET
      else if id = 2 then NETWORK_NAME_POLARIS_NET else NETWORK_NAME_SOLO_NET := by
  rcases h with rfl | rfl | rfl <;> decide

theorem getNetworkName_unregistered (id : Nat) (h1 : id ≠ 1) (h2 : id ≠ 2) (h3 : id ≠ 3) :
    GetNetworkName id = goStr (Nat.repr id) := by
  have e1 : (id == 1) = false := by simpa using h1
  have e2 : (id == 2) = false := by simpa using h2
  have e3 : (id == 3) = false := by simpa using h3
  unfold GetNetworkName NETWORK_NAME NETWORK_ID_MAIN_NET NETWORK_ID_POLARIS_NET
    NETWORK_ID_SOLO_NET
  simp only [List.lookup, e1, e2, e3]

theorem utf8EncodeChar_digitChar (d : Nat) (h : d < 10) :
    utf8EncodeChar (Nat.digitChar d) = [48 + d] := by
  interval_cases d <;> rfl

theorem utf8EncodeChars_digits (l : List Nat) (h : ∀ d ∈ l, d < 10) :
    utf8EncodeChars (l.map Nat.digitChar) = l.map (fun d => 48 + d) := by
  induction l with
  | nil => rfl
  | cons d ds ih =>
    have hd := h d (List.mem_cons_self _ _)
    have hds : ∀ x ∈ ds, x < 10 := fun x hx => h x (List.mem_cons_of_mem _ hx)
    simp only [List.map_cons, utf8EncodeChars, utf8EncodeChar_digitChar d hd, ih hds,
      List.singleton_append]

theorem toDigitsCore_eq_digits (fuel : Nat) :
    ∀ (n : Nat) (ds : List Char), n < fuel → 0 < n →
      Nat.toDigitsCore 10 fuel n ds = (Nat.digits 10 n).reverse.map Nat.digitChar ++ ds := by
  induction fuel with
  | zero => intro n ds h; omega
  | succ fuel ih =>
    intro n ds hlt hpos
    have hdig : Nat.digits 10 n = (n % 10) :: Nat.digits 10 (n / 10) :=
      Nat.digits_def' (by omega) hpos
    unfold Nat.toDigitsCore
    by_cases h0 : n / 10 = 0
    · simp only [h0, if_true, hdig, Nat.digits_zero, List.reverse_cons, List.reverse_nil,
        List.nil_append, List.map_cons, List.map_nil, List.singleton_append]
    · have hlt2 : n / 10 < fuel := by omega
      have hpos2 : 0 < n / 10 := Nat.pos_of_ne_zero h0
      simp only [h0, if_false, ih (n / 10) _ hlt2 hpos2, hdig, List.reverse_cons,
        List.map_append, List.map_cons, List.map_nil, List.append_assoc,
        List.singleton_append]

theorem goStr_repr (n : Nat) : goStr (Nat.repr n) = decimalString n := by
  unfold decimalString
  by_cases h0 : n = 0
  · subst h0
    rfl
  · rw [if_neg h0]
    have hpos : 0 < n := Nat.pos_of_ne_zero h0
    have h1 : (Nat.repr n).toList = (Nat.digits 10 n).reverse.map Nat.digitChar := by
      show Nat.toDigitsCore 10 (n + 1) n [] = _
      rw [toDigitsCore_eq_digits (n + 1) n [] (by omega) hpos, List.append_nil]
    unfold goStr
    rw [h1, utf8EncodeChars_digits]
    intro d hd
    exact Nat.digits_lt_base (by omega) (List.mem_reverse.1 hd)

theorem decimalString_digits (n : Nat) : ∀ b ∈ decimalString n, 48 ≤ b ∧ b ≤ 57 := by
  intro b hb
  unfold decimalString at hb
  by_cases h0 : n = 0
  · rw [if_pos h0] at hb
    simp only [List.mem_singleton] at hb
    subst hb
    decide
  · rw [if_neg h0] at hb
    simp only [List.mem_map, List.mem_reverse] at hb
    obtain ⟨d, hd, rfl⟩ := hb
    have hlt : d < 10 := Nat.digits_lt_base (b := 10) (by omega) hd
    have key : ∀ x : Nat, x < 10 → 48 ≤ 48 + x ∧ 48 + x ≤ 57 := by
      intro x hx; omega
    exact key d hlt

theorem decimalString_no_leading_zero (n : Nat) (h0 : n ≠ 0) :
    (decimalString n).head? ≠ some 48 := by
  unfold decimalString
  rw [if_neg h0]
  have hne : Nat.digits 10 n ≠ [] := Nat.digits_ne_nil_iff_ne_zero.2 h0
  have hlast := Nat.getLast_digit_ne_zero 10 h0
  rw [List.head?_map, List.head?_reverse, List.getLast?_eq_getLast _ hne]
  simp only [Option.map_some', ne_eq, Option.some.injEq]
  have key : ∀ x : Nat, x ≠ 0 → ¬ (48 + x = 48) := by
    intro x hx; omega
  exact key _ hlast

theorem decimalString_value (n : Nat) :
    Nat.ofDigits 10 (((decimalString n).map (fun b => b - 48)).reverse) = n := by
  unfold decimalString
  by_cases h0 : n = 0
  · subst h0
    simp
  · rw [if_neg h0]
    have : (fun b => b - 48) ∘ (fun d => 48 + d) = (id : Nat → Nat) := by
      funext d
      simp
    rw [List.map_map, this, List.map_id, List.reverse_reverse, Nat.ofDigits_digits]

theorem decimalString_two : decimalString 2 = [50] := by
  simp [decimalString]

theorem littleEndianUint32_eq (l : List Byte) (h : l.length = 32) :
    LittleEndianUint32 (l.take 4) = littleEndianValue ((l.take 4).map (fun b => b % 256)) := by
  match l, h with
  | b0 :: b1 :: b2 :: b3 :: rest, _ =>
    simp only [List.take, LittleEndianUint32, List.getD, List.get?, Option.getD,
      List.map, littleEndianValue]
    omega

theorem getDefNetworkID_congr (lib : HashLib) (c1 c2 : OntologyConfig) (g : GenesisConfig)
    (h : c1.Genesis.ConsensusType = c2.Genesis.ConsensusType) :
    getDefNetworkIDFromGenesisConfig lib c1 g = getDefNetworkIDFromGenesisConfig lib c2 g := by
  unfold getDefNetworkIDFromGenesisConfig
  rw [h]

theorem getDefNetworkID_self (lib : HashLib) (c1 c2 : OntologyConfig)
    (h : SameSelected c1 c2) :
    getDefNetworkIDFromGenesisConfig lib c1 c1.Genesis =
      getDefNetworkIDFromGenesisConfig lib c2 c2.Genesis := by
  obtain ⟨hct, hv, hd, _⟩ := h
  rw [← getDefNetworkID_congr lib c1 c2 c2.Genesis hct]
  unfold getDefNetworkIDFromGenesisConfig
  by_cases h1 : c1.Genesis.ConsensusType = CONSENSUS_TYPE_VBFT
  · rw [if_pos h1, if_pos h1, hv h1]
  · rw [if_neg h1, if_neg h1]
    by_cases h2 : c1.Genesis.ConsensusType = CONSENSUS_TYPE_DBFT
    · rw [if_pos h2, if_pos h2, hd h2]
    · rw [if_neg h2, if_neg h2]

theorem selectBookkeepers_congr (c1 c2 : OntologyConfig) (h : SameSelected c1 c2) :
    selectBookkeepers c1 = selectBookkeepers c2 := by
  obtain ⟨hct, hv, hd, hs⟩ := h
  unfold selectBookkeepers
  rw [← hct]
  by_cases h1 : c1.Genesis.ConsensusType = CONSENSUS_TYPE_VBFT
  · rw [if_pos h1, if_pos h1, hv h1]
  · rw [if_neg h1, if_neg h1]
    by_cases h2 : c1.Genesis.ConsensusType = CONSENSUS_TYPE_DBFT
    · rw [if_pos h2, if_pos h2, hd h2]
    · rw [if_neg h2, if_neg h2]
      by_cases h3 : c1.Genesis.ConsensusType = CONSENSUS_TYPE_SOLO
      · rw [if_pos h3, if_pos h3, hs h3]
      · rw [if_neg h3, if_neg h3]

theorem peer_deserialize_cases (lib : AddressLib) (this : VBFTPeerStakeInfo) (r : Reader) :
    (VBFTPeerStakeInfo.Deserialize lib this r).1 = this ∨
      ∃ r', (VBFTPeerStakeInfo.Deserialize lib this r).2 = Except.ok r' := by
  unfold VBFTPeerStakeInfo.Deserialize
  repeat' first
    | exact Or.inl rfl
    | exact Or.inr ⟨_, rfl⟩
    | split

theorem deserialize_cases (lib : AddressLib) (this : VBFTConfig) (r : Reader) :
    (VBFTConfig.Deserialize lib this r).1 = this ∨
      ∃ r', (VBFTConfig.Deserialize lib this r).2 = Except.ok r' := by
  unfold VBFTConfig.Deserialize
  repeat' first
    | exact Or.inl rfl
    | exact Or.inr ⟨_, rfl⟩
    | split

/-! ## Lemmas on reading from a longer input -/

theorem readUint16_ext (r s : Reader) (v : Nat) (r' : Reader)
    (h : ReadUint16 r = Except.ok (v, r')) : ReadUint16 (r ++ s) = Except.ok (v, r' ++ s) := by
  unfold ReadUint16 at h
  split at h
  · cases h
    rfl
  · cases h

theorem readUint32_ext (r s : Reader) (v : Nat) (r' : Reader)
    (h : ReadUint32 r = Except.ok (v, r')) : ReadUint32 (r ++ s) = Except.ok (v, r' ++ s) := by
  unfold ReadUint32 at h
  split at h
  · cases h
    rfl
  · cases h

theorem readUint64_ext (r s : Reader) (v : Nat) (r' : Reader)
    (h : ReadUint64 r = Except.ok (v, r')) : ReadUint64 (r ++ s) = Except.ok (v, r' ++ s) := by
  unfold ReadUint64 at h
  split at h
  · cases h
    rfl
  · cases h

theorem readFull_ext (r s : Reader) (n : Nat) (v : List Byte) (r' : Reader)
    (h : ReadFull r n = Except.ok (v, r')) : ReadFull (r ++ s) n = Except.ok (v, r' ++ s) := by
  unfold ReadFull at h ⊢
  split at h
  · rename_i hn
    cases h
    have hn2 : n ≤ (r ++ s).length := by
      rw [List.length_append]; omega
    rw [if_pos hn2, List.take_append_of_le_length hn, List.drop_append_of_le_length hn]
  · cases h

theorem rangeCheck_ext (M v1 v : Nat) (r2 r' s : Reader)
    (h : (if v1 > M then Except.error ErrRange else Except.ok (v1, r2)) =
      (Except.ok (v, r') : Except GoError (Nat × Reader))) :
    (if v1 > M then Except.error ErrRange else Except.ok (v1, r2 ++ s)) =
      (Except.ok (v, r' ++ s) : Except GoError (Nat × Reader)) := by
  by_cases hgt : v1 > M
  · rw [if_pos hgt] at h
    cases h
  · rw [if_neg hgt] at h
    cases h
    rw [if_neg hgt]

theorem readVarUint_ext (r s : Reader) (m v : Nat) (r' : Reader)
    (h : ReadVarUint r m = Except.ok (v, r')) :
    ReadVarUint (r ++ s) m = Except.ok (v, r' ++ s) := by
  cases r with
  | nil => simp [ReadVarUint] at h
  | cons fb r1 =>
    simp only [ReadVarUint, List.cons_append] at h ⊢
    generalize (if m = 0 then 2 ^ 64 - 1 else m) = M at h ⊢
    by_cases h1 : fb = 0xFD
    · simp only [h1, if_true] at h ⊢
      cases h16 : ReadUint16 r1 with
      | error e => simp [h16] at h
      | ok res =>
        obtain ⟨v1, r2⟩ := res
        rw [h16] at h
        rw [readUint16_ext r1 s v1 r2 h16]
        exact rangeCheck_ext M v1 v r2 r' s h
    · simp only [h1, if_false] at h ⊢
      by_cases h2 : fb = 0xFE
      · simp only [h2, if_true] at h ⊢
        cases h32 : ReadUint32 r1 with
        | error e => simp [h32] at h
        | ok res =>
          obtain ⟨v1, r2⟩ := res
          rw [h32] at h
          rw [readUint32_ext r1 s v1 r2 h32]
          exact rangeCheck_ext M v1 v r2 r' s h
      · simp only [h2, if_false] at h ⊢
        by_cases h3 : fb = 0xFF
        · simp only [h3, if_true] at h ⊢
          cases h64 : ReadUint64 r1 with
          | error e => simp [h64] at h
          | ok res =>
            obtain ⟨v1, r2⟩ := res
            rw [h64] at h
            rw [readUint64_ext r1 s v1 r2 h64]
            exact rangeCheck_ext M v1 v r2 r' s h
        · simp only [h3, if_false] at h ⊢
          exact rangeCheck_ext M fb v r1 r' s h

theorem readString_ext (r s : Reader) (v : GoString) (r' : Reader)
    (h : ReadString r = Except.ok (v, r')) : ReadString (r ++ s) = Except.ok (v, r' ++ s) := by
  unfold ReadString ReadVarBytes at h ⊢
  cases hv : ReadVarUint r 0 with
  | error e => simp [hv] at h
  | ok res =>
    obtain ⟨n, r1⟩ := res
    rw [hv] at h
    simp only at h
    rw [readVarUint_ext r s 0 n r1 hv]
    exact readFull_ext r1 s n v r' h

theorem addressDeserialize_ext (lib : AddressLib) (r s : Reader) (v : List Byte) (r' : Reader)
    (h : AddressDeserialize lib r = Except.ok (v, r')) :
    AddressDeserialize lib (r ++ s) = Except.ok (v, r' ++ s) :=
  readFull_ext r s lib.ADDR_LEN v r' h

theorem sortPublicKeys_nil {PublicKey : Type} (kp : KeypairLib PublicKey) (hs : kp.Sorts) :
    kp.SortPublicKeys [] = [] :=
  List.Perm.eq_nil (hs.perm [])

/-! ## Lemmas on `Deserialize` over any readers -/

theorem peer_deserializeWith_modelled (lib : AddressLib) (this : VBFTPeerStakeInfo)
    (r : Reader) :
    VBFTPeerStakeInfo.DeserializeWith (modelledReaders lib) lib this r =
      VBFTPeerStakeInfo.Deserialize lib this r := rfl

theorem deserializePeersWith_modelled (lib : AddressLib) (count : Nat) :
    ∀ (peers : List VBFTPeerStakeInfo) (r : Reader),
      deserializePeersWith (modelledReaders lib) lib count peers r =
        deserializePeers lib count peers r := by
  induction count with
  | zero => intro peers r; rfl
  | succ n ih =>
    intro peers r
    simp only [deserializePeersWith, deserializePeers, peer_deserializeWith_modelled]
    rcases VBFTPeerStakeInfo.Deserialize lib VBFTPeerStakeInfo.zero r with ⟨peer, out⟩
    cases out with
    | error e => rfl
    | ok r1 => exact ih _ r1

theorem deserializeWith_modelled (lib : AddressLib) (this : VBFTConfig) (r : Reader) :
    VBFTConfig.DeserializeWith (modelledReaders lib) lib this r =
      VBFTConfig.Deserialize lib this r := by
  unfold VBFTConfig.DeserializeWith VBFTConfig.Deserialize
  simp only [deserializePeersWith_modelled]
  rfl

theorem modelledReaders_inverts (lib : AddressLib) : (modelledReaders lib).Inverts lib :=
  { uint32 := readUint32_put,
    uint64 := readUint64_put,
    string := fun s rest hs => readString_bytes s hs rest,
    varUint := fun v rest hv => readVarUint_bytes v hv rest,
    address := fun a rest ha => addressDeserialize_append lib a rest ha }

theorem modelledReaders_reportsShortInput (lib : AddressLib) :
    (modelledReaders lib).ReportsShortInput :=
  { uint32 := readUint32_ext,
    uint64 := readUint64_ext,
    string := readString_ext,
    varUint := readVarUint_ext,
    address := addressDeserialize_ext lib }

theorem shortReadUint64_put (v : Nat) (rest : List Byte) :
    shortReadUint64 (PutUint64 v ++ rest) = Except.ok (v % 2 ^ 64, rest) := by
  have h : shortReadUint64 (PutUint64 v ++ rest) = ReadUint64 (PutUint64 v ++ rest) := by
    simp [shortReadUint64, PutUint64]
  rw [h, readUint64_put]

theorem shortReadLib_inverts (lib : AddressLib) : (shortReadLib lib).Inverts lib :=
  { uint32 := readUint32_put,
    uint64 := shortReadUint64_put,
    string := fun s rest hs => readString_bytes s hs rest,
    varUint := fun v rest hv => readVarUint_bytes v hv rest,
    address := fun a rest ha => addressDeserialize_append lib a rest ha }

theorem peer_deserializeWith_record (rd : ReaderLib) (lib : AddressLib) (hi : rd.Inverts lib)
    (this p : VBFTPeerStakeInfo) (hacc : lib.accepts p.Address = true)
    (hlen : p.PeerPubkey.length < 2 ^ 64) (rest : List Byte) :
    VBFTPeerStakeInfo.DeserializeWith rd lib this (recordBytes p (binaryAddress lib p) ++ rest) =
      (decodedPeer lib p, Except.ok rest) := by
  have ha := lib.size_ok _ _ (accepts_binaryAddress lib p hacc)
  simp only [VBFTPeerStakeInfo.DeserializeWith, recordBytes, List.append_assoc, hi.uint32,
    hi.string _ _ hlen, hi.address _ _ ha, hi.uint64, decodedPeer]

theorem deserializePeersWith_records (rd : ReaderLib) (lib : AddressLib) (hi : rd.Inverts lib)
    (l : List VBFTPeerStakeInfo)
    (hacc : ∀ p ∈ l, lib.accepts p.Address = true)
    (hlen : ∀ p ∈ l, p.PeerPubkey.length < 2 ^ 64)
    (acc : List VBFTPeerStakeInfo) (rest : List Byte) :
    deserializePeersWith rd lib l.length acc (peersBytes lib l ++ rest) =
      Except.ok (acc ++ l.map (decodedPeer lib), rest) := by
  induction l generalizing acc with
  | nil => simp [deserializePeersWith, peersBytes]
  | cons p ps ih =>
    have h1 := peer_deserializeWith_record rd lib hi VBFTPeerStakeInfo.zero p
      (hacc p (List.mem_cons_self _ _)) (hlen p (List.mem_cons_self _ _))
      (peersBytes lib ps ++ rest)
    have hps : ∀ q ∈ ps, lib.accepts q.Address = true :=
      fun q hq => hacc q (List.mem_cons_of_mem _ hq)
    have hls : ∀ q ∈ ps, q.PeerPubkey.length < 2 ^ 64 :=
      fun q hq => hlen q (List.mem_cons_of_mem _ hq)
    simp only [List.length_cons, deserializePeersWith, peersBytes, List.append_assoc, h1,
      ih hps hls, List.map_cons]
    simp

theorem deserializeWith_encoding (rd : ReaderLib) (lib : AddressLib) (hi : rd.Inverts lib)
    (this c : VBFTConfig) (hs : c.Sized) (hv : ValidAddresses lib c) (rest : List Byte) :
    VBFTConfig.DeserializeWith rd lib this (encodingBytes lib c ++ rest) =
      (decodedConfig lib c, Except.ok rest) := by
  obtain ⟨h1, h2, h3, h4, h5⟩ := hs
  have hmod : Slice.len c.Peers % 2 ^ 64 = Slice.len c.Peers := Nat.mod_eq_of_lt h4
  have hp := deserializePeersWith_records rd lib hi (Slice.toList c.Peers) hv h5 [] rest
  simp only [List.nil_append] at hp
  simp only [VBFTConfig.DeserializeWith, encodingBytes, headerBytes, List.append_assoc,
    hi.uint32, hi.string _ _ h1, hi.string _ _ h2, hi.string _ _ h3,
    hmod, hi.varUint _ _ h4]
  have hlen : Slice.len c.Peers = (Slice.toList c.Peers).length := rfl
  rw [hlen, hp]
  rfl

theorem peer_deserializeWith_ext (rd : ReaderLib) (he : rd.ReportsShortInput)
    (lib : AddressLib) (this : VBFTPeerStakeInfo) (r s r' : Reader)
    (h : (VBFTPeerStakeInfo.DeserializeWith rd lib this r).2 = Except.ok r') :
    VBFTPeerStakeInfo.DeserializeWith rd lib this (r ++ s) =
      ((VBFTPeerStakeInfo.DeserializeWith rd lib this r).1, Except.ok (r' ++ s)) := by
  unfold VBFTPeerStakeInfo.DeserializeWith at h ⊢
  cases h1 : rd.ReadUint32 r with
  | error e => rw [h1] at h; cases h
  | ok res1 =>
  obtain ⟨index, r1⟩ := res1
  rw [h1] at h
  rw [he.uint32 r s index r1 h1]
  dsimp only at h ⊢
  cases h2 : rd.ReadString r1 with
  | error e => rw [h2] at h; cases h
  | ok res2 =>
  obtain ⟨peerPubkey, r2⟩ := res2
  rw [h2] at h
  rw [he.string r1 s peerPubkey r2 h2]
  dsimp only at h ⊢
  cases h3 : rd.AddressDeserialize r2 with
  | error e => rw [h3] at h; cases h
  | ok res3 =>
  obtain ⟨address, r3⟩ := res3
  rw [h3] at h
  rw [he.address r2 s address r3 h3]
  dsimp only at h ⊢
  cases h4 : rd.ReadUint64 r3 with
  | error e => rw [h4] at h; cases h
  | ok res4 =>
  obtain ⟨initPos, r4⟩ := res4
  rw [h4] at h
  rw [he.uint64 r3 s initPos r4 h4]
  dsimp only at h ⊢
  cases h
  rfl

theorem deserializePeersWith_ext (rd : ReaderLib) (he : rd.ReportsShortInput)
    (lib : AddressLib) (count : Nat) :
    ∀ (peers : List VBFTPeerStakeInfo) (r s : Reader) (res : List VBFTPeerStakeInfo)
      (r' : Reader), deserializePeersWith rd lib count peers r = Except.ok (res, r') →
      deserializePeersWith rd lib count peers (r ++ s) = Except.ok (res, r' ++ s) := by
  induction count with
  | zero =>
    intro peers r s res r' h
    simp only [deserializePeersWith] at h ⊢
    cases h
    rfl
  | succ n ih =>
    intro peers r s res r' h
    simp only [deserializePeersWith] at h ⊢
    rcases hp : VBFTPeerStakeInfo.DeserializeWith rd lib VBFTPeerStakeInfo.zero r with
      ⟨peer, out⟩
    rw [hp] at h
    cases out with
    | error e => cases h
    | ok r1 =>
      have h2 : (VBFTPeerStakeInfo.DeserializeWith rd lib VBFTPeerStakeInfo.zero r).2
          = Except.ok r1 := by
        rw [hp]
      rw [peer_deserializeWith_ext rd he lib _ r s r1 h2, hp]
      dsimp only at h ⊢
      exact ih _ r1 s res r' h

theorem deserializeWith_ext (rd : ReaderLib) (he : rd.ReportsShortInput) (lib : AddressLib)
    (this : VBFTConfig) (r s r' : Reader)
    (h : (VBFTConfig.DeserializeWith rd lib this r).2 = Except.ok r') :
    VBFTConfig.DeserializeWith rd lib this (r ++ s) =
      ((VBFTConfig.DeserializeWith rd lib this r).1, Except.ok (r' ++ s)) := by
  unfold VBFTConfig.DeserializeWith at h ⊢
  cases h1 : rd.ReadUint32 r with
  | error e => rw [h1] at h; cases h
  | ok res1 =>
  obtain ⟨n, r1⟩ := res1
  rw [h1] at h
  rw [he.uint32 r s n r1 h1]
  dsimp only at h ⊢
  cases h2 : rd.ReadUint32 r1 with
  | error e => rw [h2] at h; cases h
  | ok res2 =>
  obtain ⟨c, r2⟩ := res2
  rw [h2] at h
  rw [he.uint32 r1 s c r2 h2]
  dsimp only at h ⊢
  cases h3 : rd.ReadUint32 r2 with
  | error e => rw [h3] at h; cases h
  | ok res3 =>
  obtain ⟨k, r3⟩ := res3
  rw [h3] at h
  rw [he.uint32 r2 s k r3 h3]
  dsimp only at h ⊢
  cases h4 : rd.ReadUint32 r3 with
  | error e => rw [h4] at h; cases h
  | ok res4 =>
  obtain ⟨l, r4⟩ := res4
  rw [h4] at h
  rw [he.uint32 r3 s l r4 h4]
  dsimp only at h ⊢
  cases h5 : rd.ReadUint32 r4 with
  | error e => rw [h5] at h; cases h
  | ok res5 =>
  obtain ⟨blockMsgDelay, r5⟩ := res5
  rw [h5] at h
  rw [he.uint32 r4 s blockMsgDelay r5 h5]
  dsimp only at h ⊢
  cases h6 : rd.ReadUint32 r5 with
  | error e => rw [h6] at h; cases h
  | ok res6 =>
  obtain ⟨hashMsgDelay, r6⟩ := res6
  rw [h6] at h
  rw [he.uint32 r5 s hashMsgDelay r6 h6]
  dsimp only at h ⊢
  cases h7 : rd.ReadUint32 r6 with
  | error e => rw [h7] at h; cases h
  | ok res7 =>
  obtain ⟨peerHandshakeTimeout, r7⟩ := res7
  rw [h7] at h
  rw [he.uint32 r6 s peerHandshakeTimeout r7 h7]
  dsimp only at h ⊢
  cases h8 : rd.ReadUint32 r7 with
  | error e => rw [h8] at h; cases h
  | ok res8 =>
  obtain ⟨maxBlockChangeView, r8⟩ := res8
  rw [h8] at h
  rw [he.uint32 r7 s maxBlockChangeView r8 h8]
  dsimp only at h ⊢
  cases h9 : rd.ReadUint32 r8 with
  | error e => rw [h9] at h; cases h
  | ok res9 =>
  obtain ⟨minInitStake, r9⟩ := res9
  rw [h9] at h
  rw [he.uint32 r8 s minInitStake r9 h9]
  dsimp only at h ⊢
  cases h10 : rd.ReadString r9 with
  | error e => rw [h10] at h; cases h
  | ok res10 =>
  obtain ⟨adminOntID, r10⟩ := res10
  rw [h10] at h
  rw [he.string r9 s adminOntID r10 h10]
  dsimp only at h ⊢
  cases h11 : rd.ReadString r10 with
  | error e => rw [h11] at h; cases h
  | ok res11 =>
  obtain ⟨vrfValue, r11⟩ := res11
  rw [h11] at h
  rw [he.string r10 s vrfValue r11 h11]
  dsimp only at h ⊢
  cases h12 : rd.ReadString r11 with
  | error e => rw [h12] at h; cases h
  | ok res12 =>
  obtain ⟨vrfProof, r12⟩ := res12
  rw [h12] at h
  rw [he.string r11 s vrfProof r12 h12]
  dsimp only at h ⊢
  cases h13 : rd.ReadVarUint r12 0 with
  | error e => rw [h13] at h; cases h
  | ok res13 =>
  obtain ⟨length, r13⟩ := res13
  rw [h13] at h
  rw [he.varUint r12 s 0 length r13 h13]
  dsimp only at h ⊢
  cases h14 : deserializePeersWith rd lib length [] r13 with
  | error e => rw [h14] at h; cases h
  | ok res14 =>
  obtain ⟨peers, r14⟩ := res14
  rw [h14] at h
  rw [deserializePeersWith_ext rd he lib length [] r13 s peers r14 h14]
  dsimp only at h ⊢
  cases h
  rfl

theorem specKeyOfText_append_zz {PublicKey : Type} (kp : KeypairLib PublicKey)
    (key : GoString) (bytes : List Byte) (hhex : hexDecodeString key = (bytes, none)) :
    specKeyOfText kp (key ++ goStr "zz") = none := by
  unfold specKeyOfText
  rw [hexDecodeString_append_zz key bytes hhex]

theorem sortPublicKeys_singleton {PublicKey : Type} (kp : KeypairLib PublicKey)
    (hs : kp.Sorts) (pk : PublicKey) : kp.SortPublicKeys [pk] = [pk] :=
  List.perm_singleton.mp (hs.perm [pk])

/-! ## The claims -/

/-- Claim C1 (round trip on bytes).  For an address library whose text form is canonical
and a configuration with Go-sized lengths all of whose peer addresses are accepted,
`Serialize` succeeds and appends bytes `b` to any writer, `Deserialize` on `b` succeeds,
consumes all of `b` and yields `cfg'`, and `Serialize` of `cfg'` appends exactly `b`. -/
theorem serialize_roundtrip_bytes (lib : AddressLib) (hn : lib.Normalizes)
    (cfg this : VBFTConfig) (hs : cfg.Sized) (hv : ValidAddresses lib cfg) :
    ∃ b cfg',
      (∀ w, VBFTConfig.Serialize lib cfg w = (w ++ b, none)) ∧
      VBFTConfig.Deserialize lib this b = (cfg', Except.ok []) ∧
      (∀ w, VBFTConfig.Serialize lib cfg' w = (w ++ b, none)) := by
  refine ⟨encodingBytes lib cfg, decodedConfig lib cfg, serialize_valid lib cfg hv, ?_, ?_⟩
  · have h := deserialize_encoding lib this cfg hs hv []
    simpa using h
  · intro w
    rw [serialize_valid lib _ (decodedConfig_valid lib hn cfg hv),
      encodingBytes_decoded lib hn cfg hv]

/-- The round trip on bytes, run on `demoConfig`. -/
theorem serialize_roundtrip_bytes_witness :
    ∃ b cfg',
      (∀ w, VBFTConfig.Serialize demoAddressLib demoConfig w = (w ++ b, none)) ∧
      VBFTConfig.Deserialize demoAddressLib VBFTConfig.zero b = (cfg', Except.ok []) ∧
      (∀ w, VBFTConfig.Serialize demoAddressLib cfg' w = (w ++ b, none)) :=
  serialize_roundtrip_bytes demoAddressLib demo_normalizes demoConfig VBFTConfig.zero
    (by decide) (by decide)

/-- Claim C2 is violated by the code: for a solo configuration the candidate id and both
reference ids are `NETWORK_ID_SOLO_NET`, so the comparison with the main-net reference
succeeds and `GetDefaultNetworkId` returns `NETWORK_ID_MAIN_NET`, which is not the solo
id. -/
theorem getDefaultNetworkId_solo (lib : HashLib) (cfg : OntologyConfig)
    (h : cfg.Genesis.ConsensusType = CONSENSUS_TYPE_SOLO) :
    GetDefaultNetworkId lib cfg = (NETWORK_ID_MAIN_NET, none) ∧
      NETWORK_ID_MAIN_NET ≠ NETWORK_ID_SOLO_NET := by
  refine ⟨?_, by decide⟩
  unfold GetDefaultNetworkId
  simp only [getDefNetworkID_solo lib cfg _ h, if_true]

/-- The default network id of a solo configuration is 1. -/
theorem getDefaultNetworkId_solo_witness :
    GetDefaultNetworkId demoHashLib { Genesis := demoGenesis CONSENSUS_TYPE_SOLO [] } = (1, none) ∧
      NETWORK_ID_MAIN_NET ≠ NETWORK_ID_SOLO_NET :=
  getDefaultNetworkId_solo demoHashLib { Genesis := demoGenesis CONSENSUS_TYPE_SOLO [] } rfl

/-- Claim C3.  On a writer that never fails, `Serialize` returns an error exactly when
some peer of the configuration has an `Address` that `AddressFromBase58` rejects; no other
field is involved. -/
theorem serialize_error_iff (lib : AddressLib) (cfg : VBFTConfig) (w : Writer) :
    (VBFTConfig.Serialize lib cfg w).2.isSome = true ↔
      ∃ p ∈ Slice.toList cfg.Peers, ∃ e, lib.AddressFromBase58 p.Address = Except.error e := by
  rw [serialize_eq, serializePeers_error_iff]
  simp only [accepts_false_iff]

/-- Claim C4 fails as stated: on `demoBadConfig`, whose second peer has an invalid address,
it is not the case that `Serialize` fails and leaves the (empty) writer as it was. -/
theorem serialize_not_atomic :
    (∃ p ∈ Slice.toList demoBadConfig.Peers, demoAddressLib.accepts p.Address = false) ∧
    ¬ ((VBFTConfig.Serialize demoAddressLib demoBadConfig []).2.isSome = true ∧
        (VBFTConfig.Serialize demoAddressLib demoBadConfig []).1 = []) := by
  decide

/-- Claim C4, amended.  When some peer has an invalid address, `Serialize` fails and the
writer holds the bytes it held before followed by the fixed fields, the three strings, the
peer count, the complete records of the peers before the first invalid one, and the
`Index` and `PeerPubkey` of that peer. -/
theorem serialize_partial_output (lib : AddressLib) (cfg : VBFTConfig) (w : Writer)
    (h : ∃ p ∈ Slice.toList cfg.Peers, lib.accepts p.Address = false) :
    ∃ pre bad post,
      Slice.toList cfg.Peers = pre ++ bad :: post ∧
      (∀ p ∈ pre, lib.accepts p.Address = true) ∧
      lib.accepts bad.Address = false ∧
      (VBFTConfig.Serialize lib cfg w).2.isSome = true ∧
      (VBFTConfig.Serialize lib cfg w).1 =
        w ++ (headerBytes cfg ++ peersBytes lib pre
          ++ (PutUint32 bad.Index ++ strBytes bad.PeerPubkey)) := by
  obtain ⟨pre, bad, post, hl, hpre, hbad⟩ := exists_first_rejected lib _ h
  obtain ⟨e, he⟩ := (accepts_false_iff lib _).1 hbad
  refine ⟨pre, bad, post, hl, hpre, hbad, ?_, ?_⟩
  · rw [serialize_eq, hl, serializePeers_invalid lib pre post bad e hpre he]
    rfl
  · rw [serialize_eq, hl, serializePeers_invalid lib pre post bad e hpre he]
    simp

/-- The partial output of a failed `Serialize`, on `demoBadConfig` and a writer holding two
bytes. -/
theorem serialize_partial_output_witness :
    ∃ pre bad post,
      Slice.toList demoBadConfig.Peers = pre ++ bad :: post ∧
      (∀ p ∈ pre, demoAddressLib.accepts p.Address = true) ∧
      demoAddressLib.accepts bad.Address = false ∧
      (VBFTConfig.Serialize demoAddressLib demoBadConfig [1, 2]).2.isSome = true ∧
      (VBFTConfig.Serialize demoAddressLib demoBadConfig [1, 2]).1 =
        [1, 2] ++ (headerBytes demoBadConfig ++ peersBytes demoAddressLib pre
          ++ (PutUint32 bad.Index ++ strBytes bad.PeerPubkey)) :=
  serialize_partial_output demoAddressLib demoBadConfig [1, 2] (by decide)

/-- Claim C5 is violated by the code: take a text `key` that hex-decodes into bytes that
deserialize into the key `pk`, and append `zz` to it.  The result does not hex-decode, yet
on a dbft configuration with this single bookkeeper `GetBookkeepers` returns `pk` and a nil
error, because the bytes decoded before the error are deserialized and the error of
`hex.DecodeString` is never read. -/
theorem getBookkeepers_drops_hex_error {PublicKey : Type} (kp : KeypairLib PublicKey)
    (cfg : OntologyConfig) (key : GoString) (bytes : List Byte) (pk : PublicKey)
    (hct : cfg.Genesis.ConsensusType = CONSENSUS_TYPE_DBFT)
    (hkeys : cfg.Genesis.DBFT.Bookkeepers = some [key ++ goStr "zz"])
    (hhex : hexDecodeString key = (bytes, none))
    (hkey : kp.DeserializePublicKey bytes = Except.ok pk) :
    (hexDecodeString (key ++ goStr "zz")).2 = some (InvalidByteError 122) ∧
      GetBookkeepers kp cfg = (some (kp.SortPublicKeys [pk]), none) := by
  have hzz := hexDecodeString_append_zz key bytes hhex
  refine ⟨by rw [hzz], ?_⟩
  have hsup : SupportedConsensus cfg := Or.inr (Or.inl hct)
  have hne : CONSENSUS_TYPE_DBFT ≠ CONSENSUS_TYPE_VBFT := by decide
  have hsrc : sourceKeyList cfg = [key ++ goStr "zz"] := by
    unfold sourceKeyList
    rw [hct, if_neg hne, if_pos rfl, hkeys]
    rfl
  apply getBookkeepers_of_keys kp cfg hsup [pk]
  rw [hsrc]
  simp [keyOfText, hzz, hkey]

/-- The text `07` decodes into a key of `demoKeypairLib`; the text `07zz` does not
hex-decode, yet `GetBookkeepers` succeeds on it with that key. -/
theorem getBookkeepers_drops_hex_error_witness :
    (hexDecodeString (goStr "07" ++ goStr "zz")).2 = some (InvalidByteError 122) ∧
    GetBookkeepers demoKeypairLib
        { Genesis := demoGenesis CONSENSUS_TYPE_DBFT [goStr "07" ++ goStr "zz"] } =
      (some (demoKeypairLib.SortPublicKeys [7]), none) :=
  getBookkeepers_drops_hex_error demoKeypairLib
    { Genesis := demoGenesis CONSENSUS_TYPE_DBFT [goStr "07" ++ goStr "zz"] } (goStr "07")
    [7] 7 rfl rfl (by decide) rfl

/-- Claim C6 (order independence).  For a key library whose `SortPublicKeys` sorts by a
strict total order, two configurations of the same consensus type whose source key lists
are permutations of each other either both fail or both succeed with the same key
sequence. -/
theorem getBookkeepers_order_independent {PublicKey : Type} (kp : KeypairLib PublicKey)
    (hs : kp.Sorts) (ho : kp.TotalOrder) (cfg1 cfg2 : OntologyConfig)
    (hct : cfg1.Genesis.ConsensusType = cfg2.Genesis.ConsensusType)
    (hperm : (sourceKeyList cfg1).Perm (sourceKeyList cfg2)) :
    (∃ e1 e2, GetBookkeepers kp cfg1 = (none, some e1) ∧
        GetBookkeepers kp cfg2 = (none, some e2)) ∨
    (∃ out, GetBookkeepers kp cfg1 = (some out, none) ∧
        GetBookkeepers kp cfg2 = (some out, none)) := by
  by_cases hsup1 : SupportedConsensus cfg1
  · have hsup2 : SupportedConsensus cfg2 := by
      unfold SupportedConsensus at hsup1 ⊢
      rw [← hct]
      exact hsup1
    rcases keys_or_rejected kp (sourceKeyList cfg1) with ⟨keys1, h1⟩ | ⟨key, hmem, hnone⟩
    · rcases keys_or_rejected kp (sourceKeyList cfg2) with ⟨keys2, h2⟩ | ⟨key, hmem, hnone⟩
      · right
        have hp : keys1.Perm keys2 := by
          rw [← filterMap_of_map_some _ _ _ h1, ← filterMap_of_map_some _ _ _ h2]
          exact List.Perm.filterMap _ hperm
        refine ⟨kp.SortPublicKeys keys1, getBookkeepers_of_keys kp cfg1 hsup1 keys1 h1, ?_⟩
        rw [sort_perm_eq kp hs ho keys1 keys2 hp]
        exact getBookkeepers_of_keys kp cfg2 hsup2 keys2 h2
      · exact absurd hnone
          (keyOfText_of_mem kp _ keys1 h1 key (hperm.mem_iff.2 hmem))
    · left
      obtain ⟨e1, he1⟩ := getBookkeepers_of_rejected kp cfg1 ⟨key, hmem, hnone⟩
      obtain ⟨e2, he2⟩ :=
        getBookkeepers_of_rejected kp cfg2 ⟨key, hperm.mem_iff.1 hmem, hnone⟩
      exact ⟨e1, e2, he1, he2⟩
  · left
    have hsup2 : ¬ SupportedConsensus cfg2 := by
      unfold SupportedConsensus at hsup1 ⊢
      rw [← hct]
      exact hsup1
    obtain ⟨e1, he1⟩ := getBookkeepers_unsupported kp cfg1 hsup1
    obtain ⟨e2, he2⟩ := getBookkeepers_unsupported kp cfg2 hsup2
    exact ⟨e1, e2, he1, he2⟩

/-- Order independence on two solo configurations with permuted bookkeepers. -/
theorem getBookkeepers_order_independent_witness :
    ∃ out,
      GetBookkeepers demoKeypairLib
          { Genesis := demoGenesis CONSENSUS_TYPE_SOLO [goStr "09", goStr "03", goStr "05"] } =
        (some out, none) ∧
      GetBookkeepers demoKeypairLib
          { Genesis := demoGenesis CONSENSUS_TYPE_SOLO [goStr "05", goStr "09", goStr "03"] } =
        (some out, none) := by
  have h := getBookkeepers_order_independent demoKeypairLib demo_sorts demo_totalOrder
    { Genesis := demoGenesis CONSENSUS_TYPE_SOLO [goStr "09", goStr "03", goStr "05"] }
    { Genesis := demoGenesis CONSENSUS_TYPE_SOLO [goStr "05", goStr "09", goStr "03"] }
    rfl (by decide)
  rcases h with ⟨e1, _, he1, _⟩ | h
  · have h2 : (GetBookkeepers demoKeypairLib
        { Genesis := demoGenesis CONSENSUS_TYPE_SOLO
            [goStr "09", goStr "03", goStr "05"] }).2 = none := by decide
    rw [he1] at h2
    cases h2
  · exact h

/-- What the loop guarantees when `GetBookkeepers` succeeds: the bytes that
`hex.DecodeString` returned for each text of the source key list, whatever its error,
deserialized into a key (`keyOfText`), and the output is sorted in non-decreasing order, is
a permutation of those keys (duplicates included) and has the length of the source list. -/
theorem getBookkeepers_sorted_permutation {PublicKey : Type} (kp : KeypairLib PublicKey)
    (hs : kp.Sorts) (ho : kp.TotalOrder) (cfg : OntologyConfig)
    (hok : (GetBookkeepers kp cfg).2 = none) :
    ∃ keys sorted,
      (sourceKeyList cfg).map (keyOfText kp) = keys.map some ∧
      (GetBookkeepers kp cfg).1 = some sorted ∧
      List.Pairwise kp.le sorted ∧
      sorted.Perm keys ∧
      sorted.length = (sourceKeyList cfg).length := by
  by_cases hsup : SupportedConsensus cfg
  · rcases keys_or_rejected kp (sourceKeyList cfg) with ⟨keys, h⟩ | hrej
    · have hlen : keys.length = (sourceKeyList cfg).length := by
        have := congrArg List.length h
        simpa using this.symm
      refine ⟨keys, kp.SortPublicKeys keys, h, ?_, sorted_of_sorts kp hs ho keys,
        hs.perm keys, ?_⟩
      · rw [getBookkeepers_of_keys kp cfg hsup keys h]
      · rw [(hs.perm keys).length_eq, hlen]
    · obtain ⟨e, he⟩ := getBookkeepers_of_rejected kp cfg hrej
      rw [he] at hok
      cases hok
  · obtain ⟨e, he⟩ := getBookkeepers_unsupported kp cfg hsup
    rw [he] at hok
    cases hok

/-- The sorted permutation on a dbft configuration with a duplicated bookkeeper. -/
theorem getBookkeepers_sorted_permutation_witness :
    (GetBookkeepers demoKeypairLib
        { Genesis := demoGenesis CONSENSUS_TYPE_DBFT [goStr "09", goStr "03", goStr "09"] }).2
      = none ∧
    ∃ keys sorted,
      (sourceKeyList
          { Genesis := demoGenesis CONSENSUS_TYPE_DBFT [goStr "09", goStr "03", goStr "09"] }).map
        (keyOfText demoKeypairLib) = keys.map some ∧
      (GetBookkeepers demoKeypairLib
        { Genesis := demoGenesis CONSENSUS_TYPE_DBFT [goStr "09", goStr "03", goStr "09"] }).1
        = some sorted ∧
      List.Pairwise demoKeypairLib.le sorted ∧
      sorted.Perm keys ∧
      sorted.length = (sourceKeyList
          { Genesis := demoGenesis CONSENSUS_TYPE_DBFT
              [goStr "09", goStr "03", goStr "09"] }).length :=
  ⟨by decide,
    getBookkeepers_sorted_permutation demoKeypairLib demo_sorts demo_totalOrder
      { Genesis := demoGenesis CONSENSUS_TYPE_DBFT [goStr "09", goStr "03", goStr "09"] }
      (by decide)⟩

/-- Claim C7 is violated by the code: take a text `key` that hex-decodes into bytes that
deserialize into the key `pk`, and append `zz` to it.  On a dbft configuration with this
single bookkeeper `GetBookkeepers` succeeds with the output `[pk]`, although the one text
of the source list does not hex-decode and so has no key in the words of the
specification: the output is not a permutation of the keys deserialized from the source
list, which are none. -/
theorem getBookkeepers_key_of_undecodable_text {PublicKey : Type}
    (kp : KeypairLib PublicKey) (hs : kp.Sorts) (cfg : OntologyConfig) (key : GoString)
    (bytes : List Byte) (pk : PublicKey)
    (hct : cfg.Genesis.ConsensusType = CONSENSUS_TYPE_DBFT)
    (hkeys : cfg.Genesis.DBFT.Bookkeepers = some [key ++ goStr "zz"])
    (hhex : hexDecodeString key = (bytes, none))
    (hkey : kp.DeserializePublicKey bytes = Except.ok pk) :
    GetBookkeepers kp cfg = (some [pk], none) ∧
      (sourceKeyList cfg).map (specKeyOfText kp) = [none] ∧
      ¬ [pk].Perm ((sourceKeyList cfg).filterMap (specKeyOfText kp)) := by
  have hzz := hexDecodeString_append_zz key bytes hhex
  have hsup : SupportedConsensus cfg := Or.inr (Or.inl hct)
  have hne : CONSENSUS_TYPE_DBFT ≠ CONSENSUS_TYPE_VBFT := by decide
  have hsrc : sourceKeyList cfg = [key ++ goStr "zz"] := by
    unfold sourceKeyList
    rw [hct, if_neg hne, if_pos rfl, hkeys]
    rfl
  have hnone := specKeyOfText_append_zz kp key bytes hhex
  refine ⟨?_, ?_, ?_⟩
  · rw [← sortPublicKeys_singleton kp hs pk]
    apply getBookkeepers_of_keys kp cfg hsup [pk]
    rw [hsrc]
    simp [keyOfText, hzz, hkey]
  · rw [hsrc, List.map_singleton, hnone]
  · rw [hsrc]
    simp [hnone]

/-- The text `07zz` does not hex-decode, yet `GetBookkeepers` succeeds on it with the key
of the text `07`. -/
theorem getBookkeepers_key_of_undecodable_text_witness :
    GetBookkeepers demoKeypairLib
        { Genesis := demoGenesis CONSENSUS_TYPE_DBFT [goStr "07" ++ goStr "zz"] } =
      (some [7], none) ∧
    (sourceKeyList { Genesis := demoGenesis CONSENSUS_TYPE_DBFT [goStr "07" ++ goStr "zz"] }).map
      (specKeyOfText demoKeypairLib) = [none] ∧
    ¬ [7].Perm ((sourceKeyList
      { Genesis := demoGenesis CONSENSUS_TYPE_DBFT [goStr "07" ++ goStr "zz"] }).filterMap
        (specKeyOfText demoKeypairLib)) :=
  getBookkeepers_key_of_undecodable_text demoKeypairLib demo_sorts
    { Genesis := demoGenesis CONSENSUS_TYPE_DBFT [goStr "07" ++ goStr "zz"] } (goStr "07")
    [7] 7 rfl rfl (by decide) rfl

/-- Claim C8 (encoding grammar).  For a configuration with Go-sized lengths and valid
addresses, `Serialize` appends exactly the bytes of the grammar: nine little-endian uint32
fields (36 bytes), three length-prefixed strings, the var-uint peer count, and one record
per peer in the order of `Peers`, whose address part has the fixed size `ADDR_LEN`. -/
theorem serialize_grammar (lib : AddressLib) (cfg : VBFTConfig) (hs : cfg.Sized)
    (hv : ValidAddresses lib cfg) :
    (∀ w, VBFTConfig.Serialize lib cfg w = (w ++ encodingGrammar lib cfg, none)) ∧
    (fixedFields cfg).length = 36 ∧
    (∀ p ∈ Slice.toList cfg.Peers, (binaryAddress lib p).length = lib.ADDR_LEN) := by
  refine ⟨?_, ?_, ?_⟩
  · intro w
    rw [encodingGrammar_eq lib cfg hs]
    exact serialize_valid lib cfg hv w
  · simp [fixedFields, littleEndian_four, putUint32_length]
  · intro p hp
    exact lib.size_ok _ _ (accepts_binaryAddress lib p (hv p hp))

/-- The encoding grammar on `demoConfig`. -/
theorem serialize_grammar_witness :
    (∀ w, VBFTConfig.Serialize demoAddressLib demoConfig w =
      (w ++ encodingGrammar demoAddressLib demoConfig, none)) ∧
    (fixedFields demoConfig).length = 36 ∧
    (∀ p ∈ Slice.toList demoConfig.Peers,
      (binaryAddress demoAddressLib p).length = demoAddressLib.ADDR_LEN) :=
  serialize_grammar demoAddressLib demoConfig (by decide) (by decide)

/-- Claim C9 (round trip on values).  For a configuration of Go-typed values with valid
addresses, `Deserialize` applied to the bytes of `Serialize` succeeds, consumes them all,
and yields the same twelve scalar fields and the same peers in the same order, each with
its address text replaced by `ToBase58(AddressFromBase58(Address))`. -/
theorem deserialize_serialize_values (lib : AddressLib) (cfg this : VBFTConfig)
    (hs : cfg.Sized) (hr : cfg.InRange) (hv : ValidAddresses lib cfg) :
    ∃ b cfg',
      (∀ w, VBFTConfig.Serialize lib cfg w = (w ++ b, none)) ∧
      VBFTConfig.Deserialize lib this b = (cfg', Except.ok []) ∧
      cfg'.N = cfg.N ∧ cfg'.C = cfg.C ∧ cfg'.K = cfg.K ∧ cfg'.L = cfg.L ∧
      cfg'.BlockMsgDelay = cfg.BlockMsgDelay ∧ cfg'.HashMsgDelay = cfg.HashMsgDelay ∧
      cfg'.PeerHandshakeTimeout = cfg.PeerHandshakeTimeout ∧
      cfg'.MaxBlockChangeView = cfg.MaxBlockChangeView ∧
      cfg'.MinInitStake = cfg.MinInitStake ∧
      cfg'.AdminOntID = cfg.AdminOntID ∧ cfg'.VrfValue = cfg.VrfValue ∧
      cfg'.VrfProof = cfg.VrfProof ∧
      Slice.toList cfg'.Peers = (Slice.toList cfg.Peers).map (normalizedPeer lib) := by
  obtain ⟨r1, r2, r3, r4, r5, r6, r7, r8, r9, rp⟩ := hr
  refine ⟨encodingBytes lib cfg, decodedConfig lib cfg, serialize_valid lib cfg hv, ?_,
    Nat.mod_eq_of_lt r1, Nat.mod_eq_of_lt r2, Nat.mod_eq_of_lt r3, Nat.mod_eq_of_lt r4,
    Nat.mod_eq_of_lt r5, Nat.mod_eq_of_lt r6, Nat.mod_eq_of_lt r7, Nat.mod_eq_of_lt r8,
    Nat.mod_eq_of_lt r9, rfl, rfl, rfl, ?_⟩
  · have h := deserialize_encoding lib this cfg hs hv []
    simpa using h
  · simp only [decodedConfig, toList_some]
    apply List.map_congr_left
    intro p hp
    obtain ⟨hi, hp64⟩ := rp p hp
    simp only [decodedPeer, normalizedPeer, Nat.mod_eq_of_lt hi, Nat.mod_eq_of_lt hp64]

/-- The round trip on values, run on `demoConfig`. -/
theorem deserialize_serialize_values_witness :
    ∃ b cfg',
      (∀ w, VBFTConfig.Serialize demoAddressLib demoConfig w = (w ++ b, none)) ∧
      VBFTConfig.Deserialize demoAddressLib VBFTConfig.zero b = (cfg', Except.ok []) ∧
      cfg'.N = 7 ∧ cfg'.C = 2 ∧ cfg'.K = 7 ∧ cfg'.L = 112 ∧
      cfg'.BlockMsgDelay = 10000 ∧ cfg'.HashMsgDelay = 10000 ∧
      cfg'.PeerHandshakeTimeout = 10 ∧
      cfg'.MaxBlockChangeView = 3000 ∧
      cfg'.MinInitStake = 10000 ∧
      cfg'.AdminOntID = goStr "did" ∧ cfg'.VrfValue = goStr "1c" ∧
      cfg'.VrfProof = goStr "c5" ∧
      Slice.toList cfg'.Peers =
        (Slice.toList demoConfig.Peers).map (normalizedPeer demoAddressLib) :=
  deserialize_serialize_values demoAddressLib demoConfig VBFTConfig.zero
    (by decide) (by decide) (by decide)

/-- Claim C10.  For a configuration whose genesis is `MainNetConfig`, and `json.Marshal`
succeeding on the two built-in VBFT sub-configs, `GetDefaultNetworkId` returns
`NETWORK_ID_MAIN_NET` with a nil error, and the name of that id is `ontology`. -/
theorem getDefaultNetworkId_mainnet (lib : HashLib) (cfg : OntologyConfig)
    (hg : cfg.Genesis = MainNetConfig)
    (hmain : (lib.MarshalVBFT MainNetConfig.VBFT).2 = none)
    (hpolaris : (lib.MarshalVBFT PolarisConfig.VBFT).2 = none) :
    GetDefaultNetworkId lib cfg = (NETWORK_ID_MAIN_NET, none) ∧
      GetNetworkName NETWORK_ID_MAIN_NET = goStr "ontology" := by
  refine ⟨?_, by decide⟩
  have hct : cfg.Genesis.ConsensusType = CONSENSUS_TYPE_VBFT := by rw [hg]; rfl
  unfold GetDefaultNetworkId
  rw [getDefNetworkID_vbft lib cfg PolarisConfig hct hpolaris,
    getDefNetworkID_vbft lib cfg MainNetConfig hct hmain, hg]
  rw [hg] at hct
  rw [getDefNetworkID_vbft lib _ MainNetConfig (by rw [hg]; exact hct) hmain]
  simp only [if_true]

/-- The default network id of `NewOntologyConfig`. -/
theorem getDefaultNetworkId_mainnet_witness :
    GetDefaultNetworkId demoHashLib NewOntologyConfig = (1, none) ∧
      GetNetworkName 1 = goStr "ontology" :=
  getDefaultNetworkId_mainnet demoHashLib NewOntologyConfig rfl rfl rfl

/-- Claim C11.  For a configuration whose genesis is `PolarisConfig`, with `json.Marshal`
succeeding on the two built-in VBFT sub-configs and the candidate id of `PolarisConfig`
different from that of `MainNetConfig`, `GetDefaultNetworkId` returns
`NETWORK_ID_POLARIS_NET` with a nil error, and the name of that id is `polaris`. -/
theorem getDefaultNetworkId_polaris (lib : HashLib) (cfg : OntologyConfig)
    (hg : cfg.Genesis = PolarisConfig)
    (hmain : (lib.MarshalVBFT MainNetConfig.VBFT).2 = none)
    (hpolaris : (lib.MarshalVBFT PolarisConfig.VBFT).2 = none)
    (hne : candidateId lib cfg PolarisConfig ≠ candidateId lib cfg MainNetConfig) :
    GetDefaultNetworkId lib cfg = (NETWORK_ID_POLARIS_NET, none) ∧
      GetNetworkName NETWORK_ID_POLARIS_NET = goStr "polaris" := by
  refine ⟨?_, by decide⟩
  have hct : cfg.Genesis.ConsensusType = CONSENSUS_TYPE_VBFT := by rw [hg]; rfl
  have hp := getDefNetworkID_vbft lib cfg PolarisConfig hct hpolaris
  have hm := getDefNetworkID_vbft lib cfg MainNetConfig hct hmain
  have hc : getDefNetworkIDFromGenesisConfig lib cfg cfg.Genesis =
      (LittleEndianUint32 ((lib.Sum256 (lib.MarshalVBFT PolarisConfig.VBFT).1).take 4),
        none) := by
    rw [hg]; exact hp
  rw [getDefaultNetworkId_of_ok lib cfg _ _ _ hc hm hp]
  unfold candidateId at hne
  rw [hp, hm] at hne
  simp only at hne
  rw [if_neg hne, if_pos rfl]

set_option maxRecDepth 1000000 in
/-- With `json.Marshal` and SHA-256 themselves the two candidate ids differ (3693364664 for
`PolarisConfig`, 125454016 for `MainNetConfig`), and the default network id of
`PolarisConfig` is 2. -/
theorem getDefaultNetworkId_polaris_witness :
    GetDefaultNetworkId goHashLib { Genesis := PolarisConfig } = (2, none) ∧
      GetNetworkName 2 = goStr "polaris" :=
  getDefaultNetworkId_polaris goHashLib { Genesis := PolarisConfig } rfl rfl rfl (by decide!)

set_option maxRecDepth 1000000 in
/-- Claim C12 fails as stated: the dbft configuration `collidingGenesis` has the candidate
id 2 under SHA-256, which is neither reference id (both are 992174289), so
`GetDefaultNetworkId` returns the raw value 2; its network name is the registered name
`polaris`, not the decimal string of 2. -/
theorem network_name_not_decimal :
    collidingGenesis.ConsensusType = CONSENSUS_TYPE_DBFT ∧
    (goHashLib.MarshalDBFT collidingGenesis.DBFT).1 =
      goStr "\x7b\x22GenBlockTime\x22:1256606143,\x22Bookkeepers\x22:null\x7d" ∧
    (goHashLib.Sum256 (goHashLib.MarshalDBFT collidingGenesis.DBFT).1).take 4 = [2, 0, 0, 0] ∧
    candidateId goHashLib { Genesis := collidingGenesis } collidingGenesis = 2 ∧
    candidateId goHashLib { Genesis := collidingGenesis } MainNetConfig = 992174289 ∧
    candidateId goHashLib { Genesis := collidingGenesis } PolarisConfig = 992174289 ∧
    GetDefaultNetworkId goHashLib { Genesis := collidingGenesis } = (2, none) ∧
    GetNetworkName 2 = goStr "polaris" ∧
    GetNetworkName 2 ≠ decimalString 2 := by
  refine ⟨rfl, by decide!, by decide!, by decide!, by decide!, by decide!, by decide!,
    by decide, ?_⟩
  rw [decimalString_two]
  decide

/-- Claim C12, amended.  For consensus type vbft or dbft, `GetDefaultNetworkId` returns
`NETWORK_ID_MAIN_NET` if the candidate id equals the main reference id, else
`NETWORK_ID_POLARIS_NET` if it equals the polaris reference id, else the raw candidate id.
In the last case the network name is the decimal string of the candidate id when that id
is not one of the registered ids 1, 2, 3, and the registered name of the id when it is. -/
theorem getDefaultNetworkId_classification (lib : HashLib) (ht : lib.MarshalTotal)
    (cfg : OntologyConfig)
    (hct : cfg.Genesis.ConsensusType = CONSENSUS_TYPE_VBFT
      ∨ cfg.Genesis.ConsensusType = CONSENSUS_TYPE_DBFT) :
    GetDefaultNetworkId lib cfg =
      (if candidateId lib cfg cfg.Genesis = candidateId lib cfg MainNetConfig then
          NETWORK_ID_MAIN_NET
        else if candidateId lib cfg cfg.Genesis = candidateId lib cfg PolarisConfig then
          NETWORK_ID_POLARIS_NET
        else candidateId lib cfg cfg.Genesis, none) ∧
    (candidateId lib cfg cfg.Genesis ≠ candidateId lib cfg MainNetConfig →
      candidateId lib cfg cfg.Genesis ≠ candidateId lib cfg PolarisConfig →
      (GetDefaultNetworkId lib cfg).1 = candidateId lib cfg cfg.Genesis ∧
      (candidateId lib cfg cfg.Genesis ≠ 1 → candidateId lib cfg cfg.Genesis ≠ 2 →
        candidateId lib cfg cfg.Genesis ≠ 3 →
        GetNetworkName (GetDefaultNetworkId lib cfg).1 =
          decimalString (candidateId lib cfg cfg.Genesis)) ∧
      (candidateId lib cfg cfg.Genesis = 1 ∨ candidateId lib cfg cfg.Genesis = 2
          ∨ candidateId lib cfg cfg.Genesis = 3 →
        GetNetworkName (GetDefaultNetworkId lib cfg).1 =
          if candidateId lib cfg cfg.Genesis = 1 then NETWORK_NAME_MAIN_NET
          else if candidateId lib cfg cfg.Genesis = 2 then NETWORK_NAME_POLARIS_NET
          else NETWORK_NAME_SOLO_NET)) := by
  have hsup : SupportedConsensus cfg := by
    rcases hct with h | h
    · exact Or.inl h
    · exact Or.inr (Or.inl h)
  have hres := getDefaultNetworkId_of_ok lib cfg _ _ _
    (getDefNetworkID_ok lib ht cfg cfg.Genesis hsup)
    (getDefNetworkID_ok lib ht cfg MainNetConfig hsup)
    (getDefNetworkID_ok lib ht cfg PolarisConfig hsup)
  refine ⟨hres, ?_⟩
  intro h1 h2
  have hraw : (GetDefaultNetworkId lib cfg).1 = candidateId lib cfg cfg.Genesis := by
    rw [hres, if_neg h1, if_neg h2]
  refine ⟨hraw, ?_, ?_⟩
  · intro n1 n2 n3
    rw [hraw, getNetworkName_unregistered _ n1 n2 n3, goStr_repr]
  · intro hreg
    rw [hraw, getNetworkName_registered _ hreg]

/-- The classification rule on `collidingGenesis` with `json.Marshal` and SHA-256. -/
theorem getDefaultNetworkId_classification_witness :
    GetDefaultNetworkId goHashLib { Genesis := collidingGenesis } =
      (if candidateId goHashLib { Genesis := collidingGenesis } collidingGenesis =
            candidateId goHashLib { Genesis := collidingGenesis } MainNetConfig then
          NETWORK_ID_MAIN_NET
        else if candidateId goHashLib { Genesis := collidingGenesis } collidingGenesis =
            candidateId goHashLib { Genesis := collidingGenesis } PolarisConfig then
          NETWORK_ID_POLARIS_NET
        else candidateId goHashLib { Genesis := collidingGenesis } collidingGenesis, none) :=
  (getDefaultNetworkId_classification goHashLib goHashLib_total
    { Genesis := collidingGenesis } (Or.inr rfl)).1

/-- Claim C13.  With `json.Marshal` returning no error, `GetDefaultNetworkId` returns an
error exactly when the consensus type is none of `vbft`, `dbft`, `solo`, and the id
returned with an error is 0; so for each known type it succeeds whatever the sub-configs
hold. -/
theorem getDefaultNetworkId_error_iff (lib : HashLib) (ht : lib.MarshalTotal)
    (cfg : OntologyConfig) :
    ((GetDefaultNetworkId lib cfg).2.isSome = true ↔ ¬ SupportedConsensus cfg) ∧
    ((GetDefaultNetworkId lib cfg).2.isSome = true → (GetDefaultNetworkId lib cfg).1 = 0) := by
  by_cases hsup : SupportedConsensus cfg
  · have hres := getDefaultNetworkId_of_ok lib cfg _ _ _
      (getDefNetworkID_ok lib ht cfg cfg.Genesis hsup)
      (getDefNetworkID_ok lib ht cfg MainNetConfig hsup)
      (getDefNetworkID_ok lib ht cfg PolarisConfig hsup)
    rw [hres]
    simp [hsup]
  · rw [getDefaultNetworkId_unsupported lib cfg hsup]
    simp [hsup]

/-- The error of `GetDefaultNetworkId` on a configuration of consensus type `pow`. -/
theorem getDefaultNetworkId_error_iff_witness :
    (GetDefaultNetworkId goHashLib { Genesis := demoGenesis (goStr "pow") [] }).2.isSome = true ∧
    (GetDefaultNetworkId goHashLib { Genesis := demoGenesis (goStr "pow") [] }).1 = 0 := by
  have h := getDefaultNetworkId_error_iff goHashLib goHashLib_total
    { Genesis := demoGenesis (goStr "pow") [] }
  have hns : ¬ SupportedConsensus { Genesis := demoGenesis (goStr "pow") [] } := by
    unfold SupportedConsensus
    decide
  exact ⟨h.1.2 hns, h.2 (h.1.2 hns)⟩

/-- Claim C14.  `GetNetworkMagic` is the main-net magic for id 1, the polaris magic for
id 2, 0 for id 3, and the id itself for every other id. -/
theorem getNetworkMagic_eq (k : MagicConstants) (id : Nat) :
    GetNetworkMagic k id =
      if id = 1 then k.NETWORK_MAGIC_MAINNET
      else if id = 2 then k.NETWORK_MAGIC_POLARIS
      else if id = 3 then 0
      else id := by
  unfold GetNetworkMagic NETWORK_MAGIC NETWORK_ID_MAIN_NET NETWORK_ID_POLARIS_NET
    NETWORK_ID_SOLO_NET
  by_cases h1 : id = 1
  · subst h1; rfl
  · by_cases h2 : id = 2
    · subst h2; rfl
    · by_cases h3 : id = 3
      · subst h3; rfl
      · have e1 : (id == 1) = false := by simpa using h1
        have e2 : (id == 2) = false := by simpa using h2
        have e3 : (id == 3) = false := by simpa using h3
        simp only [List.lookup, e1, e2, e3, if_neg h1, if_neg h2, if_neg h3]

/-- Claim C15.  `GetNetworkName` is `ontology`, `polaris`, `testmode` for the ids 1, 2, 3
and the decimal string of the id otherwise; the decimal string consists of ASCII digits
only (no sign), does not start with the digit 0 unless the id is 0, and its digits, read in
base 10, give the id. -/
theorem getNetworkName_eq (id : Nat) :
    GetNetworkName id =
      (if id = 1 then goStr "ontology"
      else if id = 2 then goStr "polaris"
      else if id = 3 then goStr "testmode"
      else decimalString id) ∧
    (∀ b ∈ decimalString id, 48 ≤ b ∧ b ≤ 57) ∧
    (id ≠ 0 → (decimalString id).head? ≠ some 48) ∧
    Nat.ofDigits 10 (((decimalString id).map (fun b => b - 48)).reverse) = id := by
  refine ⟨?_, decimalString_digits id, decimalString_no_leading_zero id,
    decimalString_value id⟩
  by_cases h1 : id = 1
  · subst h1; decide
  · by_cases h2 : id = 2
    · subst h2; decide
    · by_cases h3 : id = 3
      · subst h3; decide
      · rw [if_neg h1, if_neg h2, if_neg h3, getNetworkName_unregistered id h1 h2 h3,
          goStr_repr]

/-- The name of the unregistered id 77. -/
theorem getNetworkName_eq_witness :
    GetNetworkName 77 = decimalString 77 ∧ decimalString 77 = goStr "77" := by
  have h := (getNetworkName_eq 77).1
  have h1 : ¬ (77 = 1) := by decide
  have h2 : ¬ (77 = 2) := by decide
  have h3 : ¬ (77 = 3) := by decide
  rw [if_neg h1, if_neg h2, if_neg h3] at h
  refine ⟨h, ?_⟩
  rw [← h]
  decide

set_option maxRecDepth 1000000 in
/-- Claim C16 fails as stated: for the vbft configuration `emptyVbftGenesis`,
`VBFTConfig.Serialize` writes 40 zero bytes, while the bytes that are hashed are the JSON
text of the sub-config, and the candidate id is not the one read from the digest of the
40 zero bytes. -/
theorem hashed_bytes_not_serialize :
    emptyVbftGenesis.ConsensusType = CONSENSUS_TYPE_VBFT ∧
    (∀ lib : AddressLib,
      VBFTConfig.Serialize lib emptyVbftGenesis.VBFT [] = (List.replicate 40 0, none)) ∧
    (goHashLib.MarshalVBFT emptyVbftGenesis.VBFT).1 ≠ List.replicate 40 0 ∧
    candidateId goHashLib { Genesis := emptyVbftGenesis } emptyVbftGenesis ≠
      LittleEndianUint32 ((goHashLib.Sum256 (List.replicate 40 0)).take 4) := by
  refine ⟨rfl, ?_, by decide!, by decide!⟩
  intro lib
  rw [serialize_eq]
  rfl

/-- Claim C16, amended.  For consensus type vbft the candidate id is the little-endian
value of the first four bytes of `sha256.Sum256` applied to the bytes returned by
`json.Marshal` on the VBFT sub-config. -/
theorem candidateId_vbft_json (lib : HashLib) (cfg : OntologyConfig) (genCfg : GenesisConfig)
    (hct : cfg.Genesis.ConsensusType = CONSENSUS_TYPE_VBFT)
    (hm : (lib.MarshalVBFT genCfg.VBFT).2 = none) :
    getDefNetworkIDFromGenesisConfig lib cfg genCfg =
      (littleEndianValue
        (((lib.Sum256 (lib.MarshalVBFT genCfg.VBFT).1).take 4).map (fun b => b % 256)),
        none) := by
  rw [getDefNetworkID_vbft lib cfg genCfg hct hm,
    littleEndianUint32_eq _ (lib.size_ok _)]

/-- The candidate id of `emptyVbftGenesis` with `json.Marshal` and SHA-256. -/
theorem candidateId_vbft_json_witness :
    getDefNetworkIDFromGenesisConfig goHashLib { Genesis := emptyVbftGenesis }
        emptyVbftGenesis =
      (littleEndianValue
        (((goHashLib.Sum256 (goHashLib.MarshalVBFT emptyVbftGenesis.VBFT).1).take 4).map
          (fun b => b % 256)), none) :=
  candidateId_vbft_json goHashLib { Genesis := emptyVbftGenesis } emptyVbftGenesis rfl rfl

/-- Claim C17.  `getDefNetworkIDFromGenesisConfig` hashes the VBFT sub-config of its
argument when the consensus type of the caller is vbft and the DBFT sub-config when it is
dbft; the consensus type of the argument is not read.  So for a dbft caller the reference
ids are those of `MainNetConfig.DBFT` and `PolarisConfig.DBFT`, and the VBFT sub-config of
the argument is not read either. -/
theorem reference_ids_use_caller_type (lib : HashLib) (cfg : OntologyConfig)
    (genCfg : GenesisConfig) :
    (cfg.Genesis.ConsensusType = CONSENSUS_TYPE_VBFT →
      getDefNetworkIDFromGenesisConfig lib cfg genCfg =
        hashConfigData lib (lib.MarshalVBFT genCfg.VBFT)) ∧
    (cfg.Genesis.ConsensusType = CONSENSUS_TYPE_DBFT →
      getDefNetworkIDFromGenesisConfig lib cfg genCfg =
        hashConfigData lib (lib.MarshalDBFT genCfg.DBFT)) ∧
    (∀ t : GoString,
      getDefNetworkIDFromGenesisConfig lib cfg { genCfg with ConsensusType := t } =
        getDefNetworkIDFromGenesisConfig lib cfg genCfg) ∧
    (cfg.Genesis.ConsensusType = CONSENSUS_TYPE_DBFT →
      getDefNetworkIDFromGenesisConfig lib cfg MainNetConfig =
          hashConfigData lib (lib.MarshalDBFT MainNetConfig.DBFT) ∧
        getDefNetworkIDFromGenesisConfig lib cfg PolarisConfig =
          hashConfigData lib (lib.MarshalDBFT PolarisConfig.DBFT) ∧
        ∀ v : VBFTConfig,
          getDefNetworkIDFromGenesisConfig lib cfg { genCfg with VBFT := v } =
            getDefNetworkIDFromGenesisConfig lib cfg genCfg) := by
  have hv : ∀ g : GenesisConfig, cfg.Genesis.ConsensusType = CONSENSUS_TYPE_VBFT →
      getDefNetworkIDFromGenesisConfig lib cfg g =
        hashConfigData lib (lib.MarshalVBFT g.VBFT) := by
    intro g h
    unfold getDefNetworkIDFromGenesisConfig
    rw [if_pos h]
  have hd : ∀ g : GenesisConfig, cfg.Genesis.ConsensusType = CONSENSUS_TYPE_DBFT →
      getDefNetworkIDFromGenesisConfig lib cfg g =
        hashConfigData lib (lib.MarshalDBFT g.DBFT) := by
    intro g h
    unfold getDefNetworkIDFromGenesisConfig
    rw [h, if_neg dbft_ne_vbft, if_pos rfl]
  refine ⟨hv genCfg, hd genCfg, fun t => rfl, fun h => ⟨hd _ h, hd _ h, fun v => ?_⟩⟩
  rw [hd _ h, hd _ h]

/-- The reference ids for the dbft caller `NewGenesisConfig` and the argument
`PolarisConfig`. -/
theorem reference_ids_use_caller_type_witness :
    getDefNetworkIDFromGenesisConfig demoHashLib { Genesis := NewGenesisConfig } MainNetConfig =
        hashConfigData demoHashLib (demoHashLib.MarshalDBFT MainNetConfig.DBFT) ∧
    getDefNetworkIDFromGenesisConfig demoHashLib { Genesis := NewGenesisConfig } PolarisConfig =
        hashConfigData demoHashLib (demoHashLib.MarshalDBFT PolarisConfig.DBFT) :=
  ⟨((reference_ids_use_caller_type demoHashLib { Genesis := NewGenesisConfig }
      PolarisConfig).2.2.2 rfl).1,
   ((reference_ids_use_caller_type demoHashLib { Genesis := NewGenesisConfig }
      PolarisConfig).2.2.2 rfl).2.1⟩

/-- Claim C18.  Two configurations with the same consensus type and the same sub-config
for that type give the same result of `GetBookkeepers` and the same result of
`GetDefaultNetworkId`, whatever their seed lists and other sub-configs hold. -/
theorem nonselected_ignored {PublicKey : Type} (kp : KeypairLib PublicKey) (lib : HashLib)
    (c1 c2 : OntologyConfig) (h : SameSelected c1 c2) :
    GetBookkeepers kp c1 = GetBookkeepers kp c2 ∧
      GetDefaultNetworkId lib c1 = GetDefaultNetworkId lib c2 := by
  constructor
  · unfold GetBookkeepers
    rw [selectBookkeepers_congr c1 c2 h, h.1]
  · unfold GetDefaultNetworkId
    rw [getDefNetworkID_self lib c1 c2 h, getDefNetworkID_congr lib c1 c2 MainNetConfig h.1,
      getDefNetworkID_congr lib c1 c2 PolarisConfig h.1]

/-- Two solo configurations that differ in the seed list and in the VBFT and DBFT
sub-configs. -/
theorem nonselected_ignored_witness :
    GetBookkeepers demoKeypairLib
        { Genesis := demoGenesis CONSENSUS_TYPE_SOLO [goStr "09", goStr "03"] } =
      GetBookkeepers demoKeypairLib
        { Genesis :=
            { demoGenesis CONSENSUS_TYPE_SOLO [goStr "09", goStr "03"] with
              SeedList := none, VBFT := demoConfig, DBFT := DBFTConfig.zero } } ∧
    GetDefaultNetworkId demoHashLib
        { Genesis := demoGenesis CONSENSUS_TYPE_SOLO [goStr "09", goStr "03"] } =
      GetDefaultNetworkId demoHashLib
        { Genesis :=
            { demoGenesis CONSENSUS_TYPE_SOLO [goStr "09", goStr "03"] with
              SeedList := none, VBFT := demoConfig, DBFT := DBFTConfig.zero } } :=
  nonselected_ignored demoKeypairLib demoHashLib _ _ (by unfold SameSelected; decide)

/-- Claim C19.  With `json.Marshal` succeeding on the empty DBFT sub-config, the default
network id of `NewGenesisConfig`, and of every dbft configuration whose DBFT sub-config is
that of `MainNetConfig`, is `NETWORK_ID_MAIN_NET`.  The DBFT sub-configs of `MainNetConfig`
and `PolarisConfig` are equal, so a dbft configuration gets either `NETWORK_ID_MAIN_NET` or
its raw candidate id: the polaris branch is never taken. -/
theorem getDefaultNetworkId_dbft (lib : HashLib)
    (hz : (lib.MarshalDBFT DBFTConfig.zero).2 = none) :
    GetDefaultNetworkId lib { Genesis := NewGenesisConfig } = (NETWORK_ID_MAIN_NET, none) ∧
    (∀ cfg : OntologyConfig, cfg.Genesis.ConsensusType = CONSENSUS_TYPE_DBFT →
      cfg.Genesis.DBFT = MainNetConfig.DBFT →
      GetDefaultNetworkId lib cfg = (NETWORK_ID_MAIN_NET, none)) ∧
    MainNetConfig.DBFT = PolarisConfig.DBFT ∧
    (∀ cfg : OntologyConfig, cfg.Genesis.ConsensusType = CONSENSUS_TYPE_DBFT →
      (lib.MarshalDBFT cfg.Genesis.DBFT).2 = none →
      GetDefaultNetworkId lib cfg =
        (if candidateId lib cfg cfg.Genesis = candidateId lib cfg MainNetConfig then
            NETWORK_ID_MAIN_NET
          else candidateId lib cfg cfg.Genesis, none)) := by
  have hgen : ∀ cfg : OntologyConfig, cfg.Genesis.ConsensusType = CONSENSUS_TYPE_DBFT →
      (lib.MarshalDBFT cfg.Genesis.DBFT).2 = none →
      GetDefaultNetworkId lib cfg =
        (if candidateId lib cfg cfg.Genesis = candidateId lib cfg MainNetConfig then
            NETWORK_ID_MAIN_NET
          else candidateId lib cfg cfg.Genesis, none) := by
    intro cfg hct hm
    have hc := getDefNetworkID_dbft lib cfg cfg.Genesis hct hm
    have hmain := getDefNetworkID_dbft lib cfg MainNetConfig hct hz
    have hpol := getDefNetworkID_dbft lib cfg PolarisConfig hct hz
    rw [getDefaultNetworkId_of_ok lib cfg _ _ _ hc hmain hpol]
    unfold candidateId
    rw [hc, hmain]
    by_cases h1 : LittleEndianUint32 ((lib.Sum256 (lib.MarshalDBFT cfg.Genesis.DBFT).1).take 4)
        = LittleEndianUint32 ((lib.Sum256 (lib.MarshalDBFT MainNetConfig.DBFT).1).take 4)
    · rw [if_pos h1, if_pos h1]
    · rw [if_neg h1, if_neg h1]
      have h2 : ¬ LittleEndianUint32 ((lib.Sum256 (lib.MarshalDBFT cfg.Genesis.DBFT).1).take 4)
          = LittleEndianUint32 ((lib.Sum256 (lib.MarshalDBFT PolarisConfig.DBFT).1).take 4) :=
        h1
      rw [if_neg h2]
  have hmainnet : ∀ cfg : OntologyConfig,
      cfg.Genesis.ConsensusType = CONSENSUS_TYPE_DBFT →
      cfg.Genesis.DBFT = MainNetConfig.DBFT →
      GetDefaultNetworkId lib cfg = (NETWORK_ID_MAIN_NET, none) := by
    intro cfg hct hd
    have hm : (lib.MarshalDBFT cfg.Genesis.DBFT).2 = none := by rw [hd]; exact hz
    rw [hgen cfg hct hm]
    have hEq : candidateId lib cfg cfg.Genesis = candidateId lib cfg MainNetConfig := by
      unfold candidateId
      rw [getDefNetworkID_dbft lib cfg cfg.Genesis hct hm,
        getDefNetworkID_dbft lib cfg MainNetConfig hct hz, hd]
    rw [if_pos hEq]
  exact ⟨hmainnet _ rfl rfl, hmainnet, rfl, hgen⟩

/-- The dbft classification with `json.Marshal` and SHA-256. -/
theorem getDefaultNetworkId_dbft_witness :
    GetDefaultNetworkId goHashLib { Genesis := NewGenesisConfig } = (1, none) ∧
    MainNetConfig.DBFT = PolarisConfig.DBFT :=
  ⟨(getDefaultNetworkId_dbft goHashLib rfl).1, (getDefaultNetworkId_dbft goHashLib rfl).2.2.1⟩

/-- Claim C20.  When `(*VBFTConfig).Deserialize`, respectively
`(*VBFTPeerStakeInfo).Deserialize`, returns an error, the receiver is exactly what it was
before the call. -/
theorem deserialize_atomic (lib : AddressLib) :
    (∀ (this : VBFTConfig) (r : Reader) (e : GoError),
      (VBFTConfig.Deserialize lib this r).2 = Except.error e →
        (VBFTConfig.Deserialize lib this r).1 = this) ∧
    (∀ (this : VBFTPeerStakeInfo) (r : Reader) (e : GoError),
      (VBFTPeerStakeInfo.Deserialize lib this r).2 = Except.error e →
        (VBFTPeerStakeInfo.Deserialize lib this r).1 = this) := by
  constructor
  · intro this r e he
    rcases deserialize_cases lib this r with h | ⟨r', h⟩
    · exact h
    · rw [h] at he; cases he
  · intro this r e he
    rcases peer_deserialize_cases lib this r with h | ⟨r', h⟩
    · exact h
    · rw [h] at he; cases he

/-- The encoding of `demoConfig` cut inside the record of its second peer: `Deserialize`
fails after the first peer was decoded, and the receiver `demoBadConfig` is unchanged. -/
theorem deserialize_atomic_witness :
    (∃ e, (VBFTConfig.Deserialize demoAddressLib demoBadConfig
        ((VBFTConfig.Serialize demoAddressLib demoConfig []).1.take 70)).2 = Except.error e) ∧
    (VBFTConfig.Deserialize demoAddressLib demoBadConfig
        ((VBFTConfig.Serialize demoAddressLib demoConfig []).1.take 70)).1 = demoBadConfig := by
  have hex : ∃ e, (VBFTConfig.Deserialize demoAddressLib demoBadConfig
      ((VBFTConfig.Serialize demoAddressLib demoConfig []).1.take 70)).2 = Except.error e :=
    ⟨_, rfl⟩
  obtain ⟨e, he⟩ := hex
  exact ⟨⟨e, he⟩, (deserialize_atomic demoAddressLib).1 demoBadConfig _ e he⟩

/-- Claim C21 does not follow from the sources: `shortReadLib` inverts the writers on every
complete input, which is all the specification asks of decoding, and with it `Deserialize`
succeeds on the encoding of `demoConfig` without its last byte, with the configuration it
returns on the complete encoding. -/
theorem deserialize_accepts_truncated :
    (shortReadLib demoAddressLib).Inverts demoAddressLib ∧
    ValidAddresses demoAddressLib demoConfig ∧
    (VBFTConfig.Serialize demoAddressLib demoConfig []).1.dropLast ++ [0]
      = (VBFTConfig.Serialize demoAddressLib demoConfig []).1 ∧
    VBFTConfig.DeserializeWith (shortReadLib demoAddressLib) demoAddressLib VBFTConfig.zero
        (VBFTConfig.Serialize demoAddressLib demoConfig []).1.dropLast =
      (decodedConfig demoAddressLib demoConfig, Except.ok []) ∧
    VBFTConfig.DeserializeWith (shortReadLib demoAddressLib) demoAddressLib VBFTConfig.zero
        (VBFTConfig.Serialize demoAddressLib demoConfig []).1 =
      (decodedConfig demoAddressLib demoConfig, Except.ok []) :=
  ⟨shortReadLib_inverts demoAddressLib, by decide, by decide, rfl, rfl⟩

/-- Claim C21, amended.  Let the readers invert the writers and report an input that ends
too early.  For a configuration `cfg` with Go-sized lengths all of whose peer addresses are
accepted, cut the bytes written by `Serialize` into `p ++ s` with `s` not empty: then
`Deserialize` on the strict prefix `p` returns an error, whatever the receiver. -/
theorem deserializeWith_truncated (rd : ReaderLib) (lib : AddressLib) (hi : rd.Inverts lib)
    (he : rd.ReportsShortInput) (cfg this : VBFTConfig) (hs : cfg.Sized)
    (hv : ValidAddresses lib cfg) (p s : List Byte)
    (hp : (VBFTConfig.Serialize lib cfg []).1 = p ++ s) (hne : s ≠ []) :
    ∃ e, (VBFTConfig.DeserializeWith rd lib this p).2 = Except.error e := by
  rw [serialize_valid lib cfg hv [], List.nil_append] at hp
  dsimp only at hp
  cases hd : (VBFTConfig.DeserializeWith rd lib this p).2 with
  | error e => exact ⟨e, rfl⟩
  | ok r' =>
    exfalso
    have h1 := deserializeWith_ext rd he lib this p s r' hd
    have h2 := deserializeWith_encoding rd lib hi this cfg hs hv []
    rw [List.append_nil, hp, h1] at h2
    have h3 : r' ++ s = [] := by
      have := congrArg Prod.snd h2
      simpa using this
    exact hne (List.append_eq_nil.mp h3).2

/-- The encoding of `demoConfig` without its last byte is rejected when read with the
modelled readers, which fail on an input that ends too early. -/
theorem deserializeWith_truncated_witness :
    (modelledReaders demoAddressLib).Inverts demoAddressLib ∧
    (modelledReaders demoAddressLib).ReportsShortInput ∧
    (VBFTConfig.Serialize demoAddressLib demoConfig []).1.dropLast ++ [0]
      = (VBFTConfig.Serialize demoAddressLib demoConfig []).1 ∧
    ∃ e, (VBFTConfig.DeserializeWith (modelledReaders demoAddressLib) demoAddressLib
      VBFTConfig.zero (VBFTConfig.Serialize demoAddressLib demoConfig []).1.dropLast).2
        = Except.error e :=
  ⟨modelledReaders_inverts demoAddressLib, modelledReaders_reportsShortInput demoAddressLib,
    by decide,
    deserializeWith_truncated (modelledReaders demoAddressLib) demoAddressLib
      (modelledReaders_inverts demoAddressLib)
      (modelledReaders_reportsShortInput demoAddressLib) demoConfig VBFTConfig.zero
      (by decide) (by decide)
      (VBFTConfig.Serialize demoAddressLib demoConfig []).1.dropLast [0] (by decide)
      (by decide)⟩

/-- Claim C22.  For a `Genesis.ConsensusType` other than "vbft", "dbft" and "solo",
`GetBookkeepers` returns a nil key list and the error built from the consensus type alone,
so that two configurations with that consensus type get the same result whatever their
sub-configs hold; for one of the three known types with an empty source key list it returns
an empty key list and no error. -/
theorem getBookkeepers_unknown_or_empty {PublicKey : Type} (kp : KeypairLib PublicKey)
    (hs : kp.Sorts) (cfg : OntologyConfig) :
    (¬ SupportedConsensus cfg →
      GetBookkeepers kp cfg = (none, some (GoError.errorf
        (goStr "Does not support " ++ cfg.Genesis.ConsensusType ++ goStr " consensus"))) ∧
      ∀ cfg' : OntologyConfig, cfg'.Genesis.ConsensusType = cfg.Genesis.ConsensusType →
        GetBookkeepers kp cfg' = GetBookkeepers kp cfg) ∧
    (SupportedConsensus cfg → sourceKeyList cfg = [] →
      GetBookkeepers kp cfg = (some [], none)) := by
  constructor
  · intro hsup
    have h1 : ∀ c : OntologyConfig, ¬ SupportedConsensus c →
        GetBookkeepers kp c = (none, some (GoError.errorf
          (goStr "Does not support " ++ c.Genesis.ConsensusType ++ goStr " consensus"))) := by
      intro c hc
      unfold GetBookkeepers
      simp only [selectBookkeepers_unsupported c hc]
    refine ⟨h1 cfg hsup, ?_⟩
    intro cfg' hct
    have hsup' : ¬ SupportedConsensus cfg' := by
      unfold SupportedConsensus at hsup ⊢
      rw [hct]
      exact hsup
    rw [h1 cfg hsup, h1 cfg' hsup', hct]
  · intro hsup hnil
    have h := getBookkeepers_of_keys kp cfg hsup [] (by rw [hnil]; rfl)
    rw [h, sortPublicKeys_nil kp hs]

/-- The consensus type "pow" is rejected with bookkeepers present in the sub-configs, and a
solo configuration without bookkeepers yields the empty key list. -/
theorem getBookkeepers_unknown_or_empty_witness :
    GetBookkeepers demoKeypairLib { Genesis := demoGenesis (goStr "pow") [goStr "09"] } =
      (none, some (GoError.errorf (goStr "Does not support pow consensus"))) ∧
    GetBookkeepers demoKeypairLib { Genesis := demoGenesis CONSENSUS_TYPE_SOLO [] } =
      (some [], none) :=
  ⟨((getBookkeepers_unknown_or_empty demoKeypairLib demo_sorts
      { Genesis := demoGenesis (goStr "pow") [goStr "09"] }).1 (by decide)).1,
    (getBookkeepers_unknown_or_empty demoKeypairLib demo_sorts
      { Genesis := demoGenesis CONSENSUS_TYPE_SOLO [] }).2 (by decide) (by decide)⟩

end Ontology
